import Mathlib

/-!
# Gingerwar: tile-grid physics, collision queries and the simulation tick

A shallow embedding of the simulation core of `helloworld.c`, and theorems about
it.  Functions of the C program keep their names; the blocks of `UpdateState`
and the two loops of `UpdateMonsters` are definitions of their own, named after
what the block does, with the line numbers of the block in their comment.

Conventions of the embedding

* C `int` values are `Int`.  A conversion from floating point to `int` whose
  value does not fit 32 bits is the fault `Fault.intOverflow`.
* `float` velocities are the rational numbers they denote (`Rat`), so a statement
  about every `Rat` covers every finite `float`.  Multiplying by the tile size
  and `round` are exact on them.  The constants `0.05`, `0.15`, `0.5` are taken
  at their decimal value and the gravity decrement is exact.
* A floating division `0/0` (the sign extraction of `atCorner` on a zero
  component, whose result is then converted to `int`) is the fault
  `Fault.divisionByZero`.
* `grid` is the two dimensional array `grid[RIGHT+1][TOP+1]`.  Reading or writing
  a slot whose coordinates are outside it is the fault `Fault.outOfBounds`.
* Pointers to game objects are `ObjRef`: the global `player`, or the address of
  a heap node of one of the two linked lists.  `malloc` hands out the fresh
  address `heap_next` and does not fail.  Following a pointer to a node that is
  in neither list is the fault `Fault.useAfterFree`.
* `DestroyObject` frees a node; the removal loop then continues from the link
  field of the freed node.  That read is taken to yield the value the field had,
  a later write through it is the fault `Fault.useAfterFree` (see `collect`).
* The clock and the random number generator are inputs of a tick (`TickInput`);
  clock readings and `last_time` are rational numbers of seconds.
* Rendering, icons and the SDL event loop are not part of the embedding.

Concrete evaluations in the theorems below are checked by kernel reduction.
-/

namespace Gingerwar

/-! ## Constants -/

def TOP : Int := 14
def BOTTOM : Int := 0
def RIGHT : Int := 19
def LEFT : Int := 0

def TILE_WIDTH : Int := 32
def TILE_HEIGHT : Int := 32
def TILE_CENTER_X : Int := 15
def TILE_CENTER_Y : Int := 15

def HORIZONTAL : Int := 1
def VERTICAL : Int := 2

def INT_MIN : Int := -2147483648
def INT_MAX : Int := 2147483647

/-! ## Data model -/

/-- Ways in which the C program leaves defined behaviour. -/
inductive Fault where
  | outOfBounds
  | divisionByZero
  | useAfterFree
  | intOverflow
  deriving DecidableEq, Repr

inductive ObjectType where
  | PLAYER
  | MONSTER
  | PLATFORM
  deriving DecidableEq, Repr

/-- Stores a location (`struct point`). -/
structure point where
  x : Int
  y : Int
  deriving DecidableEq, Repr

/-- Stores a direction or speed (`struct vector`). -/
structure vector where
  x : Rat
  y : Rat
  deriving DecidableEq

/-- Game object (`struct object`), without its icon. -/
structure object where
  location : point
  center : point
  speed : vector
  alive : Bool
  type : ObjectType
  deriving DecidableEq

/-- Node of a linked list of objects (`struct object_list`): the address
`malloc` returned for it and the object it stores.  The `next_object` link is
the list structure itself. -/
structure object_list where
  addr : Nat
  object : object
  deriving DecidableEq

/-- Value of a `struct object *`: the global player or a heap node. -/
inductive ObjRef where
  | player
  | node (addr : Nat)
  deriving DecidableEq, Repr

/-- Contents of the array `grid`; only slots inside the board are storage. -/
abbrev Grid := Int → Int → Option ObjRef

/-- World state: every global and static variable of the simulation. -/
structure World where
  player : object
  blocked_left : Bool
  blocked_right : Bool
  g_blocks : List object_list
  g_monsters : List object_list
  grid : Grid
  last_time : Rat
  heap_next : Nat

/-- What one tick reads from outside: `time(NULL)` at the start of the spawn
block, `rand()`, and `time(NULL)` when the timer is reset.  Clock readings are
in seconds; `time_t` is an arithmetic type whose resolution `time.h` fixes, so
a reading is a rational number (whole seconds are a special case). -/
structure TickInput where
  now : Rat
  rand : Nat
  now2 : Rat
  deriving DecidableEq

/-! ## Arithmetic helpers -/

/-- C `round`: nearest integer, halves away from zero. -/
def cround (q : Rat) : Int :=
  if 0 ≤ q then Rat.floor (q + 1 / 2) else -Rat.floor (-q + 1 / 2)

/-- Conversion of a floating value to an integer: truncation toward zero. -/
def ctrunc (q : Rat) : Int :=
  if 0 ≤ q then Rat.floor q else -Rat.floor (-q)

/-- Storing an integral value into an `int`. -/
def toInt (i : Int) : Except Fault Int :=
  if INT_MIN ≤ i ∧ i ≤ INT_MAX then .ok i else .error .intOverflow

/-- The call `abs(v)` with a `float` argument: `abs` is the integer function of
`stdlib.h`, so the argument is first converted to `int`. -/
def cAbs (v : Rat) : Except Fault Int :=
  if INT_MIN < ctrunc v ∧ ctrunc v ≤ INT_MAX then .ok |ctrunc v| else .error .intOverflow

/-- Short-circuit `a && b` where only `b` touches memory. -/
def andThen (a : Bool) (b : Except Fault Bool) : Except Fault Bool :=
  if a then b else .ok false

/-- Short-circuit `a || b` where both operands touch memory. -/
def orElse (a b : Except Fault Bool) : Except Fault Bool :=
  match a with
  | .error e => .error e
  | .ok true => .ok true
  | .ok false => b

/-! ## Grid -/

def inBoard (x y : Int) : Prop :=
  LEFT ≤ x ∧ x ≤ RIGHT ∧ BOTTOM ≤ y ∧ y ≤ TOP

instance (x y : Int) : Decidable (inBoard x y) := by
  unfold inBoard; infer_instance

/-- Value of `grid[x][y]`. -/
def gridRead (grid : Grid) (x y : Int) : Except Fault (Option ObjRef) :=
  if inBoard x y then .ok (grid x y) else .error .outOfBounds

/-- Assignment `grid[x][y] = v`. -/
def gridWrite (grid : Grid) (x y : Int) (v : Option ObjRef) : Except Fault Grid :=
  if inBoard x y then .ok (fun i j => if i = x ∧ j = y then v else grid i j)
  else .error .outOfBounds

/-- Test `grid[x][y] != NULL`. -/
def occupied (grid : Grid) (x y : Int) : Except Fault Bool :=
  match gridRead grid x y with
  | .ok s => .ok s.isSome
  | .error e => .error e

/-! ## Collision queries -/

def onFloor (grid : Grid) (obj : object) : Except Fault Bool :=
  if obj.location.y = BOTTOM then .ok true
  else occupied grid obj.location.x (obj.location.y - 1)

def atCeiling (grid : Grid) (obj : object) : Except Fault Bool :=
  if obj.location.y = TOP then .ok true
  else occupied grid obj.location.x (obj.location.y + 1)

def atRightWall (grid : Grid) (obj : object) : Except Fault Bool :=
  if obj.location.x = RIGHT then .ok true
  else occupied grid (obj.location.x + 1) obj.location.y

def atLeftWall (grid : Grid) (obj : object) : Except Fault Bool :=
  if obj.location.x = LEFT then .ok true
  else occupied grid (obj.location.x - 1) obj.location.y

/-- The expression `(int)(d / fabs(d))`. -/
def dirSign (d : Rat) : Except Fault Int :=
  if d = 0 then .error .divisionByZero else .ok (ctrunc (d / |d|))

def atCorner (grid : Grid) (obj : object) (direction : vector) : Except Fault Bool :=
  match dirSign direction.x with
  | .error e => .error e
  | .ok x =>
    match dirSign direction.y with
    | .error e => .error e
    | .ok y => occupied grid (obj.location.x + x) (obj.location.y + y)

/-! ## Stopping and moving -/

/-- Stops an object and centers it in its square. -/
def StopObject (obj : object) (direction : Int) : object :=
  if direction = HORIZONTAL then
    { obj with speed := { obj.speed with x := 0 },
               center := { obj.center with x := TILE_CENTER_X } }
  else if direction = VERTICAL then
    { obj with speed := { obj.speed with y := 0 },
               center := { obj.center with y := TILE_CENTER_Y } }
  else if direction = 3 then
    { obj with speed := { x := 0, y := 0 },
               center := { x := TILE_CENTER_X, y := TILE_CENTER_Y } }
  else obj

/-- One axis of `MoveObject`: from the candidate offset, the change of the tile
coordinate and the offset that is stored. -/
def rollover (tile new_center size : Int) : Int × Int :=
  if new_center < 0 then (tile - 1, new_center + size)
  else if new_center > size then (tile + 1, new_center - size)
  else (tile, new_center)

/-- Moves the object `self` (whose value is `obj`) in `direction`, updating the
grid as it does so. -/
def MoveObject (grid : Grid) (self : ObjRef) (obj : object) (direction : vector) :
    Except Fault (Grid × object) := do
  let new_center_x ← toInt (obj.center.x + cround (direction.x * TILE_WIDTH))
  let new_center_y ← toInt (obj.center.y + cround (direction.y * TILE_HEIGHT))
  let grid1 ← gridWrite grid obj.location.x obj.location.y none
  let ax := rollover obj.location.x new_center_x TILE_WIDTH
  let ay := rollover obj.location.y new_center_y TILE_HEIGHT
  let grid2 ← gridWrite grid1 ax.1 ay.1 (some self)
  pure (grid2, { obj with location := { x := ax.1, y := ay.1 },
                          center := { x := ax.2, y := ay.2 } })

/-! ## Object lists -/

/-- Inserts a new object at the end of the list `objects` and makes the grid
slot at its location reference it.  `addr` is the address `malloc` returned. -/
def CreateObject (grid : Grid) (objects : List object_list) (addr : Nat)
    (location center : point) (speed : vector) (object_type : ObjectType) :
    Except Fault (Grid × List object_list) := do
  let new_object : object_list :=
    { addr := addr,
      object := { location := location, center := center, speed := speed,
                  alive := true, type := object_type } }
  let grid1 ← gridWrite grid location.x location.y (some (.node addr))
  pure (grid1, objects ++ [new_object])

/-- Object a pointer refers to. -/
def deref (w : World) : ObjRef → Except Fault object
  | .player => .ok w.player
  | .node a =>
    match (w.g_blocks ++ w.g_monsters).find? (fun n => n.addr = a) with
    | some n => .ok n.object
    | none => .error .useAfterFree

/-- Assignment `n->object.alive = FALSE` for the nodes at address `a`. -/
def killNode (a : Nat) (n : object_list) : object_list :=
  if n.addr = a then { n with object := { n.object with alive := false } } else n

/-- Assignment `p->alive = FALSE` through the pointer `p`. -/
def killRef (w : World) : ObjRef → World
  | .player => { w with player := { w.player with alive := false } }
  | .node a => { w with g_blocks := w.g_blocks.map (killNode a),
                        g_monsters := w.g_monsters.map (killNode a) }

/-- Test `grid[x][y] != NULL && grid[x][y]->type == MONSTER`. -/
def monsterAt (w : World) (x y : Int) : Except Fault Bool :=
  match gridRead w.grid x y with
  | .error e => .error e
  | .ok none => .ok false
  | .ok (some r) =>
    match deref w r with
    | .error e => .error e
    | .ok o => .ok (decide (o.type = ObjectType.MONSTER))

/-! ## The tick, block by block -/

/-- Lines 470-483 of `UpdateState`: centering a still player and stopping it at
a wall. -/
def horizontalResponse (w : World) : Except Fault World := do
  let w1 : World :=
    if w.player.speed.x = 0 then
      { w with player := { w.player with center := { w.player.center with x := TILE_CENTER_X } } }
    else w
  let hit ← orElse (andThen (decide (w1.player.speed.x ≥ 0)) (atRightWall w1.grid w1.player))
                   (andThen (decide (w1.player.speed.x ≤ 0)) (atLeftWall w1.grid w1.player))
  if hit then
    let w2 : World :=
      if w1.player.speed.x < 0 then { w1 with blocked_right := true }
      else if w1.player.speed.x > 0 then { w1 with blocked_left := true }
      else w1
    pure { w2 with player := StopObject w2.player HORIZONTAL }
  else pure w1

/-- Ceiling, floor and gravity (lines 485-494 for the player, 435-444 for a
monster: the same statements). -/
def verticalResponse (grid : Grid) (obj : object) : Except Fault object := do
  let c ← andThen (decide (obj.speed.y ≥ 0)) (atCeiling grid obj)
  let o1 := if c then StopObject obj VERTICAL else obj
  let f ← andThen (decide (o1.speed.y ≤ 0)) (onFloor grid o1)
  if f then pure (StopObject o1 VERTICAL)
  else if o1.speed.y > -1 / 2 then
    pure { o1 with speed := { o1.speed with y := o1.speed.y - 1 / 20 } }
  else if o1.speed.y = 0 then
    pure { o1 with center := { o1.center with y := TILE_CENTER_Y } }
  else pure o1

/-- Corner lock (lines 496-503 for the player, 446-454 for a monster). -/
def cornerLock (grid : Grid) (obj : object) : Except Fault object := do
  let c ← atCorner grid obj obj.speed
  if c ∧ ¬(obj.speed.x = 0 ∧ obj.speed.y = 0) then
    let ax ← cAbs obj.speed.x
    let ay ← cAbs obj.speed.y
    if ax > ay then pure (StopObject obj HORIZONTAL)
    else pure (StopObject obj VERTICAL)
  else pure obj

/-- Collisions between player and monsters (lines 505-523). -/
def stompResolution (w : World) : Except Fault World := do
  let px := w.player.location.x
  let py := w.player.location.y
  let below ← monsterAt w px (py - 1)
  if below then
    match w.grid px (py - 1) with
    | none => pure w
    | some r =>
      let w1 := killRef w r
      let grid1 ← gridWrite w1.grid px (py - 1) none
      pure { w1 with grid := grid1 }
  else
    let hit ← orElse (andThen (decide (py ≠ TOP)) (monsterAt w px (py + 1)))
              (orElse (andThen (decide (px ≠ LEFT)) (monsterAt w (px - 1) py))
                      (andThen (decide (px ≠ RIGHT)) (monsterAt w (px + 1) py)))
    if hit then pure { w with player := { w.player with alive := false } }
    else pure w

/-- Creation of one monster at `location`, at rest (the calls of `CreateObject`
on `g_monsters`). -/
def createMonster (w : World) (location : point) : Except Fault World :=
  match CreateObject w.grid w.g_monsters w.heap_next location
      { x := TILE_CENTER_X, y := TILE_CENTER_Y } { x := 0, y := 0 } ObjectType.MONSTER with
  | .error e => .error e
  | .ok r => .ok { w with grid := r.1, g_monsters := r.2, heap_next := w.heap_next + 1 }

/-- Timed spawn (lines 525-537). -/
def spawnStep (inp : TickInput) (w : World) : Except Fault World :=
  if inp.now - w.last_time > 1 then
    match createMonster w { x := if inp.rand % 10 ≥ 5 then RIGHT else LEFT, y := TOP } with
    | .error e => .error e
    | .ok w1 => .ok { w1 with last_time := inp.now2 }
  else .ok w

/-! ## Monsters -/

/-- Steering of one live monster (lines 428-433). -/
def steer (grid : Grid) (m : object) : Except Fault object := do
  let r ← andThen (decide (m.speed.x ≥ 0)) (atRightWall grid m)
  if r then pure { m with speed := { m.speed with x := -3 / 20 } }
  else
    let l ← andThen (decide (m.speed.x ≤ 0)) (atLeftWall grid m)
    if l then pure { m with speed := { m.speed with x := 3 / 20 } }
    else pure m

/-- Body of the behaviour loop for a monster that is alive and not at the end
of its path (lines 428-454). -/
def monsterBehaviour (grid : Grid) (m : object) : Except Fault object := do
  let m1 ← steer grid m
  let m2 ← verticalResponse grid m1
  cornerLock grid m2

/-- First loop of `UpdateMonsters` (lines 408-455), from the node the loop
pointer is at.  Both `break` statements leave the rest of the list untouched. -/
def behaviourLoop (grid : Grid) : List object_list → Except Fault (List object_list)
  | [] => .ok []
  | m :: rest =>
    if m.object.alive = false then
      if m.object.location.y > 0 then
        .ok ({ m with object := { m.object with
                 location := { m.object.location with y := m.object.location.y - 1 } } } :: rest)
      else .ok (m :: rest)
    else if m.object.location.y = BOTTOM ∧
        (m.object.location.x = RIGHT ∨ m.object.location.x = LEFT) then
      .ok ({ m with object := { m.object with alive := false } } :: rest)
    else
      match monsterBehaviour grid m.object with
      | .error e => .error e
      | .ok o =>
        match behaviourLoop grid rest with
        | .error e => .error e
        | .ok rest1 => .ok ({ m with object := o } :: rest1)

/-- Condition under which the second loop destroys a node. -/
def removable (m : object_list) : Bool :=
  decide (m.object.alive = false ∧ m.object.location.y ≤ BOTTOM)

/-- Second loop of `UpdateMonsters` (lines 459-465), entered with `monsterp`
pointing at a link of the list.  After `DestroyObject(monsterp)` the loop goes on
from `next`, which is the link field of the node just freed; that field still
holds the successor, so the successor is examined next.  When the successor is
removable as well, `DestroyObject` frees it and stores its tail into the freed
node, while the list itself keeps pointing at the freed successor: the list is
corrupt from then on, which is reported as `Fault.useAfterFree`. -/
def collect : List object_list → Except Fault (List object_list)
  | [] => .ok []
  | m :: rest =>
    if removable m then
      match rest with
      | [] => .ok []
      | m2 :: rest2 =>
        if removable m2 then .error .useAfterFree
        else
          match collect rest2 with
          | .error e => .error e
          | .ok r => .ok (m2 :: r)
    else
      match collect rest with
      | .error e => .error e
      | .ok r => .ok (m :: r)

/-- The behaviour of all monsters, then the removal of the dead ones that have
fallen to the bottom.  Nodes are removed from the list, not from the grid. -/
def UpdateMonsters (w : World) : Except Fault World := do
  let ms ← behaviourLoop w.grid w.g_monsters
  let ms1 ← collect ms
  pure { w with g_monsters := ms1 }

/-- Last loop of `UpdateState` (lines 545-550): every live monster is moved. -/
def moveMonsters (grid : Grid) : List object_list → Except Fault (Grid × List object_list)
  | [] => .ok (grid, [])
  | m :: rest =>
    if m.object.alive then
      match MoveObject grid (.node m.addr) m.object m.object.speed with
      | .error e => .error e
      | .ok r =>
        match moveMonsters r.1 rest with
        | .error e => .error e
        | .ok r1 => .ok (r1.1, { m with object := r.2 } :: r1.2)
    else
      match moveMonsters grid rest with
      | .error e => .error e
      | .ok r1 => .ok (r1.1, m :: r1.2)

/-! ## The tick -/

def UpdateState (inp : TickInput) (w : World) : Except Fault World := do
  let w1 ← horizontalResponse w
  let p2 ← verticalResponse w1.grid w1.player
  let p3 ← cornerLock w1.grid p2
  let w4 ← stompResolution { w1 with player := p3 }
  let w5 ← spawnStep inp w4
  let w6 ← UpdateMonsters w5
  let r7 ← MoveObject w6.grid .player w6.player w6.player.speed
  let r8 ← moveMonsters r7.1 w6.g_monsters
  pure { w6 with player := r7.2, grid := r8.1, g_monsters := r8.2 }

/-- Any number of ticks, one `TickInput` each. -/
def runTicks : List TickInput → World → Except Fault World
  | [], w => .ok w
  | inp :: rest, w =>
    match UpdateState inp w with
    | .error e => .error e
    | .ok w1 => runTicks rest w1

/-! ## World construction -/

/-- Values of the globals before `main` runs. -/
def staticWorld : World :=
  { player := { location := { x := 10, y := 0 },
                center := { x := TILE_CENTER_X, y := TILE_CENTER_Y },
                speed := { x := 0, y := 0 }, alive := true, type := ObjectType.PLAYER },
    blocked_left := false,
    blocked_right := false,
    g_blocks := [],
    g_monsters := [],
    grid := fun i j => if i = 10 ∧ j = 0 then some ObjRef.player else none,
    last_time := 0,
    heap_next := 0 }

/-- Tiles in the order the two loops over `map.txt` visit them: rows from `TOP`
down to `BOTTOM + 1`, in each row the columns `LEFT` to `RIGHT + 1`. -/
def scanOrder : List point :=
  (List.range 14).flatMap fun r =>
    (List.range 21).map fun c => { x := LEFT + (c : Int), y := TOP - (r : Int) }

/-- Places a platform at every scanned tile whose character is a star. -/
def placeBlocks : List (point × Char) → World → Except Fault World
  | [], w => .ok w
  | (p, ch) :: rest, w =>
    if ch = '*' then
      match CreateObject w.grid w.g_blocks w.heap_next p
          { x := TILE_CENTER_X, y := TILE_CENTER_Y } { x := 0, y := 0 } ObjectType.PLATFORM with
      | .error e => .error e
      | .ok r => placeBlocks rest { w with grid := r.1, g_blocks := r.2,
                                           heap_next := w.heap_next + 1 }
    else placeBlocks rest w

/-- The game part of the C function `initialize`: platforms from the
characters of `map.txt` (a character past the end of the file is `EOF`, not a
star), then the two initial monsters. -/
def initializeWorld (map_txt : List Char) : Except Fault World := do
  let w1 ← placeBlocks (scanOrder.zip map_txt) staticWorld
  let w2 ← createMonster w1 { x := LEFT, y := TOP }
  createMonster w2 { x := RIGHT, y := TOP }

/-! ## Vocabulary of the specification -/

/-- Three-way sign of a direction component: `+1` for a positive and `-1` for a
negative one. -/
def sign (d : Rat) : Int :=
  if 0 < d then 1 else if d < 0 then -1 else 0

/-- Candidate offset of the integrator on one axis: the offset plus the velocity
scaled by the tile size and rounded. -/
def candidate (offset : Int) (velocity : Rat) : Int :=
  offset + cround (velocity * 32)

/-- Distinct heap nodes have distinct addresses, and every object has the kind
it was created with: the player `PLAYER`, the nodes of `g_blocks` `PLATFORM`,
the nodes of `g_monsters` `MONSTER`. -/
def WellFormed (w : World) : Prop :=
  w.player.type = ObjectType.PLAYER ∧
  (∀ n ∈ w.g_blocks, n.object.type = ObjectType.PLATFORM) ∧
  (∀ n ∈ w.g_monsters, n.object.type = ObjectType.MONSTER) ∧
  ((w.g_blocks ++ w.g_monsters).map (fun n => n.addr)).Nodup

/-- Every pointer stored in the grid refers to a node of one of the lists. -/
def NoDangling (w : World) : Prop :=
  ∀ (i j : Int) (a : Nat), w.grid i j = some (ObjRef.node a) →
    ∃ n ∈ w.g_blocks ++ w.g_monsters, n.addr = a

/-- The slots of the four tiles next to the player (below, above, left, right),
the ones the stomp and hit resolution inspects, hold no pointer to a freed
node. -/
def NoDanglingNear (w : World) : Prop :=
  ∀ (i j : Int) (a : Nat),
    (i = w.player.location.x ∧
        (j = w.player.location.y - 1 ∨ j = w.player.location.y + 1)) ∨
      (j = w.player.location.y ∧
        (i = w.player.location.x - 1 ∨ i = w.player.location.x + 1)) →
    w.grid i j = some (ObjRef.node a) →
    ∃ n ∈ w.g_blocks ++ w.g_monsters, n.addr = a

/-- A hostile occupies tile `(x, y)`: the slot references a node of the hostile
list. -/
def hostileAt (w : World) (x y : Int) : Prop :=
  ∃ n ∈ w.g_monsters, w.grid x y = some (ObjRef.node n.addr)

/-- A hostile occupies one of the tiles above, left of or right of the player
that lie inside the board. -/
def lateralHostile (w : World) : Prop :=
  (w.player.location.y ≠ TOP ∧ hostileAt w w.player.location.x (w.player.location.y + 1)) ∨
  (w.player.location.x ≠ LEFT ∧ hostileAt w (w.player.location.x - 1) w.player.location.y) ∨
  (w.player.location.x ≠ RIGHT ∧ hostileAt w (w.player.location.x + 1) w.player.location.y)

/-- The player with its alive flag cleared. -/
def playerKilled (w : World) : World :=
  { w with player := { w.player with alive := false } }

/-- Grid/entity consistency: every entity in the store that is alive is the
occupant of the slot at its own location. -/
def GridConsistent (w : World) : Prop :=
  (w.player.alive = true →
    w.grid w.player.location.x w.player.location.y = some ObjRef.player) ∧
  (∀ n ∈ w.g_blocks ++ w.g_monsters, n.object.alive = true →
    w.grid n.object.location.x n.object.location.y = some (ObjRef.node n.addr))

/-- Last node of the list whose object is alive. -/
def lastAlive : List object_list → Option object_list
  | [] => none
  | m :: rest =>
    match lastAlive rest with
    | some n => some n
    | none => if m.object.alive then some m else none

/-- The entity written to the grid last (the last alive hostile in list order,
the player when no hostile is alive) is the occupant of the slot at its own
location. -/
def LastWriterOccupies (w : World) : Prop :=
  match lastAlive w.g_monsters with
  | some n => w.grid n.object.location.x n.object.location.y = some (ObjRef.node n.addr)
  | none => w.grid w.player.location.x w.player.location.y = some ObjRef.player

/-- World states that world construction or a completed tick produces. -/
def Produced (w : World) : Prop :=
  (∃ map_txt, initializeWorld map_txt = .ok w) ∨
  (∃ inp w0, UpdateState inp w0 = .ok w)

/-! ## Concrete objects and grids used as test inputs -/

/-- Board on which no slot is occupied. -/
def emptyGrid : Grid := fun _ _ => none

/-- A monster in tile (5,5) with offset (2,15), moving left by 5 pixels a tick. -/
def wrapLeftObject : object :=
  { location := { x := 5, y := 5 }, center := { x := 2, y := 15 },
    speed := { x := -5 / 32, y := 0 }, alive := true, type := ObjectType.MONSTER }

/-- A monster in tile (5,5) with offset (27,15), creeping right at 0.15. -/
def creepRightObject : object :=
  { location := { x := 5, y := 5 }, center := { x := 27, y := 15 },
    speed := { x := 3 / 20, y := 0 }, alive := true, type := ObjectType.MONSTER }

/-- A monster in tile (5,5) with offset (30,15), moving right by 5 pixels a
tick. -/
def wrapRightObject : object :=
  { location := { x := 5, y := 5 }, center := { x := 30, y := 15 },
    speed := { x := 5 / 32, y := 0 }, alive := true, type := ObjectType.MONSTER }

/-- Board on which tile (4,5) is taken by the node at address 1 and tile (9,9)
by the node at address 2. -/
def crowdedGrid : Grid := fun i j =>
  if i = 4 ∧ j = 5 then some (ObjRef.node 1)
  else if i = 9 ∧ j = 9 then some (ObjRef.node 2) else none

/-- The grid `crowdedGrid` after the node at address 7 moved from tile (5,5) to
tile (4,5). -/
def crowdedGridAfter : Grid := fun i j =>
  if i = 4 ∧ j = 5 then some (ObjRef.node 7)
  else if i = 5 ∧ j = 5 then none else crowdedGrid i j

/-- The grid `emptyGrid` after the node at address 7 moved from tile (5,5) to
tile `(x, 5)`. -/
def emptyGridAfter (x : Int) : Grid := fun i j =>
  if i = x ∧ j = 5 then some (ObjRef.node 7)
  else if i = 5 ∧ j = 5 then none else emptyGrid i j

/-- An object in tile (10,5), at rest in the middle of its tile. -/
def midObject : object :=
  { location := { x := 10, y := 5 }, center := { x := 15, y := 15 },
    speed := { x := 0, y := 0 }, alive := true, type := ObjectType.PLAYER }

/-- Board whose only occupied slot is tile (10,4), taken by the node at
address 1. -/
def floorGrid : Grid := fun i j => if i = 10 ∧ j = 4 then some (ObjRef.node 1) else none

/-- Board whose only occupied slot is tile (11,4), taken by the node at
address 1. -/
def cornerGrid : Grid := fun i j => if i = 11 ∧ j = 4 then some (ObjRef.node 1) else none

/-- A hostile at rest in tile (10,4), stored at address 1. -/
def belowMonster : object_list :=
  { addr := 1,
    object := { location := { x := 10, y := 4 }, center := { x := 15, y := 15 },
                speed := { x := 0, y := 0 }, alive := true, type := ObjectType.MONSTER } }

/-- A hostile at rest in tile (9,5), stored at address 2. -/
def leftMonster : object_list :=
  { addr := 2,
    object := { location := { x := 9, y := 5 }, center := { x := 15, y := 15 },
                speed := { x := 0, y := 0 }, alive := true, type := ObjectType.MONSTER } }

/-- Player in tile (10,5); a hostile below it in tile (10,4) and another one to
its left in tile (9,5). -/
def stompWorld : World :=
  { player := midObject,
    blocked_left := false,
    blocked_right := false,
    g_blocks := [],
    g_monsters := [belowMonster, leftMonster],
    grid := fun i j =>
      if i = 10 ∧ j = 5 then some ObjRef.player
      else if i = 10 ∧ j = 4 then some (ObjRef.node 1)
      else if i = 9 ∧ j = 5 then some (ObjRef.node 2) else none,
    last_time := 0,
    heap_next := 3 }

/-- A dead hostile in tile (9,5), stored at address 2. -/
def deadLeftMonster : object_list :=
  { addr := 2,
    object := { location := { x := 9, y := 5 }, center := { x := 15, y := 15 },
                speed := { x := 0, y := 0 }, alive := false, type := ObjectType.MONSTER } }

/-- Grid with the player in tile (10,5) and the node at address 2 in tile (9,5). -/
def leftNeighbourGrid : Grid := fun i j =>
  if i = 10 ∧ j = 5 then some ObjRef.player
  else if i = 9 ∧ j = 5 then some (ObjRef.node 2) else none

/-- Player in tile (10,5), nothing below it, and to its left a slot that
references a hostile of the list whose alive flag is already cleared. -/
def deadNeighbourWorld : World :=
  { player := midObject,
    blocked_left := false,
    blocked_right := false,
    g_blocks := [],
    g_monsters := [deadLeftMonster],
    grid := leftNeighbourGrid,
    last_time := 0,
    heap_next := 3 }

/-- Player in tile (10,5), nothing below it, a live hostile to its left. -/
def hitWorld : World :=
  { player := midObject,
    blocked_left := false,
    blocked_right := false,
    g_blocks := [],
    g_monsters := [leftMonster],
    grid := leftNeighbourGrid,
    last_time := 0,
    heap_next := 3 }

/-- A world whose player is in the air in tile (10,5), moving right and up, with
its alive flag cleared; no platforms, no hostiles. -/
def airborneDeadWorld : World :=
  { player := { location := { x := 10, y := 5 }, center := { x := 15, y := 15 },
                speed := { x := 1 / 4, y := 3 / 10 }, alive := false,
                type := ObjectType.PLAYER },
    blocked_left := false,
    blocked_right := false,
    g_blocks := [],
    g_monsters := [],
    grid := fun i j => if i = 10 ∧ j = 5 then some ObjRef.player else none,
    last_time := 0,
    heap_next := 0 }

/-- Whether a computation completed. -/
def isOk {α : Type} (x : Except Fault α) : Bool :=
  match x with
  | .ok _ => true
  | .error _ => false

/-- Result of a computation, `d` when it faulted. -/
def getOk {α : Type} (x : Except Fault α) (d : α) : α :=
  match x with
  | .ok a => a
  | .error _ => d

/-- Inputs of three ticks: the clock reads 5, 5 and 6 seconds. -/
def threeTicks : List TickInput :=
  [{ now := 5, rand := 0, now2 := 5 }, { now := 5, rand := 0, now2 := 5 },
   { now := 6, rand := 7, now2 := 6 }]

instance (w : World) : Decidable (GridConsistent w) := by
  unfold GridConsistent; infer_instance

/-- A world whose player is alive and in the air in tile (10,5), moving right
and up; no platforms, no hostiles, the spawn timer at 0. -/
def airborneWorld : World :=
  { airborneDeadWorld with player := { airborneDeadWorld.player with alive := true } }

/-- Level file whose first character, the one of tile `(LEFT, TOP)`, is a star. -/
def cornerMap : List Char := ['*']

/-- A tick at clock reading 5 whose random draw selects the left corner. -/
def tickAt5 : TickInput := { now := 5, rand := 0, now2 := 5 }

/-- A tick at clock reading 7 whose random draw selects the left corner. -/
def tickAt7 : TickInput := { now := 7, rand := 0, now2 := 7 }

/-- The world after world construction from `cornerMap`. -/
def cornerMapWorld : World := getOk (initializeWorld cornerMap) staticWorld

/-- The world one tick after `airborneWorld`. -/
def afterFirstSpawn : World := getOk (UpdateState tickAt5 airborneWorld) airborneWorld

/-- The world two ticks after `airborneWorld`. -/
def afterSecondSpawn : World := getOk (UpdateState tickAt7 afterFirstSpawn) airborneWorld

/-- An object in tile (19,5), on the right edge of the board. -/
def rightEdgeObject : object :=
  { location := { x := 19, y := 5 }, center := { x := 15, y := 15 },
    speed := { x := 1 / 4, y := -1 / 20 }, alive := true, type := ObjectType.PLAYER }

/-- A monster as the spawn step creates it in tile `(LEFT, TOP)`: at rest, in
the middle of its tile. -/
def freshLeftMonster : object :=
  { location := { x := 0, y := 14 }, center := { x := 15, y := 15 },
    speed := { x := 0, y := 0 }, alive := true, type := ObjectType.MONSTER }

/-- Board on which the fresh monster (address 2) is in tile (0,14) and the tile
to its right, (1,14), is taken by the node at address 1. -/
def blockedSpawnGrid : Grid := fun i j =>
  if i = 0 ∧ j = 14 then some (ObjRef.node 2)
  else if i = 1 ∧ j = 14 then some (ObjRef.node 1) else none

/-- Board whose only occupied slot is tile (10,6), taken by the node at
address 1. -/
def ceilingGrid : Grid := fun i j => if i = 10 ∧ j = 6 then some (ObjRef.node 1) else none

/-- A player in tile (10,5) rising at 0.3, with offset (15,20). -/
def risingObject : object :=
  { location := { x := 10, y := 5 }, center := { x := 15, y := 20 },
    speed := { x := 0, y := 3 / 10 }, alive := true, type := ObjectType.PLAYER }

/-- The object stopped on the vertical axis: `speed.y = 0`, `center.y = 15`,
everything else as it was. -/
def restVertical (obj : object) : object :=
  { obj with speed := { obj.speed with y := 0 },
             center := { obj.center with y := TILE_CENTER_Y } }

/-- Repeated application of the vertical response, `n` times. -/
def repeatVertical (grid : Grid) : Nat → object → Except Fault object
  | 0, obj => .ok obj
  | n + 1, obj =>
    match verticalResponse grid obj with
    | .error e => .error e
    | .ok obj1 => repeatVertical grid n obj1

/-- An object in tile (10,5) falling at 0.48, with nothing around it. -/
def fallingObject : object :=
  { location := { x := 10, y := 5 }, center := { x := 15, y := 15 },
    speed := { x := 0, y := -12 / 25 }, alive := true, type := ObjectType.PLAYER }

/-- The floor/gravity statement of the vertical response once its floor test
has the value `f`. -/
def floorOrGravity (f : Bool) (obj : object) : object :=
  if f then restVertical obj
  else if obj.speed.y > -1 / 2 then
    { obj with speed := { obj.speed with y := obj.speed.y - 1 / 20 } }
  else if obj.speed.y = 0 then
    { obj with center := { obj.center with y := TILE_CENTER_Y } }
  else obj

/-- An object in tile (10,5) falling at 0.25, with offset (15,7). -/
def landingObject : object :=
  { location := { x := 10, y := 5 }, center := { x := 15, y := 7 },
    speed := { x := 0, y := -1 / 4 }, alive := true, type := ObjectType.PLAYER }

/-- A player in tile (10,5) moving right at 0.25 and starting to fall at 0.05. -/
def cornerObject : object :=
  { location := { x := 10, y := 5 }, center := { x := 20, y := 12 },
    speed := { x := 1 / 4, y := -1 / 20 }, alive := true, type := ObjectType.PLAYER }

/-- The object stopped on the horizontal axis: `speed.x = 0`, `center.x = 15`,
everything else as it was. -/
def restHorizontal (obj : object) : object :=
  { obj with speed := { obj.speed with x := 0 },
             center := { obj.center with x := TILE_CENTER_X } }

/-- Board on which tile (9,5), left of tile (10,5), is taken by the node at
address 1. -/
def leftWallGrid : Grid := fun i j => if i = 9 ∧ j = 5 then some (ObjRef.node 1) else none

/-- A world whose player is in tile (10,5), moving left at 0.25 against the
occupied tile (9,5), with both wall flags clear. -/
def leftBlockedWorld : World :=
  { player := { location := { x := 10, y := 5 }, center := { x := 3, y := 15 },
                speed := { x := -1 / 4, y := 0 }, alive := true,
                type := ObjectType.PLAYER },
    blocked_left := false,
    blocked_right := false,
    g_blocks := [],
    g_monsters := [],
    grid := leftWallGrid,
    last_time := 0,
    heap_next := 2 }

/-- The tile the spawn step selects from the random draw. -/
def spawnLocation (rand : Nat) : point :=
  { x := if rand % 10 ≥ 5 then RIGHT else LEFT, y := TOP }

/-- The node the spawn step appends: a monster at rest in the middle of its
tile, alive, stored at address `addr`. -/
def spawnedMonster (addr : Nat) (location : point) : object_list :=
  { addr := addr,
    object := { location := location,
                center := { x := TILE_CENTER_X, y := TILE_CENTER_Y },
                speed := { x := 0, y := 0 }, alive := true,
                type := ObjectType.MONSTER } }

/-- A tick whose clock reads half a second. -/
def tickAtHalf : TickInput := { now := 1 / 2, rand := 7, now2 := 1 / 2 }

/-- A tick whose clock reads one and a half seconds. -/
def tickAtOneAndHalf : TickInput := { now := 3 / 2, rand := 7, now2 := 3 / 2 }

/-- A dead hostile on the bottom row, in tile (3,0), stored at address 1. -/
def deadBottomA : object_list :=
  { addr := 1,
    object := { location := { x := 3, y := 0 }, center := { x := 15, y := 15 },
                speed := { x := 0, y := 0 }, alive := false, type := ObjectType.MONSTER } }

/-- A dead hostile on the bottom row, in tile (7,0), stored at address 2. -/
def deadBottomB : object_list :=
  { addr := 2,
    object := { location := { x := 7, y := 0 }, center := { x := 15, y := 15 },
                speed := { x := 0, y := 0 }, alive := false, type := ObjectType.MONSTER } }

/-- A dead hostile on row 5, in tile (7,5), stored at address 3. -/
def deadRowFive : object_list :=
  { addr := 3,
    object := { location := { x := 7, y := 5 }, center := { x := 15, y := 15 },
                speed := { x := 0, y := 0 }, alive := false, type := ObjectType.MONSTER } }

/-- Whether two neighbours in the list are both removable. -/
def adjacentRemovable : List object_list → Bool
  | [] => false
  | [_] => false
  | a :: b :: rest => (removable a && removable b) || adjacentRemovable (b :: rest)

/-- A hostile at which the behaviour loop stops: it is dead, or it is on the
bottom row in column `LEFT` or `RIGHT`. -/
def stopsLoop (m : object_list) : Prop :=
  m.object.alive = false ∨
  (m.object.location.y = BOTTOM ∧
    (m.object.location.x = RIGHT ∨ m.object.location.x = LEFT))

/-- What the loop does to the hostile it stops at: a dead one falls one row if
it is above the bottom row, a live one is marked dead. -/
def stoppedNode (m : object_list) : object_list :=
  if m.object.alive = false then
    if m.object.location.y > BOTTOM then
      { m with object := { m.object with
          location := { m.object.location with y := m.object.location.y - 1 } } }
    else m
  else { m with object := { m.object with alive := false } }

/-- A live hostile in the air in tile (5,9), moving right and falling, stored at
address 4. -/
def airborneMonster : object_list :=
  { addr := 4,
    object := { location := { x := 5, y := 9 }, center := { x := 15, y := 15 },
                speed := { x := 3 / 20, y := -1 / 10 }, alive := true,
                type := ObjectType.MONSTER } }

/-- A live hostile that has reached the bottom left corner, tile (0,0), creeping
left; stored at address 5. -/
def cornerMonster : object_list :=
  { addr := 5,
    object := { location := { x := 0, y := 0 }, center := { x := 15, y := 15 },
                speed := { x := -3 / 20, y := 0 }, alive := true,
                type := ObjectType.MONSTER } }

/-- Grid with the player in tile (10,5) and the node at address 5 in tile (0,0). -/
def cornerMonsterGrid : Grid := fun i j =>
  if i = 10 ∧ j = 5 then some ObjRef.player
  else if i = 0 ∧ j = 0 then some (ObjRef.node 5) else none

/-- A world whose only hostile is `cornerMonster`, the occupant of tile (0,0). -/
def cornerMonsterWorld : World :=
  { player := midObject,
    blocked_left := false,
    blocked_right := false,
    g_blocks := [],
    g_monsters := [cornerMonster],
    grid := cornerMonsterGrid,
    last_time := 0,
    heap_next := 6 }

/-- The world `cornerMonsterWorld` with an empty hostile list and the grid
untouched. -/
def cornerMonsterWorldAfter : World :=
  { cornerMonsterWorld with g_monsters := [] }

/-- One hostile of the integration step: the integrator is called for a hostile
that is currently alive; a hostile that is not alive is passed over.  `acc`
holds the grid so far and the hostiles already visited. -/
def integrateOne (acc : Grid × List object_list) (m : object_list) :
    Except Fault (Grid × List object_list) :=
  if m.object.alive then
    match MoveObject acc.1 (ObjRef.node m.addr) m.object m.object.speed with
    | .error e => .error e
    | .ok r => .ok (r.1, acc.2 ++ [{ m with object := r.2 }])
  else .ok (acc.1, acc.2 ++ [m])

/-- Step 7 of the tick in the words of the specification, for the hostiles:
the integrator is called for every hostile that is currently alive, in store
order. -/
def integrateLive (grid : Grid) (ms : List object_list) :
    Except Fault (Grid × List object_list) :=
  ms.foldlM integrateOne (grid, [])

/-- Step 8 of the tick in the words of the specification: every hostile that is
dead and whose tile row is at or below the bottom bound is removed from the
store; the others stay, in their order. -/
def garbageCollect (ms : List object_list) : List object_list :=
  ms.filter (fun m => !(decide (m.object.alive = false ∧ m.object.location.y ≤ BOTTOM)))

/-- The tick in the order the specification fixes.  Steps 1 to 5 (the responses
of the player, the stomp and hit resolution, the timed spawn) and the behaviour
loop of step 6 are the blocks of `UpdateState`; then comes the integration of
the player and of every live hostile (step 7), and the garbage collection is
last (step 8). -/
def UpdateStateSpecOrder (inp : TickInput) (w : World) : Except Fault World := do
  let w1 ← horizontalResponse w
  let p2 ← verticalResponse w1.grid w1.player
  let p3 ← cornerLock w1.grid p2
  let w4 ← stompResolution { w1 with player := p3 }
  let w5 ← spawnStep inp w4
  let ms ← behaviourLoop w5.grid w5.g_monsters
  let r7 ← MoveObject w5.grid .player w5.player w5.player.speed
  let r8 ← integrateLive r7.1 ms
  pure { w5 with player := r7.2, grid := r8.1, g_monsters := garbageCollect r8.2 }

/-- The fault a run ends with, if it does. -/
def faultOf {α : Type} (x : Except Fault α) : Option Fault :=
  match x with
  | .ok _ => none
  | .error e => some e

/-- A live hostile on the bottom-left corner tile, stored at address 1. -/
def cornerWalker : object_list :=
  { addr := 1,
    object := { location := { x := 0, y := 0 }, center := { x := 15, y := 15 },
                speed := { x := -3 / 20, y := 0 }, alive := true,
                type := ObjectType.MONSTER } }

/-- A live hostile on the bottom row in tile (5,0), stored at address 2. -/
def bottomWalker : object_list :=
  { addr := 2,
    object := { location := { x := 5, y := 0 }, center := { x := 15, y := 15 },
                speed := { x := -3 / 20, y := 0 }, alive := true,
                type := ObjectType.MONSTER } }

/-- The player rising in tile (5,1), right above the hostile `bottomWalker`,
while the hostile `cornerWalker`, earlier in the list, has reached the
bottom-left corner. -/
def doubleRemovalWorld : World :=
  { player := { location := { x := 5, y := 1 }, center := { x := 15, y := 15 },
                speed := { x := 1 / 4, y := 3 / 10 }, alive := true,
                type := ObjectType.PLAYER },
    blocked_left := false,
    blocked_right := false,
    g_blocks := [],
    g_monsters := [cornerWalker, bottomWalker],
    grid := fun i j =>
      if i = 5 ∧ j = 1 then some ObjRef.player
      else if i = 5 ∧ j = 0 then some (ObjRef.node 2)
      else if i = 0 ∧ j = 0 then some (ObjRef.node 1) else none,
    last_time := 0,
    heap_next := 3 }

/-- The nodes the removal loop keeps. -/
def kept (m : object_list) : Bool := !removable m

/-- A world with the player in the air in tile (10,5), a live hostile falling in
tile (5,9) and a dead hostile on the bottom row in tile (3,0). -/
def mixedWorld : World :=
  { player := { location := { x := 10, y := 5 }, center := { x := 15, y := 15 },
                speed := { x := 1 / 4, y := 3 / 10 }, alive := true,
                type := ObjectType.PLAYER },
    blocked_left := false,
    blocked_right := false,
    g_blocks := [],
    g_monsters := [airborneMonster, deadBottomA],
    grid := fun i j =>
      if i = 10 ∧ j = 5 then some ObjRef.player
      else if i = 5 ∧ j = 9 then some (ObjRef.node 4) else none,
    last_time := 0,
    heap_next := 6 }

/-- A tick at clock reading 0: the spawn timer does not fire. -/
def tickAt0 : TickInput := { now := 0, rand := 0, now2 := 0 }

/-- Lines 470-540 of `UpdateState`: the tick up to and including
`UpdateMonsters`, before the calls of `MoveObject`. -/
def beforeMoves (inp : TickInput) (w : World) : Except Fault World := do
  let w1 ← horizontalResponse w
  let p2 ← verticalResponse w1.grid w1.player
  let p3 ← cornerLock w1.grid p2
  let w4 ← stompResolution { w1 with player := p3 }
  let w5 ← spawnStep inp w4
  UpdateMonsters w5

/-- The calls of `MoveObject` for the hostiles did not write or clear the slot
of tile `t`.  `ms` are the hostiles before the calls and `ms'` the same hostiles
after them, node by node.  A hostile that is alive is moved: the slot of the
tile it leaves is cleared and the slot of the tile it enters is written, so `t`
is neither. -/
def untouched (ms ms' : List object_list) (t : point) : Prop :=
  ∀ p ∈ ms.zip ms', p.1.object.alive = true →
    p.1.object.location ≠ t ∧ p.2.object.location ≠ t

/-- Lines 542-550 of `UpdateState`: the calls of `MoveObject`, for the player
and then for every live monster. -/
def applyMoves (w : World) : Except Fault World := do
  let r7 ← MoveObject w.grid .player w.player w.player.speed
  let r8 ← moveMonsters r7.1 w.g_monsters
  pure { w with player := r7.2, grid := r8.1, g_monsters := r8.2 }

instance (ms ms' : List object_list) (t : point) : Decidable (untouched ms ms' t) := by
  unfold untouched; infer_instance

/-- A platform in tile (3,3), stored at address 0. -/
def ledgeBlock : object_list :=
  { addr := 0,
    object := { location := { x := 3, y := 3 }, center := { x := 15, y := 15 },
                speed := { x := 0, y := 0 }, alive := true,
                type := ObjectType.PLATFORM } }

/-- The world `mixedWorld` with the platform `ledgeBlock` on tile (3,3). -/
def ledgeWorld : World :=
  { mixedWorld with
    g_blocks := [ledgeBlock],
    grid := fun i j =>
      if i = 10 ∧ j = 5 then some ObjRef.player
      else if i = 5 ∧ j = 9 then some (ObjRef.node 4)
      else if i = 3 ∧ j = 3 then some (ObjRef.node 0) else none }

/-- State invariant of the references to hostiles: a hostile of the list that a
grid slot references is alive and its tile is the tile of that slot.  (The
stomp clears the slot together with the alive flag, a hostile that dies on a
bottom corner is removed from the list in the same call of `UpdateMonsters`,
and `MoveObject` clears the slot an object leaves.) -/
def HostileRefsSound (w : World) : Prop :=
  ∀ (i j : Int), ∀ n ∈ w.g_monsters, w.grid i j = some (ObjRef.node n.addr) →
    n.object.alive = true ∧ n.object.location = { x := i, y := j }

/-- Invariant of the states a run produces, as far as the references to
hostiles go: the world is well-formed, every node address and every address
stored in the grid is below `heap_next` (so the next node gets a fresh
address), and the references to hostiles are sound. -/
def RunInvariant (w : World) : Prop :=
  WellFormed w ∧
  (∀ n ∈ w.g_blocks ++ w.g_monsters, n.addr < w.heap_next) ∧
  (∀ (i j : Int) (a : Nat), w.grid i j = some (ObjRef.node a) → a < w.heap_next) ∧
  HostileRefsSound w

/-- How the two loops of `UpdateMonsters` may change a node that stays in the
list: address and kind are kept, and either alive flag and tile are kept too, or
the node was dead already, or it is dead on the bottom row now (and removed by
the second loop). -/
def behaved (n n' : object_list) : Prop :=
  n'.addr = n.addr ∧ n'.object.type = n.object.type ∧
  ((n'.object.alive = n.object.alive ∧ n'.object.location = n.object.location) ∨
    n.object.alive = false ∨ removable n' = true)

/-! ## Theorems -/

theorem eq_ok_of_isOk {α : Type} (x : Except Fault α) (d : α) (h : isOk x = true) :
    x = .ok (getOk x d) := by
  cases x with
  | error e => simp [isOk] at h
  | ok a => rfl

theorem rat_floor_eq (q : Rat) : Rat.floor q = ⌊q⌋ := rfl

theorem ctrunc_div_abs (d : Rat) (h : d ≠ 0) : ctrunc (d / |d|) = sign d := by
  rcases lt_or_gt_of_ne h with hn | hp
  · have h1 : d / |d| = -1 := by
      rw [abs_of_neg hn, div_neg, div_self h]
    have h2 : ¬ (0 < d) := not_lt.mpr (le_of_lt hn)
    rw [h1]; simp [ctrunc, sign, rat_floor_eq, hn, h2]
  · have h1 : d / |d| = 1 := by rw [abs_of_pos hp, div_self h]
    rw [h1]; simp [ctrunc, sign, rat_floor_eq, hp]

theorem dirSign_of_ne (d : Rat) (h : d ≠ 0) : dirSign d = .ok (sign d) := by
  simp [dirSign, h, ctrunc_div_abs]

theorem gridRead_inBoard (grid : Grid) (x y : Int) (h : inBoard x y) :
    gridRead grid x y = .ok (grid x y) := by
  simp [gridRead, h]

theorem occupied_inBoard (grid : Grid) (x y : Int) (h : inBoard x y) :
    occupied grid x y = .ok (grid x y).isSome := by
  simp [occupied, gridRead_inBoard grid x y h]

theorem gridWrite_ok (grid grid1 : Grid) (x y : Int) (v : Option ObjRef)
    (h : gridWrite grid x y v = .ok grid1) :
    inBoard x y ∧ grid1 = fun i j => if i = x ∧ j = y then v else grid i j := by
  unfold gridWrite at h
  by_cases hb : inBoard x y
  · simp only [hb, if_true, Except.ok.injEq] at h
    exact ⟨hb, h.symm⟩
  · simp [hb] at h

theorem toInt_ok (i j : Int) (h : toInt i = .ok j) : j = i := by
  unfold toInt at h
  split_ifs at h
  simp only [Except.ok.injEq] at h
  exact h.symm

/-- Shape of a successful `MoveObject`: both grid writes were inside the board
and the result is the rollover of the two candidate offsets. -/
theorem MoveObject_ok (grid : Grid) (self : ObjRef) (obj : object) (direction : vector)
    (grid' : Grid) (obj' : object)
    (h : MoveObject grid self obj direction = .ok (grid', obj')) :
    inBoard obj.location.x obj.location.y ∧
    inBoard obj'.location.x obj'.location.y ∧
    obj'.location.x = (rollover obj.location.x (candidate obj.center.x direction.x) 32).1 ∧
    obj'.center.x = (rollover obj.location.x (candidate obj.center.x direction.x) 32).2 ∧
    obj'.location.y = (rollover obj.location.y (candidate obj.center.y direction.y) 32).1 ∧
    obj'.center.y = (rollover obj.location.y (candidate obj.center.y direction.y) 32).2 ∧
    obj'.speed = obj.speed ∧ obj'.alive = obj.alive ∧ obj'.type = obj.type ∧
    grid' = fun i j =>
      if i = obj'.location.x ∧ j = obj'.location.y then some self
      else if i = obj.location.x ∧ j = obj.location.y then none else grid i j := by
  unfold MoveObject at h
  simp only [bind, Except.bind, pure, Except.pure] at h
  split at h
  · exact absurd h (by simp)
  rename_i cx hcx
  split at h
  · exact absurd h (by simp)
  rename_i cy hcy
  split at h
  · exact absurd h (by simp)
  rename_i g1 hg1
  split at h
  · exact absurd h (by simp)
  rename_i g2 hg2
  simp only [Except.ok.injEq, Prod.mk.injEq] at h
  obtain ⟨hg, ho⟩ := h
  have hcx' := toInt_ok _ _ hcx
  have hcy' := toInt_ok _ _ hcy
  obtain ⟨hb1, hg1'⟩ := gridWrite_ok _ _ _ _ _ hg1
  obtain ⟨hb2, hg2'⟩ := gridWrite_ok _ _ _ _ _ hg2
  subst ho hg hcx' hcy'
  refine ⟨hb1, hb2, rfl, rfl, rfl, rfl, rfl, rfl, rfl, ?_⟩
  rw [hg2', hg1']

/-- `MoveObject` completes whenever both candidate offsets fit an `int` and the
old and the new tile are inside the board. -/
theorem MoveObject_completes (grid : Grid) (self : ObjRef) (obj : object) (direction : vector)
    (hx : INT_MIN ≤ candidate obj.center.x direction.x ∧
          candidate obj.center.x direction.x ≤ INT_MAX)
    (hy : INT_MIN ≤ candidate obj.center.y direction.y ∧
          candidate obj.center.y direction.y ≤ INT_MAX)
    (hold : inBoard obj.location.x obj.location.y)
    (hnew : inBoard (rollover obj.location.x (candidate obj.center.x direction.x) 32).1
                    (rollover obj.location.y (candidate obj.center.y direction.y) 32).1) :
    ∃ r, MoveObject grid self obj direction = .ok r := by
  have h1 : toInt (obj.center.x + cround (direction.x * TILE_WIDTH)) =
      .ok (candidate obj.center.x direction.x) := if_pos hx
  have h2 : toInt (obj.center.y + cround (direction.y * TILE_HEIGHT)) =
      .ok (candidate obj.center.y direction.y) := if_pos hy
  unfold MoveObject
  simp only [bind, Except.bind, pure, Except.pure, h1, h2, gridWrite, hold, if_true]
  have h3 : inBoard (rollover obj.location.x (candidate obj.center.x direction.x) TILE_WIDTH).1
      (rollover obj.location.y (candidate obj.center.y direction.y) TILE_HEIGHT).1 := hnew
  simp only [h3, if_true]
  exact ⟨_, rfl⟩

theorem rollover_cases (tile c : Int) :
    (c < 0 → rollover tile c 32 = (tile - 1, c + 32)) ∧
    (c > 32 → rollover tile c 32 = (tile + 1, c - 32)) ∧
    (0 ≤ c → c ≤ 32 → rollover tile c 32 = (tile, c)) := by
  unfold rollover
  refine ⟨fun h => ?_, fun h => ?_, fun h1 h2 => ?_⟩
  · simp [h]
  · have h0 : ¬ (c < 0) := by omega
    simp [h0, h]
  · have h0 : ¬ (c < 0) := by omega
    have h3 : ¬ (c > 32) := by omega
    simp [h0, h3]

/-- C2: `MoveObject` treats each axis on its own.  With the candidate offset
`offset + round(velocity * 32)` of an axis: below 0 the tile coordinate goes
down by exactly one and the stored offset is the candidate plus 32; above 32 the
tile coordinate goes up by exactly one and the stored offset is the candidate
minus 32; otherwise the tile coordinate stays and the candidate is stored. -/
theorem MoveObject_axis_rollover (grid : Grid) (self : ObjRef) (obj : object)
    (direction : vector) (grid' : Grid) (obj' : object)
    (h : MoveObject grid self obj direction = .ok (grid', obj')) :
    (candidate obj.center.x direction.x < 0 →
      obj'.location.x = obj.location.x - 1 ∧
      obj'.center.x = candidate obj.center.x direction.x + 32) ∧
    (candidate obj.center.x direction.x > 32 →
      obj'.location.x = obj.location.x + 1 ∧
      obj'.center.x = candidate obj.center.x direction.x - 32) ∧
    (0 ≤ candidate obj.center.x direction.x → candidate obj.center.x direction.x ≤ 32 →
      obj'.location.x = obj.location.x ∧
      obj'.center.x = candidate obj.center.x direction.x) ∧
    (candidate obj.center.y direction.y < 0 →
      obj'.location.y = obj.location.y - 1 ∧
      obj'.center.y = candidate obj.center.y direction.y + 32) ∧
    (candidate obj.center.y direction.y > 32 →
      obj'.location.y = obj.location.y + 1 ∧
      obj'.center.y = candidate obj.center.y direction.y - 32) ∧
    (0 ≤ candidate obj.center.y direction.y → candidate obj.center.y direction.y ≤ 32 →
      obj'.location.y = obj.location.y ∧
      obj'.center.y = candidate obj.center.y direction.y) := by
  obtain ⟨_, _, hlx, hcx, hly, hcy, _⟩ := MoveObject_ok grid self obj direction grid' obj' h
  obtain ⟨x1, x2, x3⟩ := rollover_cases obj.location.x (candidate obj.center.x direction.x)
  obtain ⟨y1, y2, y3⟩ := rollover_cases obj.location.y (candidate obj.center.y direction.y)
  refine ⟨fun c => ?_, fun c => ?_, fun c1 c2 => ?_, fun c => ?_, fun c => ?_, fun c1 c2 => ?_⟩
  · rw [hlx, hcx, x1 c]; exact ⟨rfl, rfl⟩
  · rw [hlx, hcx, x2 c]; exact ⟨rfl, rfl⟩
  · rw [hlx, hcx, x3 c1 c2]; exact ⟨rfl, rfl⟩
  · rw [hly, hcy, y1 c]; exact ⟨rfl, rfl⟩
  · rw [hly, hcy, y2 c]; exact ⟨rfl, rfl⟩
  · rw [hly, hcy, y3 c1 c2]; exact ⟨rfl, rfl⟩

/-- Offset 2 with a displacement of -5 pixels: the move completes, the stored
offset is 29 and the tile column goes from 5 to 4.  Offset 30 with a
displacement of +5 pixels: the stored offset is 3 and the tile column goes from
5 to 6. -/
theorem MoveObject_axis_rollover_witness :
    (MoveObject emptyGrid (ObjRef.node 7) wrapLeftObject wrapLeftObject.speed =
        .ok (emptyGridAfter 4, { wrapLeftObject with location := { x := 4, y := 5 },
                                                     center := { x := 29, y := 15 } }) ∧
      candidate wrapLeftObject.center.x wrapLeftObject.speed.x = -3 ∧
      (4 : Int) = wrapLeftObject.location.x - 1 ∧ (29 : Int) = -3 + 32) ∧
    (MoveObject emptyGrid (ObjRef.node 7) wrapRightObject wrapRightObject.speed =
        .ok (emptyGridAfter 6, { wrapRightObject with location := { x := 6, y := 5 },
                                                      center := { x := 3, y := 15 } }) ∧
      candidate wrapRightObject.center.x wrapRightObject.speed.x = 35 ∧
      (6 : Int) = wrapRightObject.location.x + 1 ∧ (3 : Int) = 35 - 32) :=
  have hl : MoveObject emptyGrid (ObjRef.node 7) wrapLeftObject wrapLeftObject.speed =
      .ok (emptyGridAfter 4, { wrapLeftObject with location := { x := 4, y := 5 },
                                                   center := { x := 29, y := 15 } }) := by
    with_unfolding_all rfl
  have hr : MoveObject emptyGrid (ObjRef.node 7) wrapRightObject wrapRightObject.speed =
      .ok (emptyGridAfter 6, { wrapRightObject with location := { x := 6, y := 5 },
                                                    center := { x := 3, y := 15 } }) := by
    with_unfolding_all rfl
  have cl : candidate wrapLeftObject.center.x wrapLeftObject.speed.x = -3 := by decide!
  have cr : candidate wrapRightObject.center.x wrapRightObject.speed.x = 35 := by decide!
  have pl := (MoveObject_axis_rollover _ _ _ _ _ _ hl).1 (by rw [cl]; decide)
  have pr := (MoveObject_axis_rollover _ _ _ _ _ _ hr).2.1 (by rw [cr]; decide)
  ⟨⟨hl, cl, pl.1, by have h := pl.2; rw [cl] at h; exact h⟩,
    ⟨hr, cr, pr.1, by have h := pr.2; rw [cr] at h; exact h⟩⟩

/-- C3 (evaluation at the failing input): an object at offset 27 creeping right
at 0.15, whose rounded displacement is 5 pixels, ends the move with offset 32,
which is outside `[0, 32)`; the tile column stays 5. -/
theorem MoveObject_offset_reaches_tile_size :
    MoveObject emptyGrid (ObjRef.node 7) creepRightObject creepRightObject.speed =
      .ok (emptyGridAfter 5, { creepRightObject with location := { x := 5, y := 5 },
                                                     center := { x := 32, y := 15 } }) ∧
    (0 ≤ creepRightObject.center.x ∧ creepRightObject.center.x < 32) ∧
    (0 ≤ creepRightObject.center.y ∧ creepRightObject.center.y < 32) ∧
    cround (creepRightObject.speed.x * 32) = 5 ∧
    cround (creepRightObject.speed.y * 32) = 0 ∧
    ¬ ((32 : Int) < TILE_WIDTH) := by
  refine ⟨by with_unfolding_all rfl, by decide, by decide, by decide!, by decide!, by decide⟩

/-- C4: after `MoveObject` the slot at the new location references the moved
object, the slot at the old location is empty when the location changed, and
every other slot is as before. -/
theorem MoveObject_grid_frame (grid : Grid) (self : ObjRef) (obj : object)
    (direction : vector) (grid' : Grid) (obj' : object)
    (h : MoveObject grid self obj direction = .ok (grid', obj')) :
    grid' obj'.location.x obj'.location.y = some self ∧
    (obj'.location ≠ obj.location → grid' obj.location.x obj.location.y = none) ∧
    (∀ i j : Int, ¬ (i = obj'.location.x ∧ j = obj'.location.y) →
      ¬ (i = obj.location.x ∧ j = obj.location.y) → grid' i j = grid i j) := by
  obtain ⟨_, _, _, _, _, _, _, _, _, hg⟩ := MoveObject_ok grid self obj direction grid' obj' h
  refine ⟨?_, fun hne => ?_, fun i j h1 h2 => ?_⟩
  · rw [hg]; simp
  · have hne' : ¬ (obj.location.x = obj'.location.x ∧ obj.location.y = obj'.location.y) := by
      intro hh
      apply hne
      cases hl : obj.location
      cases hl' : obj'.location
      rw [hl, hl'] at hh
      simp only at hh
      rw [hh.1, hh.2]
    rw [hg]; simp [hne']
  · rw [hg]; simp [h1, h2]

/-- The monster of `wrapLeftObject` moves from tile (5,5) to tile (4,5) on a
board where tile (4,5) and tile (9,9) are taken by others: the new slot is
overwritten, the old one emptied, tile (9,9) untouched. -/
theorem MoveObject_grid_frame_witness :
    MoveObject crowdedGrid (ObjRef.node 7) wrapLeftObject wrapLeftObject.speed =
      .ok (crowdedGridAfter, { wrapLeftObject with location := { x := 4, y := 5 },
                                                   center := { x := 29, y := 15 } }) ∧
    crowdedGrid 4 5 = some (ObjRef.node 1) ∧
    crowdedGridAfter 4 5 = some (ObjRef.node 7) ∧
    crowdedGridAfter 5 5 = none ∧
    crowdedGridAfter 9 9 = crowdedGrid 9 9 :=
  have hrun : MoveObject crowdedGrid (ObjRef.node 7) wrapLeftObject wrapLeftObject.speed =
      .ok (crowdedGridAfter, { wrapLeftObject with location := { x := 4, y := 5 },
                                                   center := { x := 29, y := 15 } }) := by
    with_unfolding_all rfl
  have hf := MoveObject_grid_frame _ _ _ _ _ _ hrun
  ⟨hrun, rfl, hf.1, hf.2.1 (by decide), hf.2.2 9 9 (by decide) (by decide)⟩

/-- C8: for an object inside the board each of the four queries returns (it
reads no slot outside the board) and is true exactly at the outer bound or when
the neighbouring slot is occupied, whatever occupies it. -/
theorem collision_queries_spec (grid : Grid) (obj : object)
    (h : inBoard obj.location.x obj.location.y) :
    onFloor grid obj = .ok (decide (obj.location.y = BOTTOM ∨
        (grid obj.location.x (obj.location.y - 1)).isSome = true)) ∧
    atCeiling grid obj = .ok (decide (obj.location.y = TOP ∨
        (grid obj.location.x (obj.location.y + 1)).isSome = true)) ∧
    atRightWall grid obj = .ok (decide (obj.location.x = RIGHT ∨
        (grid (obj.location.x + 1) obj.location.y).isSome = true)) ∧
    atLeftWall grid obj = .ok (decide (obj.location.x = LEFT ∨
        (grid (obj.location.x - 1) obj.location.y).isSome = true)) := by
  obtain ⟨h1, h2, h3, h4⟩ := h
  simp only [LEFT, RIGHT, BOTTOM, TOP] at h1 h2 h3 h4
  refine ⟨?_, ?_, ?_, ?_⟩
  · unfold onFloor
    by_cases hb : obj.location.y = BOTTOM
    · simp [hb]
    · have hin : inBoard obj.location.x (obj.location.y - 1) := by
        simp only [BOTTOM] at hb
        simp only [inBoard, LEFT, RIGHT, BOTTOM, TOP]; omega
      simp [hb, occupied_inBoard _ _ _ hin]
  · unfold atCeiling
    by_cases hb : obj.location.y = TOP
    · simp [hb]
    · have hin : inBoard obj.location.x (obj.location.y + 1) := by
        simp only [TOP] at hb
        simp only [inBoard, LEFT, RIGHT, BOTTOM, TOP]; omega
      simp [hb, occupied_inBoard _ _ _ hin]
  · unfold atRightWall
    by_cases hb : obj.location.x = RIGHT
    · simp [hb]
    · have hin : inBoard (obj.location.x + 1) obj.location.y := by
        simp only [RIGHT] at hb
        simp only [inBoard, LEFT, RIGHT, BOTTOM, TOP]; omega
      simp [hb, occupied_inBoard _ _ _ hin]
  · unfold atLeftWall
    by_cases hb : obj.location.x = LEFT
    · simp [hb]
    · have hin : inBoard (obj.location.x - 1) obj.location.y := by
        simp only [LEFT] at hb
        simp only [inBoard, LEFT, RIGHT, BOTTOM, TOP]; omega
      simp [hb, occupied_inBoard _ _ _ hin]

/-- The object in tile (10,5) over the occupied tile (10,4): on the floor, not at
a ceiling. -/
theorem collision_queries_spec_witness :
    inBoard midObject.location.x midObject.location.y ∧
    onFloor floorGrid midObject = .ok true ∧ atCeiling floorGrid midObject = .ok false :=
  have hin : inBoard midObject.location.x midObject.location.y := by decide
  ⟨hin, (collision_queries_spec floorGrid midObject hin).1,
    (collision_queries_spec floorGrid midObject hin).2.1⟩

/-- C9: for an object whose diagonal neighbours are inside the board and a
direction with two non-zero components, `atCorner` is the occupancy of the tile
one step along the sign of each component. -/
theorem atCorner_diagonal (grid : Grid) (obj : object) (direction : vector)
    (hx : direction.x ≠ 0) (hy : direction.y ≠ 0)
    (hin : LEFT < obj.location.x ∧ obj.location.x < RIGHT ∧
           BOTTOM < obj.location.y ∧ obj.location.y < TOP) :
    atCorner grid obj direction =
      .ok (grid (obj.location.x + sign direction.x)
                (obj.location.y + sign direction.y)).isSome := by
  obtain ⟨h1, h2, h3, h4⟩ := hin
  simp only [LEFT, RIGHT, BOTTOM, TOP] at h1 h2 h3 h4
  have sx : sign direction.x = 1 ∨ sign direction.x = -1 := by
    unfold sign
    rcases lt_or_gt_of_ne hx with hn | hp
    · right; simp [hn, not_lt.mpr (le_of_lt hn)]
    · left; simp [hp]
  have sy : sign direction.y = 1 ∨ sign direction.y = -1 := by
    unfold sign
    rcases lt_or_gt_of_ne hy with hn | hp
    · right; simp [hn, not_lt.mpr (le_of_lt hn)]
    · left; simp [hp]
  have hb : inBoard (obj.location.x + sign direction.x) (obj.location.y + sign direction.y) := by
    simp only [inBoard, LEFT, RIGHT, BOTTOM, TOP]
    rcases sx with sx | sx <;> rcases sy with sy | sy <;> rw [sx, sy] <;> omega
  unfold atCorner
  rw [dirSign_of_ne _ hx, dirSign_of_ne _ hy]
  exact occupied_inBoard _ _ _ hb

/-- Moving right and down from tile (10,5) looks at tile (11,4). -/
theorem atCorner_diagonal_witness :
    ((1 / 4 : Rat) ≠ 0 ∧ (-1 / 20 : Rat) ≠ 0) ∧
    atCorner cornerGrid midObject { x := 1 / 4, y := -1 / 20 } = .ok true :=
  have hx : ({ x := 1 / 4, y := -1 / 20 } : vector).x ≠ 0 := by decide!
  have hy : ({ x := 1 / 4, y := -1 / 20 } : vector).y ≠ 0 := by decide!
  ⟨⟨hx, hy⟩,
    (atCorner_diagonal cornerGrid midObject { x := 1 / 4, y := -1 / 20 } hx hy
      (by decide)).trans (by with_unfolding_all rfl)⟩

/-- A direction with a zero component makes `atCorner` divide zero by zero. -/
theorem atCorner_zero_component (grid : Grid) (obj : object) (direction : vector)
    (h : direction.x = 0 ∨ direction.y = 0) :
    atCorner grid obj direction = .error Fault.divisionByZero := by
  unfold atCorner dirSign
  by_cases hx : direction.x = 0
  · simp [hx]
  · have hy : direction.y = 0 := h.resolve_left hx
    simp [hx, hy]

/-- C10 (evaluation at the failing input): for the object in tile (10,5) and
the direction (0, -0.05) the tile directly below, (10,4), is inside the board
and occupied, yet `atCorner` does not report it: the sign extraction of the
zero component divides zero by zero. -/
theorem atCorner_degenerate_direction_faults :
    atCorner floorGrid midObject { x := 0, y := -1 / 20 } = .error Fault.divisionByZero ∧
    occupied floorGrid midObject.location.x (midObject.location.y - 1) = .ok true :=
  ⟨atCorner_zero_component floorGrid midObject { x := 0, y := -1 / 20 } (Or.inl rfl),
    by rfl⟩

theorem find_addr_of_mem (l : List object_list) (m : object_list)
    (hnd : (l.map (fun n => n.addr)).Nodup) (hm : m ∈ l) :
    l.find? (fun n => decide (n.addr = m.addr)) = some m := by
  induction l with
  | nil => simp at hm
  | cons a rest ih =>
    simp only [List.map_cons, List.nodup_cons, List.mem_map, not_exists, not_and] at hnd
    rcases List.mem_cons.mp hm with h | h
    · subst h; simp [List.find?]
    · have hne : ¬ (a.addr = m.addr) := fun e => hnd.1 m h e.symm
      simp only [List.find?, hne, decide_False]
      exact ih hnd.2 h

theorem deref_node (w : World) (m : object_list) (hw : WellFormed w)
    (hm : m ∈ w.g_blocks ++ w.g_monsters) :
    deref w (ObjRef.node m.addr) = .ok m.object := by
  unfold deref
  simp only []
  rw [find_addr_of_mem _ m hw.2.2.2 hm]

theorem monsterAt_of_hostile (w : World) (m : object_list) (x y : Int) (hw : WellFormed w)
    (hm : m ∈ w.g_monsters) (hin : inBoard x y)
    (hslot : w.grid x y = some (ObjRef.node m.addr)) : monsterAt w x y = .ok true := by
  unfold monsterAt
  rw [gridRead_inBoard _ _ _ hin, hslot]
  simp only []
  rw [deref_node w m hw (List.mem_append_right _ hm)]
  simp [hw.2.2.1 m hm]

theorem monsterAt_of_not_hostile (w : World) (x y : Int) (hw : WellFormed w)
    (hd : ∀ a : Nat, w.grid x y = some (ObjRef.node a) →
      ∃ n ∈ w.g_blocks ++ w.g_monsters, n.addr = a)
    (hin : inBoard x y) (hh : ¬ hostileAt w x y) :
    monsterAt w x y = .ok false := by
  unfold monsterAt
  rw [gridRead_inBoard _ _ _ hin]
  cases hs : w.grid x y with
  | none => rfl
  | some r =>
    cases r with
    | player =>
      simp only [deref, hw.1]
      rfl
    | node a =>
      obtain ⟨n, hn, ha⟩ := hd a hs
      subst ha
      simp only []
      rw [deref_node w n hw hn]
      rcases List.mem_append.mp hn with hb | hmm
      · simp [hw.2.1 n hb]
      · exact absurd ⟨n, hmm, hs⟩ hh

theorem map_killNode_of_not_mem (l : List object_list) (a : Nat)
    (h : ∀ n ∈ l, n.addr ≠ a) : l.map (killNode a) = l := by
  induction l with
  | nil => rfl
  | cons x rest ih =>
    have hx : x.addr ≠ a := h x (List.mem_cons_self _ _)
    have hr := ih (fun n hn => h n (List.mem_cons_of_mem _ hn))
    simp [List.map_cons, killNode, hx, hr]

/-- The stomp branch of the resolution. -/
theorem stompResolution_stomp (w : World) (m : object_list) (hw : WellFormed w)
    (hm : m ∈ w.g_monsters)
    (hin : inBoard w.player.location.x (w.player.location.y - 1))
    (hbelow : w.grid w.player.location.x (w.player.location.y - 1) = some (ObjRef.node m.addr)) :
    stompResolution w = .ok
      { w with g_monsters := w.g_monsters.map (killNode m.addr),
               grid := fun i j =>
                 if i = w.player.location.x ∧ j = w.player.location.y - 1 then none
                 else w.grid i j } := by
  have hb : ∀ n ∈ w.g_blocks, n.addr ≠ m.addr := by
    intro n hn e
    have hnd := hw.2.2.2
    rw [List.map_append] at hnd
    have := List.disjoint_of_nodup_append hnd
    exact this (List.mem_map_of_mem _ hn) (e ▸ List.mem_map_of_mem (fun n => n.addr) hm)
  unfold stompResolution
  simp only [bind, Except.bind, pure, Except.pure]
  rw [monsterAt_of_hostile w m _ _ hw hm hin hbelow]
  simp only [if_true, hbelow, killRef, gridWrite, hin, map_killNode_of_not_mem _ _ hb]

theorem killNode_eq_of_nodup (l : List object_list) (m : object_list)
    (hnd : (l.map (fun n => n.addr)).Nodup) (hm : m ∈ l) :
    l.map (killNode m.addr) =
      l.map (fun n => if n = m then { n with object := { n.object with alive := false } }
                      else n) := by
  apply List.map_congr_left
  intro n hn
  have hinj := List.inj_on_of_nodup_map hnd
  unfold killNode
  by_cases e : n = m
  · subst e; simp
  · have : ¬ (n.addr = m.addr) := fun ea => e (hinj hn hm ea)
    simp [e, this]

/-- C5: with a hostile in the tile directly below the player (the player being
inside the board above the bottom row) and another hostile on a tile above,
left of or right of the player, the resolution completes, leaves the player as
it was (so its alive flag is unchanged), clears the alive flag of the hostile
below and of no other hostile, empties the slot below and changes no other
slot; the lateral hostile is still in the list, unmodified, and still the
occupant of its tile. -/
theorem stomp_wins_over_lateral_hit (w : World) (m l : object_list) (x y : Int)
    (hw : WellFormed w)
    (hin : inBoard w.player.location.x w.player.location.y)
    (hrow : BOTTOM < w.player.location.y)
    (hm : m ∈ w.g_monsters)
    (hbelow : w.grid w.player.location.x (w.player.location.y - 1) = some (ObjRef.node m.addr))
    (hl : l ∈ w.g_monsters) (hlm : l ≠ m)
    (hside : (x = w.player.location.x ∧ y = w.player.location.y + 1) ∨
             (x = w.player.location.x - 1 ∧ y = w.player.location.y) ∨
             (x = w.player.location.x + 1 ∧ y = w.player.location.y))
    (hlat : w.grid x y = some (ObjRef.node l.addr)) :
    ∃ w', stompResolution w = .ok w' ∧
      w'.player = w.player ∧
      w'.g_monsters = w.g_monsters.map
        (fun n => if n = m then { n with object := { n.object with alive := false } } else n) ∧
      w'.grid w.player.location.x (w.player.location.y - 1) = none ∧
      l ∈ w'.g_monsters ∧
      w'.grid x y = some (ObjRef.node l.addr) ∧
      (∀ i j : Int, ¬ (i = w.player.location.x ∧ j = w.player.location.y - 1) →
        w'.grid i j = w.grid i j) ∧
      w'.g_blocks = w.g_blocks := by
  have hin' : inBoard w.player.location.x (w.player.location.y - 1) := by
    obtain ⟨h1, h2, h3, h4⟩ := hin
    simp only [inBoard, LEFT, RIGHT, BOTTOM, TOP] at *
    omega
  have hnd : (w.g_monsters.map (fun n => n.addr)).Nodup := by
    have := hw.2.2.2
    rw [List.map_append] at this
    exact (List.nodup_append.mp this).2.1
  have hxy : ¬ (x = w.player.location.x ∧ y = w.player.location.y - 1) := by
    rcases hside with h | h | h <;> omega
  refine ⟨_, stompResolution_stomp w m hw hm hin' hbelow, rfl, ?_, ?_, ?_, ?_, ?_, rfl⟩
  · exact killNode_eq_of_nodup _ m hnd hm
  · simp
  · rw [killNode_eq_of_nodup _ m hnd hm]
    exact List.mem_map.mpr ⟨l, hl, by simp [hlm]⟩
  · simp only [hxy, if_false]; exact hlat
  · intro i j hij
    simp only [hij, if_false]

/-- The world `stompWorld`: the hostile at address 1 is below the player, the
hostile at address 2 to its left; the player stays alive. -/
theorem stomp_wins_over_lateral_hit_witness :
    ∃ w', stompResolution stompWorld = .ok w' ∧
      w'.player = stompWorld.player ∧
      w'.g_monsters = stompWorld.g_monsters.map
        (fun n => if n = belowMonster then
                    { n with object := { n.object with alive := false } } else n) ∧
      w'.grid stompWorld.player.location.x (stompWorld.player.location.y - 1) = none ∧
      leftMonster ∈ w'.g_monsters ∧
      w'.grid 9 5 = some (ObjRef.node leftMonster.addr) ∧
      (∀ i j : Int, ¬ (i = stompWorld.player.location.x ∧
          j = stompWorld.player.location.y - 1) → w'.grid i j = stompWorld.grid i j) ∧
      w'.g_blocks = stompWorld.g_blocks :=
  stomp_wins_over_lateral_hit stompWorld belowMonster leftMonster 9 5
    (by unfold WellFormed; decide!) (by decide) (by decide)
    (by decide!) (by rfl) (by decide!) (by decide!) (by decide) (by rfl)

theorem guarded_monsterAt_true (w : World) (g : Prop) [Decidable g] (x y : Int)
    (hw : WellFormed w) (hin : g → inBoard x y) (h : g ∧ hostileAt w x y) :
    andThen (decide g) (monsterAt w x y) = .ok true := by
  obtain ⟨hg, m, hm, hs⟩ := h
  simp only [andThen, hg, decide_True, if_true]
  exact monsterAt_of_hostile w m x y hw hm (hin hg) hs

theorem guarded_monsterAt_false (w : World) (g : Prop) [Decidable g] (x y : Int)
    (hw : WellFormed w)
    (hd : ∀ a : Nat, w.grid x y = some (ObjRef.node a) →
      ∃ n ∈ w.g_blocks ++ w.g_monsters, n.addr = a)
    (hin : g → inBoard x y)
    (h : ¬ (g ∧ hostileAt w x y)) :
    andThen (decide g) (monsterAt w x y) = .ok false := by
  by_cases hg : g
  · simp only [andThen, hg, decide_True, if_true]
    exact monsterAt_of_not_hostile w x y hw hd (hin hg) (fun hh => h ⟨hg, hh⟩)
  · simp [andThen, hg]

/-- The resolution tests the kind of the occupant, not its alive flag.  In the
hand-built state `deadNeighbourWorld`, where the slot left of the player
references a hostile of the list whose alive flag is cleared (a state outside
`HostileRefsSound`), the resolution clears the alive flag of the player. -/
theorem hit_by_hostile_not_alive :
    stompResolution deadNeighbourWorld = .ok (playerKilled deadNeighbourWorld) ∧
    deadNeighbourWorld.player.alive = true ∧
    (playerKilled deadNeighbourWorld).player.alive = false ∧
    deadNeighbourWorld.grid 10 4 = none ∧
    (∀ n ∈ deadNeighbourWorld.g_monsters, n.object.alive = false) :=
  ⟨by rfl, by rfl, by rfl, by rfl, by decide!⟩

/-- The resolution by the kind of the occupants: for a well-formed world whose
player is inside the board above the bottom row, the four slots next to the
player holding no pointer to a freed node, the resolution completes and
 * leaves the player as it was when a hostile occupies the tile below;
 * otherwise, when a hostile (its alive flag is not consulted) occupies an
   in-bounds tile above, left of or right of the player, clears the alive flag
   of the player and changes nothing else: lists and grid are as before;
 * otherwise changes nothing. -/
theorem hit_resolution_by_kind (w : World) (hw : WellFormed w) (hd : NoDanglingNear w)
    (hin : inBoard w.player.location.x w.player.location.y)
    (hrow : BOTTOM < w.player.location.y) :
    ∃ w', stompResolution w = .ok w' ∧
      (hostileAt w w.player.location.x (w.player.location.y - 1) → w'.player = w.player) ∧
      (¬ hostileAt w w.player.location.x (w.player.location.y - 1) → lateralHostile w →
        w' = playerKilled w) ∧
      (¬ hostileAt w w.player.location.x (w.player.location.y - 1) → ¬ lateralHostile w →
        w' = w) := by
  obtain ⟨h1, h2, h3, h4⟩ := hin
  simp only [LEFT, RIGHT, BOTTOM, TOP] at h1 h2 h3 h4 hrow
  have hin' : inBoard w.player.location.x (w.player.location.y - 1) := by
    simp only [inBoard, LEFT, RIGHT, BOTTOM, TOP]; omega
  have hup : w.player.location.y ≠ TOP →
      inBoard w.player.location.x (w.player.location.y + 1) := by
    intro h; simp only [TOP] at h
    simp only [inBoard, LEFT, RIGHT, BOTTOM, TOP]; omega
  have hleft : w.player.location.x ≠ LEFT →
      inBoard (w.player.location.x - 1) w.player.location.y := by
    intro h; simp only [LEFT] at h
    simp only [inBoard, LEFT, RIGHT, BOTTOM, TOP]; omega
  have hright : w.player.location.x ≠ RIGHT →
      inBoard (w.player.location.x + 1) w.player.location.y := by
    intro h; simp only [RIGHT] at h
    simp only [inBoard, LEFT, RIGHT, BOTTOM, TOP]; omega
  by_cases hb : hostileAt w w.player.location.x (w.player.location.y - 1)
  · obtain ⟨m, hm, hs⟩ := hb
    exact ⟨_, stompResolution_stomp w m hw hm hin' hs, fun _ => rfl,
      fun hn => absurd ⟨m, hm, hs⟩ hn, fun hn => absurd ⟨m, hm, hs⟩ hn⟩
  · have hd0 := fun a => hd w.player.location.x (w.player.location.y - 1) a
      (Or.inl ⟨rfl, Or.inl rfl⟩)
    have hd1 := fun a => hd w.player.location.x (w.player.location.y + 1) a
      (Or.inl ⟨rfl, Or.inr rfl⟩)
    have hd2 := fun a => hd (w.player.location.x - 1) w.player.location.y a
      (Or.inr ⟨rfl, Or.inl rfl⟩)
    have hd3 := fun a => hd (w.player.location.x + 1) w.player.location.y a
      (Or.inr ⟨rfl, Or.inr rfl⟩)
    have hbelow := monsterAt_of_not_hostile w _ _ hw hd0 hin' hb
    by_cases hl : lateralHostile w
    · refine ⟨playerKilled w, ?_, fun h => absurd h hb, fun _ _ => rfl, fun _ h => absurd hl h⟩
      unfold stompResolution
      simp only [bind, Except.bind, pure, Except.pure, hbelow]
      by_cases c1 : w.player.location.y ≠ TOP ∧
          hostileAt w w.player.location.x (w.player.location.y + 1)
      · rw [guarded_monsterAt_true w _ _ _ hw hup c1]
        rfl
      · rw [guarded_monsterAt_false w _ _ _ hw hd1 hup c1]
        by_cases c2 : w.player.location.x ≠ LEFT ∧
            hostileAt w (w.player.location.x - 1) w.player.location.y
        · rw [guarded_monsterAt_true w _ _ _ hw hleft c2]
          rfl
        · rw [guarded_monsterAt_false w _ _ _ hw hd2 hleft c2]
          have c3 : w.player.location.x ≠ RIGHT ∧
              hostileAt w (w.player.location.x + 1) w.player.location.y := by
            rcases hl with h | h | h
            · exact absurd h c1
            · exact absurd h c2
            · exact h
          rw [guarded_monsterAt_true w _ _ _ hw hright c3]
          rfl
    · refine ⟨w, ?_, fun h => absurd h hb, fun _ h => absurd h hl, fun _ _ => rfl⟩
      have c1 : ¬ (w.player.location.y ≠ TOP ∧
          hostileAt w w.player.location.x (w.player.location.y + 1)) :=
        fun h => hl (Or.inl h)
      have c2 : ¬ (w.player.location.x ≠ LEFT ∧
          hostileAt w (w.player.location.x - 1) w.player.location.y) :=
        fun h => hl (Or.inr (Or.inl h))
      have c3 : ¬ (w.player.location.x ≠ RIGHT ∧
          hostileAt w (w.player.location.x + 1) w.player.location.y) :=
        fun h => hl (Or.inr (Or.inr h))
      unfold stompResolution
      simp only [bind, Except.bind, pure, Except.pure, hbelow]
      rw [guarded_monsterAt_false w _ _ _ hw hd1 hup c1,
        guarded_monsterAt_false w _ _ _ hw hd2 hleft c2,
        guarded_monsterAt_false w _ _ _ hw hd3 hright c3]
      rfl

theorem NoDanglingNear_of_noDangling (w : World) (h : NoDangling w) : NoDanglingNear w :=
  fun i j a _ hs => h i j a hs

theorem leftNeighbour_noDangling (w : World) (hg : w.grid = leftNeighbourGrid)
    (n : object_list) (hn : n ∈ w.g_blocks ++ w.g_monsters) (ha : n.addr = 2) :
    NoDangling w := by
  intro i j a h
  rw [hg] at h
  unfold leftNeighbourGrid at h
  split_ifs at h
  · simp at h
  · simp only [Option.some.injEq, ObjRef.node.injEq] at h
    exact ⟨n, hn, ha.trans h⟩

/-- The world `hitWorld`: a live hostile left of the player and nothing below
it; the resolution clears the alive flag of the player and nothing else. -/
theorem hit_resolution_by_kind_witness :
    ¬ hostileAt hitWorld hitWorld.player.location.x (hitWorld.player.location.y - 1) ∧
    lateralHostile hitWorld ∧
    ∃ w', stompResolution hitWorld = .ok w' ∧ w' = playerKilled hitWorld :=
  have hb : ¬ hostileAt hitWorld hitWorld.player.location.x
      (hitWorld.player.location.y - 1) := by
    rintro ⟨n, _, hs⟩
    have hnone : hitWorld.grid hitWorld.player.location.x
        (hitWorld.player.location.y - 1) = none := by rfl
    rw [hnone] at hs
    exact Option.noConfusion hs
  have hl : lateralHostile hitWorld :=
    Or.inr (Or.inl ⟨by decide, leftMonster, by decide!, by rfl⟩)
  match hit_resolution_by_kind hitWorld (by unfold WellFormed; decide!)
      (NoDanglingNear_of_noDangling _
        (leftNeighbour_noDangling hitWorld rfl leftMonster (by decide!) rfl))
      (by decide) (by decide) with
  | ⟨w', hrun, _, hkill, _⟩ => ⟨hb, hl, w', hrun, hkill hb hl⟩

theorem bind_ok {α β : Type} (x : Except Fault α) (f : α → Except Fault β) (b : β)
    (h : (x >>= f) = .ok b) : ∃ a, x = .ok a ∧ f a = .ok b := by
  cases x with
  | error e => simp [bind, Except.bind] at h
  | ok a => exact ⟨a, rfl, h⟩

theorem StopObject_alive (obj : object) (d : Int) : (StopObject obj d).alive = obj.alive := by
  unfold StopObject
  split_ifs <;> rfl

theorem horizontalResponse_alive (w w' : World) (h : horizontalResponse w = .ok w') :
    w'.player.alive = w.player.alive := by
  unfold horizontalResponse at h
  obtain ⟨hit, _, h⟩ := bind_ok _ _ _ h
  simp only [pure, Except.pure] at h
  split_ifs at h <;> simp only [Except.ok.injEq] at h <;> subst h <;>
    simp only [StopObject_alive]

theorem verticalResponse_alive (grid : Grid) (obj obj' : object)
    (h : verticalResponse grid obj = .ok obj') : obj'.alive = obj.alive := by
  unfold verticalResponse at h
  obtain ⟨c, _, h⟩ := bind_ok _ _ _ h
  obtain ⟨f, _, h⟩ := bind_ok _ _ _ h
  simp only [pure, Except.pure] at h
  split_ifs at h <;> simp only [Except.ok.injEq] at h <;> subst h <;>
    simp only [StopObject_alive]

theorem cornerLock_alive (grid : Grid) (obj obj' : object)
    (h : cornerLock grid obj = .ok obj') : obj'.alive = obj.alive := by
  unfold cornerLock at h
  obtain ⟨c, _, h⟩ := bind_ok _ _ _ h
  split_ifs at h
  · obtain ⟨ax, _, h⟩ := bind_ok _ _ _ h
    obtain ⟨ay, _, h⟩ := bind_ok _ _ _ h
    simp only [pure, Except.pure] at h
    split_ifs at h <;> simp only [Except.ok.injEq] at h <;> subst h <;>
      simp only [StopObject_alive]
  · simp only [pure, Except.pure, Except.ok.injEq] at h
    subst h; rfl

theorem killRef_player_dead (w : World) (r : ObjRef) (hdead : w.player.alive = false) :
    (killRef w r).player.alive = false := by
  cases r with
  | player => rfl
  | node a => exact hdead

theorem stompResolution_dead (w w' : World) (hdead : w.player.alive = false)
    (h : stompResolution w = .ok w') : w'.player.alive = false := by
  unfold stompResolution at h
  obtain ⟨below, _, h⟩ := bind_ok _ _ _ h
  split_ifs at h
  · split at h
    · simp only [pure, Except.pure, Except.ok.injEq] at h
      subst h; exact hdead
    · obtain ⟨g1, _, h⟩ := bind_ok _ _ _ h
      simp only [pure, Except.pure, Except.ok.injEq] at h
      subst h
      exact killRef_player_dead w _ hdead
  · obtain ⟨hit, _, h⟩ := bind_ok _ _ _ h
    simp only [pure, Except.pure] at h
    split_ifs at h <;> simp only [Except.ok.injEq] at h <;> subst h
    · rfl
    · exact hdead

theorem createMonster_ok (w w' : World) (location : point)
    (h : createMonster w location = .ok w') :
    inBoard location.x location.y ∧
    w' = { w with
      grid := fun i j => if i = location.x ∧ j = location.y then some (ObjRef.node w.heap_next)
                         else w.grid i j,
      g_monsters := w.g_monsters ++
        [{ addr := w.heap_next,
           object := { location := location,
                       center := { x := TILE_CENTER_X, y := TILE_CENTER_Y },
                       speed := { x := 0, y := 0 }, alive := true,
                       type := ObjectType.MONSTER } }],
      heap_next := w.heap_next + 1 } := by
  unfold createMonster CreateObject at h
  simp only [bind, Except.bind, pure, Except.pure] at h
  split at h
  · exact absurd h (by simp)
  rename_i r hr
  split at hr
  · exact absurd hr (by simp)
  rename_i g1 hg1
  obtain ⟨hb, hg⟩ := gridWrite_ok _ _ _ _ _ hg1
  simp only [Except.ok.injEq] at hr h
  subst hr h hg
  exact ⟨hb, rfl⟩

theorem spawnStep_player (inp : TickInput) (w w' : World) (h : spawnStep inp w = .ok w') :
    w'.player = w.player := by
  unfold spawnStep at h
  by_cases c : inp.now - w.last_time > 1
  · simp only [c, if_true] at h
    cases hc : createMonster w
        { x := if inp.rand % 10 ≥ 5 then RIGHT else LEFT, y := TOP } with
    | error e => rw [hc] at h; exact absurd h (by simp)
    | ok w1 =>
      rw [hc] at h
      simp only [Except.ok.injEq] at h
      subst h
      rw [(createMonster_ok _ _ _ hc).2]
  · simp only [c, if_false, Except.ok.injEq] at h
    subst h; rfl

theorem UpdateMonsters_frame (w w' : World) (h : UpdateMonsters w = .ok w') :
    w'.player = w.player ∧ w'.grid = w.grid ∧ w'.g_blocks = w.g_blocks := by
  unfold UpdateMonsters at h
  obtain ⟨ms, _, h⟩ := bind_ok _ _ _ h
  obtain ⟨ms1, _, h⟩ := bind_ok _ _ _ h
  simp only [pure, Except.pure, Except.ok.injEq] at h
  subst h
  exact ⟨rfl, rfl, rfl⟩

/-- The player's alive flag is not set by a tick. -/
theorem UpdateState_dead (inp : TickInput) (w w' : World) (hdead : w.player.alive = false)
    (h : UpdateState inp w = .ok w') : w'.player.alive = false := by
  unfold UpdateState at h
  obtain ⟨w1, h1, h⟩ := bind_ok _ _ _ h
  obtain ⟨p2, h2, h⟩ := bind_ok _ _ _ h
  obtain ⟨p3, h3, h⟩ := bind_ok _ _ _ h
  obtain ⟨w4, h4, h⟩ := bind_ok _ _ _ h
  obtain ⟨w5, h5, h⟩ := bind_ok _ _ _ h
  obtain ⟨w6, h6, h⟩ := bind_ok _ _ _ h
  obtain ⟨r7, h7, h⟩ := bind_ok _ _ _ h
  obtain ⟨r8, h8, h⟩ := bind_ok _ _ _ h
  simp only [pure, Except.pure, Except.ok.injEq] at h
  subst h
  have a1 := horizontalResponse_alive _ _ h1
  have a2 := verticalResponse_alive _ _ _ h2
  have a3 := cornerLock_alive _ _ _ h3
  have a4 : w4.player.alive = false :=
    stompResolution_dead _ _ (by show p3.alive = false; rw [a3, a2, a1, hdead]) h4
  have a5 := spawnStep_player _ _ _ h5
  have a6 := (UpdateMonsters_frame _ _ h6).1
  have a7 := (MoveObject_ok _ _ _ _ r7.1 r7.2 h7).2.2.2.2.2.2.2.1
  show r7.2.alive = false
  rw [a7, a6, a5, a4]

/-- C7: once the alive flag of the player is cleared, it is still cleared after
any number of completed ticks.  (The player is a field of every world state:
no tick removes it.) -/
theorem dead_player_stays_dead (inps : List TickInput) (w w' : World)
    (hdead : w.player.alive = false) (h : runTicks inps w = .ok w') :
    w'.player.alive = false := by
  induction inps generalizing w with
  | nil =>
    simp only [runTicks, Except.ok.injEq] at h
    subst h; exact hdead
  | cons inp rest ih =>
    simp only [runTicks] at h
    split at h
    · exact absurd h (by simp)
    · rename_i w1 h1
      exact ih w1 (UpdateState_dead inp w w1 hdead h1) h

/-- Three ticks of `airborneDeadWorld`, a hostile being spawned in the first:
the ticks complete and the player is still not alive. -/
theorem dead_player_stays_dead_witness :
    airborneDeadWorld.player.alive = false ∧
    ∃ w', runTicks threeTicks airborneDeadWorld = .ok w' ∧ w'.player.alive = false :=
  have hrun := eq_ok_of_isOk (runTicks threeTicks airborneDeadWorld) airborneDeadWorld
    (by decide!)
  ⟨rfl, _, hrun, dead_player_stays_dead threeTicks airborneDeadWorld _ rfl hrun⟩

theorem lastAlive_append_alive (l : List object_list) (n : object_list)
    (h : n.object.alive = true) : lastAlive (l ++ [n]) = some n := by
  induction l with
  | nil => simp [lastAlive, h]
  | cons m rest ih => simp [lastAlive, ih]

theorem moveMonsters_last (l : List object_list) :
    ∀ (g g' : Grid) (l' : List object_list), moveMonsters g l = .ok (g', l') →
      match lastAlive l' with
      | some n => g' n.object.location.x n.object.location.y = some (ObjRef.node n.addr)
      | none => g' = g := by
  induction l with
  | nil =>
    intro g g' l' h
    simp only [moveMonsters, Except.ok.injEq, Prod.mk.injEq] at h
    obtain ⟨hg, hl⟩ := h
    subst hg hl
    rfl
  | cons m rest ih =>
    intro g g' l' h
    unfold moveMonsters at h
    by_cases ha : m.object.alive = true
    · simp only [ha, if_true] at h
      split at h
      · exact absurd h (by simp)
      rename_i r hr
      split at h
      · exact absurd h (by simp)
      rename_i r1 hr1
      simp only [Except.ok.injEq, Prod.mk.injEq] at h
      obtain ⟨hg, hl⟩ := h
      subst hg hl
      have ihr := ih r.1 r1.1 r1.2 hr1
      have hmo := MoveObject_ok g (ObjRef.node m.addr) m.object m.object.speed r.1 r.2 hr
      simp only [lastAlive]
      cases hla : lastAlive r1.2 with
      | some n =>
        rw [hla] at ihr
        exact ihr
      | none =>
        rw [hla] at ihr
        simp only at ihr
        have halive : r.2.alive = true := by rw [hmo.2.2.2.2.2.2.2.1, ha]
        simp only [halive, if_true]
        rw [ihr, hmo.2.2.2.2.2.2.2.2.2]
        simp
    · have ha' : m.object.alive = false := by simpa using ha
      simp only [ha', Bool.false_eq_true, if_false] at h
      split at h
      · exact absurd h (by simp)
      rename_i r1 hr1
      simp only [Except.ok.injEq, Prod.mk.injEq] at h
      obtain ⟨hg, hl⟩ := h
      subst hg hl
      have ihr := ih g r1.1 r1.2 hr1
      simp only [lastAlive]
      cases hla : lastAlive r1.2 with
      | some n =>
        rw [hla] at ihr
        exact ihr
      | none =>
        rw [hla] at ihr
        simp only [ha', Bool.false_eq_true, if_false]
        exact ihr

theorem initializeWorld_last_writer (map_txt : List Char) (w : World)
    (h : initializeWorld map_txt = .ok w) : LastWriterOccupies w := by
  unfold initializeWorld at h
  obtain ⟨w1, _, h⟩ := bind_ok _ _ _ h
  obtain ⟨w2, _, h⟩ := bind_ok _ _ _ h
  obtain ⟨_, hw⟩ := createMonster_ok _ _ _ h
  subst hw
  unfold LastWriterOccupies
  simp only []
  rw [lastAlive_append_alive _ _ rfl]
  simp

theorem UpdateState_last_writer (inp : TickInput) (w0 w : World)
    (h : UpdateState inp w0 = .ok w) : LastWriterOccupies w := by
  unfold UpdateState at h
  obtain ⟨w1, h1, h⟩ := bind_ok _ _ _ h
  obtain ⟨p2, h2, h⟩ := bind_ok _ _ _ h
  obtain ⟨p3, h3, h⟩ := bind_ok _ _ _ h
  obtain ⟨w4, h4, h⟩ := bind_ok _ _ _ h
  obtain ⟨w5, h5, h⟩ := bind_ok _ _ _ h
  obtain ⟨w6, h6, h⟩ := bind_ok _ _ _ h
  obtain ⟨r7, h7, h⟩ := bind_ok _ _ _ h
  obtain ⟨r8, h8, h⟩ := bind_ok _ _ _ h
  simp only [pure, Except.pure, Except.ok.injEq] at h
  subst h
  have hl := moveMonsters_last _ _ r8.1 r8.2 h8
  have hmo := MoveObject_ok _ _ _ _ r7.1 r7.2 h7
  unfold LastWriterOccupies
  simp only []
  cases hla : lastAlive r8.2 with
  | some n =>
    rw [hla] at hl
    exact hl
  | none =>
    rw [hla] at hl
    simp only at hl
    simp only []
    rw [hl, hmo.2.2.2.2.2.2.2.2.2]
    simp

/-- C1 (counterexample).  World construction from a level file whose first
character is a star completes; the platform of tile (0,14), stored at address 0,
is alive and in `g_blocks`, but the slot of tile (0,14) references the node at
address 1, the first initial hostile, so the world reached by zero ticks is not
grid-consistent.  The property is not preserved by ticks either: from the
grid-consistent world `airborneWorld` one tick leads to a grid-consistent world
in which one hostile sits in tile (0,14), and the next tick, which spawns a
second hostile on that tile, to a world that is not grid-consistent. -/
theorem grid_consistency_fails :
    (initializeWorld cornerMap = .ok cornerMapWorld ∧
      runTicks [] cornerMapWorld = .ok cornerMapWorld ∧
      cornerMapWorld.g_blocks.map (fun n => (n.addr, n.object.location, n.object.alive))
        = [(0, { x := 0, y := 14 }, true)] ∧
      cornerMapWorld.grid 0 14 = some (ObjRef.node 1) ∧
      ¬ GridConsistent cornerMapWorld) ∧
    (GridConsistent airborneWorld ∧
      UpdateState tickAt5 airborneWorld = .ok afterFirstSpawn ∧
      GridConsistent afterFirstSpawn ∧
      UpdateState tickAt7 afterFirstSpawn = .ok afterSecondSpawn ∧
      afterSecondSpawn.g_monsters.map
          (fun n => (n.addr, n.object.location, n.object.alive))
        = [(0, { x := 0, y := 14 }, true), (1, { x := 0, y := 14 }, true)] ∧
      afterSecondSpawn.grid 0 14 = some (ObjRef.node 1) ∧
      ¬ GridConsistent afterSecondSpawn) :=
  ⟨⟨eq_ok_of_isOk _ _ (by decide!), rfl, by decide!, by decide!, by decide!⟩,
    ⟨by decide!, eq_ok_of_isOk _ _ (by decide!), by decide!,
      eq_ok_of_isOk _ _ (by decide!), by decide!, by decide!, by decide!⟩⟩

/-- In every world state that world construction or a completed tick produces,
the entity written to the grid last, that is the last alive hostile in list
order or the player when no hostile is alive, is the occupant of the slot at
its own location. -/
theorem last_writer_occupies (w : World) (h : Produced w) : LastWriterOccupies w := by
  rcases h with ⟨map_txt, h⟩ | ⟨inp, w0, h⟩
  · exact initializeWorld_last_writer map_txt w h
  · exact UpdateState_last_writer inp w0 w h

/-- The world two ticks after `airborneWorld`: both hostiles are in tile (0,14)
and the slot references the one moved last. -/
theorem last_writer_occupies_witness :
    Produced afterSecondSpawn ∧ LastWriterOccupies afterSecondSpawn :=
  have hp : Produced afterSecondSpawn :=
    Or.inr ⟨tickAt7, afterFirstSpawn, eq_ok_of_isOk _ _ (by decide!)⟩
  ⟨hp, last_writer_occupies afterSecondSpawn hp⟩

theorem placeBlocks_player (l : List (point × Char)) :
    ∀ (w w' : World), placeBlocks l w = .ok w' → w'.player = w.player := by
  induction l with
  | nil =>
    intro w w' h
    simp only [placeBlocks, Except.ok.injEq] at h
    subst h; rfl
  | cons pc rest ih =>
    intro w w' h
    obtain ⟨p, ch⟩ := pc
    unfold placeBlocks at h
    by_cases c : ch = '*'
    · simp only [c, if_true] at h
      split at h
      · exact absurd h (by simp)
      · have e := ih _ _ h
        exact e
    · simp only [c, if_false] at h
      exact ih _ _ h

theorem initializeWorld_player (map_txt : List Char) (w : World)
    (h : initializeWorld map_txt = .ok w) : w.player = staticWorld.player := by
  unfold initializeWorld at h
  obtain ⟨w1, h1, h⟩ := bind_ok _ _ _ h
  obtain ⟨w2, h2, h⟩ := bind_ok _ _ _ h
  have e1 := placeBlocks_player _ _ _ h1
  have e2 := (createMonster_ok _ _ _ h2).2
  have e3 := (createMonster_ok _ _ _ h).2
  rw [e3]
  show w2.player = _
  rw [e2]
  exact e1

/-- A world whose player rests on the bottom row with both velocity components
zero does not complete a tick: the corner check divides zero by zero. -/
theorem resting_player_tick_faults (inp : TickInput) (w : World)
    (hloc : w.player.location = { x := 10, y := 0 })
    (hspeed : w.player.speed = { x := 0, y := 0 }) :
    UpdateState inp w = .error Fault.divisionByZero := by
  have hx : w.player.speed.x = 0 := by rw [hspeed]
  have hy : w.player.speed.y = 0 := by rw [hspeed]
  have hlx : w.player.location.x = 10 := by rw [hloc]
  have hly : w.player.location.y = 0 := by rw [hloc]
  -- horizontal response: the two neighbouring slots are inside the board
  have h1 : ∃ w1, horizontalResponse w = .ok w1 ∧ w1.grid = w.grid ∧
      w1.player.location = w.player.location ∧ w1.player.speed = { x := 0, y := 0 } := by
    unfold horizontalResponse
    simp only [hx, if_true, bind, Except.bind, pure, Except.pure, andThen, orElse,
      atRightWall, atLeftWall, occupied, gridRead, hlx, hly, RIGHT, LEFT]
    have i1 : inBoard (10 + 1) 0 := by decide
    have i2 : inBoard (10 - 1) 0 := by decide
    simp only [i1, i2, if_true]
    cases hr : (w.grid (10 + 1) 0).isSome <;> cases hl : (w.grid (10 - 1) 0).isSome <;>
      simp [hr, hl, StopObject, HORIZONTAL, hspeed]
  obtain ⟨w1, e1, g1, l1, s1⟩ := h1
  have hly1 : w1.player.location.y = 0 := by rw [l1, hloc]
  have hlx1 : w1.player.location.x = 10 := by rw [l1, hloc]
  have hy1 : w1.player.speed.y = 0 := by rw [s1]
  have hx1 : w1.player.speed.x = 0 := by rw [s1]
  -- vertical response: the player is on the bottom row, so it is stopped
  have h2 : ∃ p2, verticalResponse w1.grid w1.player = .ok p2 ∧
      p2.speed = { x := 0, y := 0 } := by
    unfold verticalResponse
    have i1 : inBoard 10 (0 + 1) := by decide
    simp only [bind, Except.bind, pure, Except.pure, andThen, atCeiling, onFloor, occupied,
      gridRead, hlx1, hly1, hy1, TOP, BOTTOM, i1, if_true]
    cases hc : (w1.grid 10 (0 + 1)).isSome <;>
      simp [hc, StopObject, HORIZONTAL, VERTICAL, hy1, hly1, BOTTOM, s1]
  obtain ⟨p2, e2, s2⟩ := h2
  have h3 : cornerLock w1.grid p2 = .error Fault.divisionByZero := by
    unfold cornerLock
    rw [atCorner_zero_component w1.grid p2 p2.speed (Or.inl (by rw [s2]))]
    rfl
  unfold UpdateState
  rw [e1]
  simp only [bind, Except.bind]
  rw [e2]
  simp only []
  rw [h3]

/-- From the initial world, whatever the level file, the first tick does not
complete: the player is at rest, so its corner check divides zero by zero. -/
theorem first_tick_faults (map_txt : List Char) (inp : TickInput) (w : World)
    (h : initializeWorld map_txt = .ok w) :
    UpdateState inp w = .error Fault.divisionByZero := by
  have hp := initializeWorld_player map_txt w h
  exact resting_player_tick_faults inp w (by rw [hp]; rfl) (by rw [hp]; rfl)

/-- For a direction with two non-zero components `atCorner` is the read of the
slot one step along the sign of each component, inside the board or not. -/
theorem atCorner_reads (grid : Grid) (obj : object) (direction : vector)
    (hx : direction.x ≠ 0) (hy : direction.y ≠ 0) :
    atCorner grid obj direction =
      occupied grid (obj.location.x + sign direction.x) (obj.location.y + sign direction.y) := by
  unfold atCorner
  rw [dirSign_of_ne _ hx, dirSign_of_ne _ hy]

theorem occupied_outside (grid : Grid) (x y : Int) (h : ¬ inBoard x y) :
    occupied grid x y = .error Fault.outOfBounds := by
  simp [occupied, gridRead, h]

/-- On the right edge a direction that points right makes `atCorner` read
column `RIGHT + 1`. -/
theorem atCorner_right_edge (grid : Grid) (obj : object) (direction : vector)
    (hloc : obj.location.x = RIGHT) (hx : 0 < direction.x) (hy : direction.y ≠ 0) :
    atCorner grid obj direction = .error Fault.outOfBounds := by
  rw [atCorner_reads grid obj direction (ne_of_gt hx) hy]
  apply occupied_outside
  have hs : sign direction.x = 1 := by simp [sign, hx]
  rw [hs, hloc]
  simp only [inBoard, LEFT, RIGHT, BOTTOM, TOP]
  omega

/-- C11 (evaluation at failing inputs): the object in tile (19,5) is inside the
board and its direction (0.25, -0.05) has two non-zero components, yet
`atCorner` reads column 20, outside the board.  The same happens inside the
tick: a monster just spawned in tile (0,14) whose right neighbour is occupied is
steered to the left, starts to fall, and its corner check reads column -1. -/
theorem atCorner_reads_outside_board :
    inBoard rightEdgeObject.location.x rightEdgeObject.location.y ∧
    rightEdgeObject.speed.x ≠ 0 ∧ rightEdgeObject.speed.y ≠ 0 ∧
    atCorner emptyGrid rightEdgeObject rightEdgeObject.speed = .error Fault.outOfBounds ∧
    inBoard freshLeftMonster.location.x freshLeftMonster.location.y ∧
    monsterBehaviour blockedSpawnGrid freshLeftMonster = .error Fault.outOfBounds :=
  ⟨by decide, by decide!, by decide!,
    atCorner_right_edge emptyGrid rightEdgeObject rightEdgeObject.speed rfl (by decide!)
      (by decide!),
    by decide, by with_unfolding_all rfl⟩

theorem StopObject_vertical (obj : object) : StopObject obj VERTICAL = restVertical obj := by
  simp [StopObject, VERTICAL, HORIZONTAL, restVertical]

theorem onFloor_congr (grid : Grid) (o1 o2 : object) (h : o1.location = o2.location) :
    onFloor grid o1 = onFloor grid o2 := by
  unfold onFloor; rw [h]

theorem atCeiling_congr (grid : Grid) (o1 o2 : object) (h : o1.location = o2.location) :
    atCeiling grid o1 = atCeiling grid o2 := by
  unfold atCeiling; rw [h]

theorem onFloor_returns (grid : Grid) (obj : object)
    (hin : inBoard obj.location.x obj.location.y) : ∃ b, onFloor grid obj = .ok b := by
  obtain ⟨h1, h2, h3, h4⟩ := hin
  simp only [LEFT, RIGHT, BOTTOM, TOP] at h1 h2 h3 h4
  unfold onFloor
  by_cases hb : obj.location.y = BOTTOM
  · exact ⟨true, by simp [hb]⟩
  · have hin' : inBoard obj.location.x (obj.location.y - 1) := by
      simp only [BOTTOM] at hb
      simp only [inBoard, LEFT, RIGHT, BOTTOM, TOP]; omega
    exact ⟨_, by simp only [hb, if_false]; exact occupied_inBoard _ _ _ hin'⟩

theorem atCeiling_returns (grid : Grid) (obj : object)
    (hin : inBoard obj.location.x obj.location.y) : ∃ b, atCeiling grid obj = .ok b := by
  obtain ⟨h1, h2, h3, h4⟩ := hin
  simp only [LEFT, RIGHT, BOTTOM, TOP] at h1 h2 h3 h4
  unfold atCeiling
  by_cases hb : obj.location.y = TOP
  · exact ⟨true, by simp [hb]⟩
  · have hin' : inBoard obj.location.x (obj.location.y + 1) := by
      simp only [TOP] at hb
      simp only [inBoard, LEFT, RIGHT, BOTTOM, TOP]; omega
    exact ⟨_, by simp only [hb, if_false]; exact occupied_inBoard _ _ _ hin'⟩

/-- The vertical response in terms of the values of its two tests: `c` for the
ceiling test, `f` for the floor test on the object the ceiling statement left. -/
theorem verticalResponse_of_tests (grid : Grid) (obj : object) (c f : Bool)
    (hc : andThen (decide (obj.speed.y ≥ 0)) (atCeiling grid obj) = .ok c)
    (hf : andThen (decide ((if c then restVertical obj else obj).speed.y ≤ 0))
            (onFloor grid (if c then restVertical obj else obj)) = .ok f) :
    verticalResponse grid obj =
      .ok (floorOrGravity f (if c then restVertical obj else obj)) := by
  unfold verticalResponse
  simp only [bind, Except.bind, pure, Except.pure, hc, StopObject_vertical, hf]
  unfold floorOrGravity
  split_ifs <;> rfl

/-- C12 (counterexample): the rising player under the occupied tile (10,6),
with nothing below it, is at a ceiling; after the vertical response its
`center.y` is 15 but its `speed.y` is -0.05, not 0: the gravity decrement was
applied in the same pass. -/
theorem ceiling_stop_gets_gravity :
    0 < risingObject.speed.y ∧
    atCeiling ceilingGrid risingObject = .ok true ∧
    verticalResponse ceilingGrid risingObject =
      .ok { risingObject with speed := { x := 0, y := -1 / 20 },
                              center := { x := 15, y := 15 } } ∧
    (-1 / 20 : Rat) ≠ 0 :=
  ⟨by decide!, by rfl, by with_unfolding_all rfl, by decide!⟩

/-- C12 (amended): for an object inside the board that moves upward and is at a
ceiling, the vertical response completes with `center.y = 15`; `speed.y` is 0
when the object is on a floor as well, and otherwise -0.05, one gravity
decrement below the 0 of the ceiling stop.  Nothing else changes. -/
theorem ceiling_stop_then_floor_or_gravity (grid : Grid) (obj : object)
    (hin : inBoard obj.location.x obj.location.y)
    (hup : 0 < obj.speed.y) (hc : atCeiling grid obj = .ok true) :
    (∃ b, onFloor grid obj = .ok b) ∧
    (onFloor grid obj = .ok true → verticalResponse grid obj = .ok (restVertical obj)) ∧
    (onFloor grid obj = .ok false →
      verticalResponse grid obj =
        .ok { restVertical obj with speed := { x := obj.speed.x, y := -1 / 20 } }) := by
  have hge : obj.speed.y ≥ 0 := le_of_lt hup
  have hc' : andThen (decide (obj.speed.y ≥ 0)) (atCeiling grid obj) = .ok true := by
    simp only [andThen, hge, decide_True, if_true, hc]
  have hfl : onFloor grid (restVertical obj) = onFloor grid obj := onFloor_congr _ _ _ rfl
  have hle : (restVertical obj).speed.y ≤ 0 := le_refl _
  have hgt : (restVertical obj).speed.y > -1 / 2 := by
    show (0 : Rat) > -1 / 2
    norm_num
  refine ⟨onFloor_returns grid obj hin, fun hf => ?_, fun hf => ?_⟩
  · have hf' : andThen (decide ((if true = true then restVertical obj else obj).speed.y ≤ 0))
        (onFloor grid (if true = true then restVertical obj else obj)) = .ok true := by
      simp only [if_true, andThen, hle, decide_True, hfl, hf]
    rw [verticalResponse_of_tests grid obj true true hc' hf']
    rfl
  · have hf' : andThen (decide ((if true = true then restVertical obj else obj).speed.y ≤ 0))
        (onFloor grid (if true = true then restVertical obj else obj)) = .ok false := by
      simp only [if_true, andThen, hle, decide_True, hfl, hf]
    rw [verticalResponse_of_tests grid obj true false hc' hf']
    simp only [if_true, floorOrGravity, Bool.false_eq_true, if_false, hgt]
    show Except.ok { restVertical obj with
        speed := { x := obj.speed.x, y := (0 : Rat) - 1 / 20 } } = _
    norm_num

/-- The rising player of `risingObject` under the occupied tile (10,6), with
nothing below it: `speed.y` becomes -0.05 and `center.y` 15. -/
theorem ceiling_stop_then_floor_or_gravity_witness :
    onFloor ceilingGrid risingObject = .ok false ∧
    verticalResponse ceilingGrid risingObject =
      .ok { restVertical risingObject with
              speed := { x := risingObject.speed.x, y := -1 / 20 } } :=
  have hf : onFloor ceilingGrid risingObject = .ok false := by rfl
  ⟨hf, (ceiling_stop_then_floor_or_gravity ceilingGrid risingObject (by decide) (by decide!)
    (by rfl)).2.2 hf⟩

/-- One vertical response of an object inside the board that does not move
upward and is on a floor. -/
theorem verticalResponse_on_floor (grid : Grid) (obj : object)
    (hin : inBoard obj.location.x obj.location.y)
    (hdown : obj.speed.y ≤ 0) (hfloor : onFloor grid obj = .ok true) :
    verticalResponse grid obj = .ok (restVertical obj) := by
  obtain ⟨b, hb⟩ := atCeiling_returns grid obj hin
  have hc : ∃ c, andThen (decide (obj.speed.y ≥ 0)) (atCeiling grid obj) = .ok c := by
    by_cases h0 : obj.speed.y ≥ 0
    · exact ⟨b, by simp only [andThen, h0, decide_True, if_true, hb]⟩
    · exact ⟨false, by simp [andThen, h0]⟩
  obtain ⟨c, hc⟩ := hc
  have hloc : (if c then restVertical obj else obj).location = obj.location := by
    cases c <;> rfl
  have hle : (if c then restVertical obj else obj).speed.y ≤ 0 := by
    cases c
    · exact hdown
    · exact le_refl _
  have hf : andThen (decide ((if c then restVertical obj else obj).speed.y ≤ 0))
      (onFloor grid (if c then restVertical obj else obj)) = .ok true := by
    simp only [andThen, hle, decide_True, if_true]
    rw [onFloor_congr grid _ obj hloc, hfloor]
  rw [verticalResponse_of_tests grid obj c true hc hf]
  cases c <;> rfl

/-- C13: for an object inside the board with `speed.y <= 0` that is on a floor,
one application of the vertical response yields `speed.y = 0`, `center.y = 15`
and changes nothing else, and every further application leaves exactly that
state: `n + 1` applications complete with the same result for every `n`. -/
theorem floor_rest_idempotent (grid : Grid) (obj : object)
    (hin : inBoard obj.location.x obj.location.y)
    (hdown : obj.speed.y ≤ 0) (hfloor : onFloor grid obj = .ok true) (n : Nat) :
    verticalResponse grid obj =
      .ok { obj with speed := { obj.speed with y := 0 },
                     center := { obj.center with y := 15 } } ∧
    repeatVertical grid (n + 1) obj =
      .ok { obj with speed := { obj.speed with y := 0 },
                     center := { obj.center with y := 15 } } := by
  have h1 := verticalResponse_on_floor grid obj hin hdown hfloor
  have hrest : ∀ k : Nat, repeatVertical grid k (restVertical obj) = .ok (restVertical obj) := by
    intro k
    induction k with
    | zero => rfl
    | succ k ih =>
      have h2 := verticalResponse_on_floor grid (restVertical obj) hin (le_refl _)
        ((onFloor_congr grid (restVertical obj) obj rfl).trans hfloor)
      simp only [repeatVertical, h2]
      exact ih
  refine ⟨h1, ?_⟩
  simp only [repeatVertical, h1]
  exact hrest n

/-- The falling object of `landingObject` over the occupied tile (10,4): one
application and three applications of the vertical response both leave it with
`speed.y = 0` and `center.y = 15`. -/
theorem floor_rest_idempotent_witness :
    inBoard landingObject.location.x landingObject.location.y ∧
    landingObject.speed.y ≤ 0 ∧ onFloor floorGrid landingObject = .ok true ∧
    verticalResponse floorGrid landingObject =
      .ok { landingObject with speed := { landingObject.speed with y := 0 },
                               center := { landingObject.center with y := 15 } } ∧
    repeatVertical floorGrid (2 + 1) landingObject =
      .ok { landingObject with speed := { landingObject.speed with y := 0 },
                               center := { landingObject.center with y := 15 } } :=
  ⟨by decide, by decide!, by rfl,
    floor_rest_idempotent floorGrid landingObject (by decide) (by decide!) (by rfl) 2⟩

/-- One vertical response of an object that is neither at a ceiling nor on a
floor: only the gravity statement acts. -/
theorem verticalResponse_in_air (grid : Grid) (obj : object)
    (hc : atCeiling grid obj = .ok false) (hf : onFloor grid obj = .ok false) :
    verticalResponse grid obj = .ok (floorOrGravity false obj) := by
  have hc' : andThen (decide (obj.speed.y ≥ 0)) (atCeiling grid obj) = .ok false := by
    by_cases h0 : obj.speed.y ≥ 0
    · simp only [andThen, h0, decide_True, if_true, hc]
    · simp [andThen, h0]
  have hf' : andThen (decide ((if false = true then restVertical obj else obj).speed.y ≤ 0))
      (onFloor grid (if false = true then restVertical obj else obj)) = .ok false := by
    simp only [Bool.false_eq_true, if_false]
    by_cases h0 : obj.speed.y ≤ 0
    · simp only [andThen, h0, decide_True, if_true, hf]
    · simp [andThen, h0]
  rw [verticalResponse_of_tests grid obj false false hc' hf']
  rfl

theorem floorOrGravity_air (obj : object) :
    (floorOrGravity false obj).location = obj.location ∧
    (-11 / 20 < obj.speed.y → -11 / 20 < (floorOrGravity false obj).speed.y) := by
  unfold floorOrGravity
  simp only [Bool.false_eq_true, if_false]
  split_ifs with h1 h2
  · refine ⟨rfl, fun _ => ?_⟩
    show -11 / 20 < obj.speed.y - 1 / 20
    linarith
  · exact ⟨rfl, fun h => h⟩
  · exact ⟨rfl, fun h => h⟩

/-- C14 (counterexample): the object of `fallingObject` is neither on a floor
nor at a ceiling and falls at 0.48, which is above the terminal value -0.5; one
application of the vertical response takes its `speed.y` to -0.53, below -0.5. -/
theorem gravity_undershoots_terminal_fall :
    (-1 / 2 : Rat) ≤ fallingObject.speed.y ∧
    atCeiling emptyGrid fallingObject = .ok false ∧
    onFloor emptyGrid fallingObject = .ok false ∧
    verticalResponse emptyGrid fallingObject =
      .ok { fallingObject with speed := { x := 0, y := -53 / 100 } } ∧
    (-53 / 100 : Rat) < -1 / 2 :=
  ⟨by decide!, by rfl, by rfl, by with_unfolding_all rfl, by decide!⟩

/-- C14 (amended): for an object that is neither on a floor nor at a ceiling and
whose vertical velocity is at or above -0.5, any number of applications of the
vertical response completes, leaves the object in its tile, and leaves its
`speed.y` above -0.55: the terminal value -0.5 is undershot by less than one
gravity decrement. -/
theorem gravity_bounded_below (grid : Grid) (obj : object)
    (hc : atCeiling grid obj = .ok false) (hf : onFloor grid obj = .ok false)
    (hv : -1 / 2 ≤ obj.speed.y) (n : Nat) :
    ∃ obj', repeatVertical grid n obj = .ok obj' ∧
      obj'.location = obj.location ∧ -11 / 20 < obj'.speed.y := by
  have hv' : -11 / 20 < obj.speed.y := by linarith
  clear hv
  induction n generalizing obj with
  | zero => exact ⟨obj, rfl, rfl, hv'⟩
  | succ n ih =>
    have h1 := verticalResponse_in_air grid obj hc hf
    obtain ⟨hl, hs⟩ := floorOrGravity_air obj
    obtain ⟨obj', hr, hl', hs'⟩ := ih (floorOrGravity false obj)
      ((atCeiling_congr grid _ obj hl).trans hc) ((onFloor_congr grid _ obj hl).trans hf)
      (hs hv')
    exact ⟨obj', by simp only [repeatVertical, h1]; exact hr, hl'.trans hl, hs'⟩

/-- The object of `fallingObject`, five applications of the vertical response. -/
theorem gravity_bounded_below_witness :
    (-1 / 2 : Rat) ≤ fallingObject.speed.y ∧
    ∃ obj', repeatVertical emptyGrid 5 fallingObject = .ok obj' ∧
      obj'.location = fallingObject.location ∧ -11 / 20 < obj'.speed.y :=
  ⟨by decide!, gravity_bounded_below emptyGrid fallingObject (by rfl) (by rfl) (by decide!) 5⟩

theorem ctrunc_small (v : Rat) (h : |v| < 1) : ctrunc v = 0 := by
  obtain ⟨h1, h2⟩ := abs_lt.mp h
  unfold ctrunc
  by_cases h0 : 0 ≤ v
  · simp only [h0, if_true, rat_floor_eq]
    exact Int.floor_eq_zero_iff.mpr ⟨h0, h2⟩
  · simp only [h0, if_false, rat_floor_eq, neg_eq_zero]
    exact Int.floor_eq_zero_iff.mpr ⟨by linarith, by linarith⟩

theorem cAbs_small (v : Rat) (h : |v| < 1) : cAbs v = .ok 0 := by
  unfold cAbs
  rw [ctrunc_small v h]
  simp [INT_MIN, INT_MAX]

/-- With both velocity components of magnitude below 1 the two calls of `abs`
both return 0, so a corner lock that fires stops the vertical axis. -/
theorem cornerLock_small_speed (grid : Grid) (obj : object)
    (hx : |obj.speed.x| < 1) (hy : |obj.speed.y| < 1)
    (hc : atCorner grid obj obj.speed = .ok true) :
    cornerLock grid obj = .ok (StopObject obj VERTICAL) := by
  have hne : ¬ (obj.speed.x = 0 ∧ obj.speed.y = 0) := by
    intro h0
    rw [atCorner_zero_component grid obj obj.speed (Or.inl h0.1)] at hc
    exact absurd hc (by simp)
  unfold cornerLock
  simp only [bind, Except.bind, pure, Except.pure, hc, cAbs_small _ hx, cAbs_small _ hy, hne,
    not_false_eq_true, and_self, if_true, gt_iff_lt, lt_self_iff_false, if_false]

/-- C15 (evaluation at the failing input): the player of `cornerObject` moves
with velocity (0.25, -0.05) into the occupied corner tile (11,4).  Its
horizontal speed has the larger magnitude, yet the corner lock stops the
vertical axis: `speed.y = 0`, `center.y = 15`, horizontal speed still 0.25. -/
theorem cornerLock_stops_vertical_axis :
    cornerObject.speed.x ≠ 0 ∧ cornerObject.speed.y ≠ 0 ∧
    |cornerObject.speed.x| > |cornerObject.speed.y| ∧
    atCorner cornerGrid cornerObject cornerObject.speed = .ok true ∧
    cornerLock cornerGrid cornerObject =
      .ok { cornerObject with speed := { x := 1 / 4, y := 0 },
                              center := { x := 20, y := 15 } } :=
  ⟨by decide!, by decide!, by decide!, by with_unfolding_all rfl, by with_unfolding_all rfl⟩

theorem StopObject_horizontal (obj : object) :
    StopObject obj HORIZONTAL = restHorizontal obj := by
  simp [StopObject, HORIZONTAL, restHorizontal]

theorem atRightWall_returns (grid : Grid) (obj : object)
    (hin : inBoard obj.location.x obj.location.y) : ∃ b, atRightWall grid obj = .ok b := by
  obtain ⟨h1, h2, h3, h4⟩ := hin
  simp only [LEFT, RIGHT, BOTTOM, TOP] at h1 h2 h3 h4
  unfold atRightWall
  by_cases hb : obj.location.x = RIGHT
  · exact ⟨true, by simp [hb]⟩
  · have hin' : inBoard (obj.location.x + 1) obj.location.y := by
      simp only [RIGHT] at hb
      simp only [inBoard, LEFT, RIGHT, BOTTOM, TOP]; omega
    exact ⟨_, by simp only [hb, if_false]; exact occupied_inBoard _ _ _ hin'⟩

theorem atLeftWall_returns (grid : Grid) (obj : object)
    (hin : inBoard obj.location.x obj.location.y) : ∃ b, atLeftWall grid obj = .ok b := by
  obtain ⟨h1, h2, h3, h4⟩ := hin
  simp only [LEFT, RIGHT, BOTTOM, TOP] at h1 h2 h3 h4
  unfold atLeftWall
  by_cases hb : obj.location.x = LEFT
  · exact ⟨true, by simp [hb]⟩
  · have hin' : inBoard (obj.location.x - 1) obj.location.y := by
      simp only [LEFT] at hb
      simp only [inBoard, LEFT, RIGHT, BOTTOM, TOP]; omega
    exact ⟨_, by simp only [hb, if_false]; exact occupied_inBoard _ _ _ hin'⟩

/-- C16: the horizontal response of `UpdateState` for a player inside the board.
Moving left at the left wall: `speed.x = 0`, `center.x = 15`, `blocked_right`
set, `blocked_left` as before.  Moving right at the right wall: `speed.x = 0`,
`center.x = 15`, `blocked_left` set, `blocked_right` as before.  At rest: no
flag changes (the player is centred).  Moving and not at the wall it moves
towards: nothing changes at all. -/
theorem horizontal_response_spec (w : World)
    (hin : inBoard w.player.location.x w.player.location.y) :
    (w.player.speed.x < 0 → atLeftWall w.grid w.player = .ok true →
      horizontalResponse w =
        .ok { w with blocked_right := true, player := restHorizontal w.player }) ∧
    (w.player.speed.x > 0 → atRightWall w.grid w.player = .ok true →
      horizontalResponse w =
        .ok { w with blocked_left := true, player := restHorizontal w.player }) ∧
    (w.player.speed.x = 0 →
      horizontalResponse w = .ok { w with player := restHorizontal w.player }) ∧
    (w.player.speed.x < 0 → atLeftWall w.grid w.player = .ok false →
      horizontalResponse w = .ok w) ∧
    (w.player.speed.x > 0 → atRightWall w.grid w.player = .ok false →
      horizontalResponse w = .ok w) := by
  refine ⟨fun hx hl => ?_, fun hx hr => ?_, fun hx => ?_, fun hx hl => ?_, fun hx hr => ?_⟩
  · have h0 : ¬ (w.player.speed.x = 0) := ne_of_lt hx
    have h1 : ¬ (w.player.speed.x ≥ 0) := not_le.mpr hx
    have h2 : w.player.speed.x ≤ 0 := le_of_lt hx
    unfold horizontalResponse
    simp only [h0, if_false, bind, Except.bind, pure, Except.pure, andThen, orElse, h1, h2,
      decide_True, decide_False, if_true, hl, hx, Bool.false_eq_true, StopObject_horizontal]
  · have h0 : ¬ (w.player.speed.x = 0) := ne_of_gt hx
    have h1 : w.player.speed.x ≥ 0 := le_of_lt hx
    have h3 : ¬ (w.player.speed.x < 0) := not_lt.mpr h1
    unfold horizontalResponse
    simp only [h0, if_false, bind, Except.bind, pure, Except.pure, andThen, orElse, h1,
      decide_True, if_true, hr, hx, h3, StopObject_horizontal]
  · obtain ⟨br, hr⟩ := atRightWall_returns w.grid w.player hin
    obtain ⟨bl, hl⟩ := atLeftWall_returns w.grid w.player hin
    have hc : ({ w.player with center := { w.player.center with x := TILE_CENTER_X } } : object)
        = restHorizontal w.player := by
      unfold restHorizontal
      cases hp : w.player with
      | mk location center speed alive type =>
        cases hs : speed with
        | mk sx sy =>
          rw [hp] at hx
          simp only [hs] at hx
          simp only [hx]
    have hrr : atRightWall w.grid (restHorizontal w.player) = .ok br := hr
    have hll : atLeftWall w.grid (restHorizontal w.player) = .ok bl := hl
    have hs0 : (restHorizontal w.player).speed.x = 0 := rfl
    unfold horizontalResponse
    simp only [hx, if_true, hc, bind, Except.bind, pure, Except.pure, andThen, orElse, hs0,
      ge_iff_le, le_refl, decide_True, hrr, hll, lt_self_iff_false, if_false, gt_iff_lt,
      StopObject_horizontal]
    cases br <;> cases bl <;> rfl
  · have h0 : ¬ (w.player.speed.x = 0) := ne_of_lt hx
    have h1 : ¬ (w.player.speed.x ≥ 0) := not_le.mpr hx
    have h2 : w.player.speed.x ≤ 0 := le_of_lt hx
    unfold horizontalResponse
    simp only [h0, if_false, bind, Except.bind, pure, Except.pure, andThen, orElse, h1, h2,
      decide_True, decide_False, if_true, hl, Bool.false_eq_true]
  · have h0 : ¬ (w.player.speed.x = 0) := ne_of_gt hx
    have h1 : w.player.speed.x ≥ 0 := le_of_lt hx
    have h2 : ¬ (w.player.speed.x ≤ 0) := not_le.mpr hx
    unfold horizontalResponse
    simp only [h0, if_false, bind, Except.bind, pure, Except.pure, andThen, orElse, h1, h2,
      decide_True, decide_False, if_true, hr, Bool.false_eq_true]

/-- The player of `leftBlockedWorld` moves left against an occupied tile: it is
stopped and centred and the right-side flag is raised. -/
theorem horizontal_response_spec_witness :
    leftBlockedWorld.player.speed.x < 0 ∧
    atLeftWall leftBlockedWorld.grid leftBlockedWorld.player = .ok true ∧
    horizontalResponse leftBlockedWorld =
      .ok { leftBlockedWorld with blocked_right := true,
                                  player := restHorizontal leftBlockedWorld.player } :=
  have hx : leftBlockedWorld.player.speed.x < 0 := by decide!
  have hl : atLeftWall leftBlockedWorld.grid leftBlockedWorld.player = .ok true := by rfl
  ⟨hx, hl, (horizontal_response_spec leftBlockedWorld (by decide)).1 hx hl⟩

/-- C17: with the clock readings and the random draw as inputs, the spawn step
always completes.  When `now - last_time > 1` it appends exactly one node to the
end of the hostile list: a monster that is alive, at rest, with offset (15,15),
in tile `(LEFT, TOP)` or `(RIGHT, TOP)`; the slot of that tile references the
new node, every other slot is as before, and `last_time` becomes the clock
reading taken at the reset.  Otherwise the world, list and grid included, is
unchanged. -/
theorem spawn_step_spec (inp : TickInput) (w : World) :
    (inp.now - w.last_time > 1 →
      spawnStep inp w =
        .ok { w with
          g_monsters := w.g_monsters ++ [spawnedMonster w.heap_next (spawnLocation inp.rand)],
          grid := fun i j =>
            if i = (spawnLocation inp.rand).x ∧ j = (spawnLocation inp.rand).y then
              some (ObjRef.node w.heap_next)
            else w.grid i j,
          heap_next := w.heap_next + 1,
          last_time := inp.now2 }) ∧
    (¬ (inp.now - w.last_time > 1) → spawnStep inp w = .ok w) ∧
    (spawnLocation inp.rand = { x := LEFT, y := TOP } ∨
      spawnLocation inp.rand = { x := RIGHT, y := TOP }) := by
  have hloc : spawnLocation inp.rand = { x := LEFT, y := TOP } ∨
      spawnLocation inp.rand = { x := RIGHT, y := TOP } := by
    unfold spawnLocation
    by_cases h : inp.rand % 10 ≥ 5
    · right; simp [h]
    · left; simp [h]
  have hin : inBoard (spawnLocation inp.rand).x (spawnLocation inp.rand).y := by
    rcases hloc with h | h <;> rw [h] <;> decide
  refine ⟨fun h => ?_, fun h => ?_, hloc⟩
  · unfold spawnStep createMonster CreateObject
    simp only [h, if_true, bind, Except.bind, pure, Except.pure, gridWrite]
    have hin' : inBoard (if inp.rand % 10 ≥ 5 then RIGHT else LEFT) TOP := hin
    simp only [hin', if_true]
    rfl
  · unfold spawnStep
    simp only [h, if_false]

/-- The timer fired at 0.  A reading of 0.5 s leaves the world unchanged; a
reading of 1.5 s appends one monster, here in tile `(RIGHT, TOP)`. -/
theorem spawn_step_spec_witness :
    spawnStep tickAtHalf airborneWorld = .ok airborneWorld ∧
    spawnStep tickAtOneAndHalf airborneWorld =
      .ok { airborneWorld with
        g_monsters := airborneWorld.g_monsters ++
          [spawnedMonster airborneWorld.heap_next (spawnLocation tickAtOneAndHalf.rand)],
        grid := fun i j =>
          if i = (spawnLocation tickAtOneAndHalf.rand).x ∧
              j = (spawnLocation tickAtOneAndHalf.rand).y then
            some (ObjRef.node airborneWorld.heap_next)
          else airborneWorld.grid i j,
        heap_next := airborneWorld.heap_next + 1,
        last_time := tickAtOneAndHalf.now2 } ∧
    spawnLocation tickAtOneAndHalf.rand = { x := RIGHT, y := TOP } :=
  ⟨(spawn_step_spec tickAtHalf airborneWorld).2.1 (by decide!),
    (spawn_step_spec tickAtOneAndHalf airborneWorld).1 (by decide!), by decide⟩

theorem adjacentRemovable_tail (a : object_list) (l : List object_list)
    (h : adjacentRemovable (a :: l) = false) : adjacentRemovable l = false := by
  cases l with
  | nil => rfl
  | cons b rest =>
    simp only [adjacentRemovable, Bool.or_eq_false_iff] at h
    exact h.2

theorem collect_eq_filter_aux (n : Nat) :
    ∀ l : List object_list, l.length ≤ n → adjacentRemovable l = false →
      collect l = .ok (l.filter (fun m => !removable m)) := by
  induction n with
  | zero =>
    intro l hl _
    have : l = [] := List.length_eq_zero.mp (Nat.le_zero.mp hl)
    subst this; rfl
  | succ n ih =>
    intro l hl hadj
    cases l with
    | nil => rfl
    | cons m rest =>
      simp only [List.length_cons, Nat.add_le_add_iff_right] at hl
      by_cases hm : removable m = true
      · cases rest with
        | nil => simp [collect, hm]
        | cons m2 rest2 =>
          have h2 : removable m2 = false := by
            simp only [adjacentRemovable, Bool.or_eq_false_iff, Bool.and_eq_false_iff] at hadj
            rcases hadj.1 with h | h
            · rw [hm] at h; exact absurd h (by simp)
            · exact h
          have ht := adjacentRemovable_tail m2 rest2 (adjacentRemovable_tail m _ hadj)
          simp only [List.length_cons] at hl
          have hr := ih rest2 (by omega) ht
          simp [collect, hm, h2, hr]
      · have hm' : removable m = false := by simpa using hm
        have hr := ih rest hl (adjacentRemovable_tail m rest hadj)
        cases rest with
        | nil => simp [collect, hm']
        | cons m2 rest2 =>
          unfold collect
          simp only [hm', Bool.false_eq_true, if_false, hr]
          simp [List.filter, hm']

/-- The removal loop on a list without two removable neighbours: exactly the
removable nodes are dropped, the others keep their order. -/
theorem collect_eq_filter (l : List object_list) (h : adjacentRemovable l = false) :
    collect l = .ok (l.filter (fun m => !removable m)) :=
  collect_eq_filter_aux l.length l (le_refl _) h

/-- C18 (evaluation at the failing input): two dead hostiles on the bottom row
that are neighbours in the list.  Both are to be removed, but the removal loop
does not produce the empty list: after freeing the first node it frees the
second through the link field of the freed node, and the list keeps pointing at
the freed second node.  A dead hostile on row 5 is kept, and two removable
hostiles that are not neighbours are both removed. -/
theorem collect_adjacent_removals_corrupt_list :
    removable deadBottomA = true ∧ removable deadBottomB = true ∧
    collect [deadBottomA, deadBottomB] = .error Fault.useAfterFree ∧
    collect [deadBottomA, deadRowFive, deadBottomB] = .ok [deadRowFive] :=
  ⟨by decide, by decide, by rfl, by rfl⟩

theorem behaviourLoop_cons_stop (grid : Grid) (m : object_list) (rest : List object_list)
    (hm : stopsLoop m) : behaviourLoop grid (m :: rest) = .ok (stoppedNode m :: rest) := by
  rw [behaviourLoop]
  unfold stoppedNode
  cases hd : m.object.alive with
  | false =>
    simp only [if_true, BOTTOM]
    split_ifs <;> rfl
  | true =>
    have hc := hm.resolve_left (by rw [hd]; simp)
    simp only [Bool.true_eq_false, if_false, hc, and_self, if_true]

theorem behaviourLoop_cons_go (grid : Grid) (a : object_list) (rest : List object_list)
    (ha : ¬ stopsLoop a) :
    behaviourLoop grid (a :: rest) =
      (match monsterBehaviour grid a.object with
       | .error e => .error e
       | .ok o =>
         match behaviourLoop grid rest with
         | .error e => .error e
         | .ok rest1 => .ok ({ a with object := o } :: rest1)) := by
  have ha1 : a.object.alive = true := by
    cases hd : a.object.alive with
    | false => exact absurd (Or.inl hd) ha
    | true => rfl
  have ha2 : ¬ (a.object.location.y = BOTTOM ∧
      (a.object.location.x = RIGHT ∨ a.object.location.x = LEFT)) :=
    fun h => ha (Or.inr h)
  rw [behaviourLoop]
  simp only [ha1, Bool.true_eq_false, if_false, ha2]

/-- C19: in a hostile list `pre ++ m :: post` where `m` is the first hostile that
is dead or alive on the bottom row in column `LEFT` or `RIGHT`, the behaviour
loop processes `pre` and stops at `m`.  A dead `m` has its row decremented by
exactly one when it is above `BOTTOM` and is unchanged otherwise (only the row
changes: offset, velocity and flag stay, and the loop writes no grid slot); a
live `m` has its alive flag cleared and nothing else; `post` is returned
unchanged.  The loop completes exactly when the behaviour of the hostiles in
`pre` does. -/
theorem behaviourLoop_stops_at_first (grid : Grid) (pre post : List object_list)
    (m : object_list) (hpre : ∀ n ∈ pre, ¬ stopsLoop n) (hm : stopsLoop m) :
    behaviourLoop grid (pre ++ m :: post) =
      (match behaviourLoop grid pre with
       | .error e => .error e
       | .ok pre' => .ok (pre' ++ stoppedNode m :: post)) ∧
    (∀ pre', behaviourLoop grid pre = .ok pre' → pre'.length = pre.length) ∧
    (m.object.alive = false → m.object.location.y > BOTTOM →
      stoppedNode m = { m with object := { m.object with
        location := { x := m.object.location.x, y := m.object.location.y - 1 } } }) ∧
    (m.object.alive = false → m.object.location.y ≤ BOTTOM → stoppedNode m = m) ∧
    (m.object.alive = true →
      stoppedNode m = { m with object := { m.object with alive := false } }) := by
  refine ⟨?_, ?_, ?_, ?_, ?_⟩
  · induction pre with
    | nil =>
      rw [List.nil_append, behaviourLoop_cons_stop grid m post hm]
      rfl
    | cons a pre ih =>
      have ha := hpre a (List.mem_cons_self _ _)
      have ih' := ih (fun n hn => hpre n (List.mem_cons_of_mem _ hn))
      rw [List.cons_append, behaviourLoop_cons_go grid a _ ha,
        behaviourLoop_cons_go grid a _ ha, ih']
      cases monsterBehaviour grid a.object with
      | error e => rfl
      | ok o =>
        cases behaviourLoop grid pre with
        | error e => rfl
        | ok pre' => rfl
  · induction pre with
    | nil =>
      intro pre' h
      simp only [behaviourLoop, Except.ok.injEq] at h
      subst h; rfl
    | cons a pre ih =>
      intro pre' h
      have ha := hpre a (List.mem_cons_self _ _)
      rw [behaviourLoop_cons_go grid a _ ha] at h
      split at h
      · exact absurd h (by simp)
      split at h
      · exact absurd h (by simp)
      rename_i rest1 hrest
      simp only [Except.ok.injEq] at h
      subst h
      simp only [List.length_cons]
      rw [ih (fun n hn => hpre n (List.mem_cons_of_mem _ hn)) rest1 hrest]
  · intro hd hy
    simp only [stoppedNode, hd, if_true, hy]
  · intro hd hy
    have : ¬ (m.object.location.y > BOTTOM) := not_lt.mpr hy
    simp only [stoppedNode, hd, if_true, this, if_false]
  · intro hl
    simp only [stoppedNode, hl, Bool.true_eq_false, if_false]

/-- The list of a falling live hostile, the dead hostile of row 5, and a dead
hostile on the bottom row: the loop moves the first, lowers the second to row 4
and does not touch the third. -/
theorem behaviourLoop_stops_at_first_witness :
    stopsLoop deadRowFive ∧
    behaviourLoop emptyGrid ([airborneMonster] ++ deadRowFive :: [deadBottomA]) =
      .ok [{ airborneMonster with object := { airborneMonster.object with
               speed := { x := 3 / 20, y := -3 / 20 } } },
           { deadRowFive with object := { deadRowFive.object with
               location := { x := 7, y := 4 } } },
           deadBottomA] :=
  have hs : stopsLoop deadRowFive := Or.inl rfl
  ⟨hs, (behaviourLoop_stops_at_first emptyGrid [airborneMonster] [deadBottomA] deadRowFive
    (by
      intro n hn
      simp only [List.mem_singleton] at hn
      subst hn
      unfold stopsLoop
      decide) hs).1.trans (by with_unfolding_all rfl)⟩

/-- With the player on the bottom row, inside the board, the first test of the
resolution reads row -1. -/
theorem stompResolution_bottom_row (w : World) (hrow : w.player.location.y = BOTTOM) :
    stompResolution w = .error Fault.outOfBounds := by
  have hout : ¬ inBoard w.player.location.x (w.player.location.y - 1) := by
    rw [hrow]
    simp only [inBoard, LEFT, RIGHT, BOTTOM, TOP]
    omega
  unfold stompResolution monsterAt
  simp only [bind, Except.bind, gridRead, hout, if_false]

/-- C20 (evaluation at the failing input): in the world of the globals as
declared, the player is inside the board, in tile (10,0) on the bottom row; the
stomp/hit resolution starts by reading the slot of tile (10,-1), outside the
board.  The same happens in the initial world built from a level file. -/
theorem stomp_check_reads_below_bottom_row :
    inBoard staticWorld.player.location.x staticWorld.player.location.y ∧
    staticWorld.player.location = { x := 10, y := 0 } ∧
    ¬ inBoard staticWorld.player.location.x (staticWorld.player.location.y - 1) ∧
    stompResolution staticWorld = .error Fault.outOfBounds ∧
    stompResolution cornerMapWorld = .error Fault.outOfBounds :=
  ⟨by decide, rfl, by decide, stompResolution_bottom_row staticWorld rfl,
    stompResolution_bottom_row cornerMapWorld (by decide!)⟩

/-- In the initial world, whatever the level file, the stomp/hit resolution
reads outside the board. -/
theorem initial_stomp_check_faults (map_txt : List Char) (w : World)
    (h : initializeWorld map_txt = .ok w) :
    stompResolution w = .error Fault.outOfBounds := by
  have hp := initializeWorld_player map_txt w h
  exact stompResolution_bottom_row w (by rw [hp]; rfl)

/-- C22 (evaluation at the failing input): in `cornerMonsterWorld` every occupied
slot references the player or the hostile of the list.  `UpdateMonsters` marks
that hostile dead, since it is on a bottom corner, and removes it from the list
in the same call, but the slot of tile (0,0) still holds its address: the grid
is left with a pointer to a freed node, and testing that slot for a monster
follows it. -/
theorem UpdateMonsters_leaves_dangling_slot :
    NoDangling cornerMonsterWorld ∧
    UpdateMonsters cornerMonsterWorld = .ok cornerMonsterWorldAfter ∧
    cornerMonsterWorldAfter.g_monsters = [] ∧
    cornerMonsterWorldAfter.grid 0 0 = some (ObjRef.node cornerMonster.addr) ∧
    ¬ NoDangling cornerMonsterWorldAfter ∧
    monsterAt cornerMonsterWorldAfter 0 0 = .error Fault.useAfterFree := by
  refine ⟨?_, by rfl, rfl, by rfl, ?_, by rfl⟩
  · intro i j a h
    have hg : cornerMonsterWorld.grid = cornerMonsterGrid := rfl
    rw [hg] at h
    unfold cornerMonsterGrid at h
    split_ifs at h
    · simp at h
    · simp only [Option.some.injEq, ObjRef.node.injEq] at h
      exact ⟨cornerMonster, by decide!, h⟩
  · intro hnd
    obtain ⟨n, hn, _⟩ := hnd 0 0 5 (by rfl)
    have hl : cornerMonsterWorldAfter.g_blocks ++ cornerMonsterWorldAfter.g_monsters = [] := rfl
    rw [hl] at hn
    exact absurd hn (List.not_mem_nil n)

theorem adjacentRemovable_of_map (l1 : List object_list) :
    ∀ l2 : List object_list, l1.map removable = l2.map removable →
      adjacentRemovable l1 = adjacentRemovable l2 := by
  induction l1 with
  | nil =>
    intro l2 h
    cases l2 with
    | nil => rfl
    | cons b r => simp at h
  | cons a r1 ih =>
    intro l2 h
    cases l2 with
    | nil => simp at h
    | cons b r2 =>
      simp only [List.map_cons, List.cons.injEq] at h
      have ht := ih r2 h.2
      cases r1 with
      | nil =>
        cases r2 with
        | nil => rfl
        | cons b2 r2' => simp at h
      | cons a2 r1' =>
        cases r2 with
        | nil => simp at h
        | cons b2 r2' =>
          have h2 := h.2
          simp only [List.map_cons, List.cons.injEq] at h2
          simp only [adjacentRemovable, h.1, h2.1, ht]

/-- The removal loop faults exactly when two neighbours are removable. -/
theorem collect_adjacent_faults (n : Nat) :
    ∀ l : List object_list, l.length ≤ n → adjacentRemovable l = true →
      collect l = .error Fault.useAfterFree := by
  induction n with
  | zero =>
    intro l hl h
    have : l = [] := List.length_eq_zero.mp (Nat.le_zero.mp hl)
    subst this
    simp [adjacentRemovable] at h
  | succ n ih =>
    intro l hl hadj
    cases l with
    | nil => simp [adjacentRemovable] at hadj
    | cons m rest =>
      simp only [List.length_cons, Nat.add_le_add_iff_right] at hl
      cases rest with
      | nil => simp [adjacentRemovable] at hadj
      | cons m2 rest2 =>
        simp only [List.length_cons] at hl
        by_cases hm : removable m = true
        · by_cases h2 : removable m2 = true
          · simp [collect, hm, h2]
          · have h2' : removable m2 = false := by simpa using h2
            have hadj2 : adjacentRemovable (m2 :: rest2) = true := by
              simpa [adjacentRemovable, hm, h2'] using hadj
            have hadj3 : adjacentRemovable rest2 = true := by
              cases rest2 with
              | nil => simp [adjacentRemovable] at hadj2
              | cons m3 rest3 => simpa [adjacentRemovable, h2'] using hadj2
            have hr := ih rest2 (by omega) hadj3
            simp [collect, hm, h2', hr]
        · have hm' : removable m = false := by simpa using hm
          have hadj2 : adjacentRemovable (m2 :: rest2) = true := by
            simpa [adjacentRemovable, hm'] using hadj
          have hr := ih (m2 :: rest2) (by simpa using hl) hadj2
          unfold collect
          simp only [hm', Bool.false_eq_true, if_false, hr]

/-- The removal loop as a filter guarded by the adjacency test. -/
theorem collect_eq (l : List object_list) :
    collect l = if adjacentRemovable l = true then .error Fault.useAfterFree
                else .ok (l.filter kept) := by
  by_cases h : adjacentRemovable l = true
  · simp only [h, if_true]
    exact collect_adjacent_faults l.length l (le_refl _) h
  · have h' : adjacentRemovable l = false := by simpa using h
    simp only [h', Bool.false_eq_true, if_false]
    exact collect_eq_filter l h'

theorem removable_of_alive (m : object_list) (h : m.object.alive = true) :
    removable m = false := by
  simp [removable, h]

theorem moveMonsters_cons_alive (g : Grid) (m : object_list) (rest : List object_list)
    (h : m.object.alive = true) :
    moveMonsters g (m :: rest) =
      (match MoveObject g (ObjRef.node m.addr) m.object m.object.speed with
       | .error e => .error e
       | .ok r =>
         match moveMonsters r.1 rest with
         | .error e => .error e
         | .ok r1 => .ok (r1.1, { m with object := r.2 } :: r1.2)) := by
  rw [moveMonsters]
  simp only [h, if_true]

theorem moveMonsters_cons_dead (g : Grid) (m : object_list) (rest : List object_list)
    (h : m.object.alive = false) :
    moveMonsters g (m :: rest) =
      (match moveMonsters g rest with
       | .error e => .error e
       | .ok r1 => .ok (r1.1, m :: r1.2)) := by
  rw [moveMonsters]
  simp only [h, Bool.false_eq_true, if_false]

/-- Integration skips dead hostiles, so it commutes with dropping removable
ones. -/
theorem moveMonsters_filter_kept (l : List object_list) :
    ∀ g : Grid, moveMonsters g (l.filter kept) =
      (match moveMonsters g l with
       | .error e => .error e
       | .ok r => .ok (r.1, r.2.filter kept)) := by
  induction l with
  | nil => intro g; rfl
  | cons m rest ih =>
    intro g
    cases ha : m.object.alive with
    | true =>
      have hk : kept m = true := by simp [kept, removable_of_alive m ha]
      rw [List.filter_cons_of_pos hk, moveMonsters_cons_alive g m _ ha,
        moveMonsters_cons_alive g m _ ha]
      cases hmo : MoveObject g (ObjRef.node m.addr) m.object m.object.speed with
      | error e => rfl
      | ok r =>
        simp only [ih r.1]
        cases hmm : moveMonsters r.1 rest with
        | error e => rfl
        | ok r1 =>
          have halive : r.2.alive = true := by
            rw [(MoveObject_ok g _ _ _ r.1 r.2 hmo).2.2.2.2.2.2.2.1, ha]
          have hk' : kept { m with object := r.2 } = true := by
            simp [kept, removable, halive]
          simp only [List.filter_cons_of_pos hk']
    | false =>
      rw [moveMonsters_cons_dead g m rest ha]
      cases hk : kept m with
      | true =>
        rw [List.filter_cons_of_pos hk, moveMonsters_cons_dead g m _ ha, ih g]
        cases hmm : moveMonsters g rest with
        | error e => rfl
        | ok r1 => simp only [List.filter_cons_of_pos hk]
      | false =>
        have hk' : ¬ (kept m = true) := by simp [hk]
        rw [List.filter_cons_of_neg hk', ih g]
        cases hmm : moveMonsters g rest with
        | error e => rfl
        | ok r1 => simp only [List.filter_cons_of_neg hk']

/-- Integration does not change which hostiles are removable. -/
theorem moveMonsters_removable (l : List object_list) :
    ∀ (g : Grid) (r : Grid × List object_list), moveMonsters g l = .ok r →
      r.2.map removable = l.map removable := by
  induction l with
  | nil =>
    intro g r h
    simp only [moveMonsters, Except.ok.injEq] at h
    subst h; rfl
  | cons m rest ih =>
    intro g r h
    cases ha : m.object.alive with
    | true =>
      rw [moveMonsters_cons_alive g m rest ha] at h
      cases hmo : MoveObject g (ObjRef.node m.addr) m.object m.object.speed with
      | error e => rw [hmo] at h; exact absurd h (by simp)
      | ok r0 =>
        rw [hmo] at h
        simp only at h
        cases hmm : moveMonsters r0.1 rest with
        | error e => rw [hmm] at h; exact absurd h (by simp)
        | ok r1 =>
          rw [hmm] at h
          simp only [Except.ok.injEq] at h
          subst h
          have halive : r0.2.alive = true := by
            rw [(MoveObject_ok g _ _ _ r0.1 r0.2 hmo).2.2.2.2.2.2.2.1, ha]
          have h1 : removable { m with object := r0.2 } = removable m := by
            simp [removable, halive, ha]
          simp only [List.map_cons, h1, ih r0.1 r1 hmm]
    | false =>
      rw [moveMonsters_cons_dead g m rest ha] at h
      cases hmm : moveMonsters g rest with
      | error e => rw [hmm] at h; exact absurd h (by simp)
      | ok r1 =>
        rw [hmm] at h
        simp only [Except.ok.injEq] at h
        subst h
        simp only [List.map_cons, ih g r1 hmm]

/-- Removal then integration and integration then removal complete together and
with the same grid and list. -/
theorem collect_moveMonsters_comm (g g' : Grid) (ms l' : List object_list) :
    (∃ c, collect ms = .ok c ∧ moveMonsters g c = .ok (g', l')) ↔
    (∃ r, moveMonsters g ms = .ok r ∧ r.1 = g' ∧ collect r.2 = .ok l') := by
  constructor
  · rintro ⟨c, hc, hm⟩
    rw [collect_eq] at hc
    cases hadj : adjacentRemovable ms with
    | true => rw [hadj] at hc; simp at hc
    | false =>
      rw [hadj] at hc
      simp only [Bool.false_eq_true, if_false, Except.ok.injEq] at hc
      subst hc
      rw [moveMonsters_filter_kept] at hm
      cases hmm : moveMonsters g ms with
      | error e => rw [hmm] at hm; exact absurd hm (by simp)
      | ok r =>
        rw [hmm] at hm
        simp only [Except.ok.injEq, Prod.mk.injEq] at hm
        refine ⟨r, rfl, hm.1, ?_⟩
        have hadj' : adjacentRemovable r.2 = adjacentRemovable ms :=
          adjacentRemovable_of_map _ _ (moveMonsters_removable ms g r hmm)
        rw [collect_eq, hadj', hadj]
        simp only [Bool.false_eq_true, if_false, hm.2]
  · rintro ⟨r, hmm, hg, hc⟩
    have hadj' : adjacentRemovable r.2 = adjacentRemovable ms :=
      adjacentRemovable_of_map _ _ (moveMonsters_removable ms g r hmm)
    rw [collect_eq, hadj'] at hc
    cases hadj : adjacentRemovable ms with
    | true => rw [hadj] at hc; simp at hc
    | false =>
      rw [hadj] at hc
      simp only [Bool.false_eq_true, if_false, Except.ok.injEq] at hc
      refine ⟨ms.filter kept, ?_, ?_⟩
      · rw [collect_eq, hadj]
        simp only [Bool.false_eq_true, if_false]
      · rw [moveMonsters_filter_kept, hmm]
        simp only [hg, hc]

theorem eq_error_of_faultOf {α : Type} (x : Except Fault α) (e : Fault)
    (h : faultOf x = some e) : x = .error e := by
  cases x with
  | ok a => simp [faultOf] at h
  | error e1 =>
    simp only [faultOf, Option.some.injEq] at h
    rw [h]

theorem garbageCollect_eq_filter (l : List object_list) :
    garbageCollect l = l.filter kept := rfl

/-- The loop of `UpdateState` over the live monsters computes the integration
step of the specification, whatever has been integrated before. -/
theorem integrateLive_aux (l : List object_list) :
    ∀ (g : Grid) (acc : List object_list),
      l.foldlM integrateOne (g, acc) =
      match moveMonsters g l with
      | .error e => .error e
      | .ok r => .ok (r.1, acc ++ r.2) := by
  induction l with
  | nil =>
    intro g acc
    simp [moveMonsters, List.foldlM, pure, Except.pure]
  | cons m rest ih =>
    intro g acc
    rw [List.foldlM_cons]
    cases ha : m.object.alive with
    | false =>
      rw [moveMonsters_cons_dead g m rest ha]
      simp only [integrateOne, ha, Bool.false_eq_true, if_false, bind, Except.bind]
      rw [ih]
      cases moveMonsters g rest with
      | error e => rfl
      | ok r => simp
    | true =>
      rw [moveMonsters_cons_alive g m rest ha]
      simp only [integrateOne, ha, if_true, bind, Except.bind]
      cases MoveObject g (ObjRef.node m.addr) m.object m.object.speed with
      | error e => rfl
      | ok r =>
        simp only []
        rw [ih]
        cases moveMonsters r.1 rest with
        | error e => rfl
        | ok r1 => simp

theorem integrateLive_eq_moveMonsters (g : Grid) (l : List object_list) :
    integrateLive g l = moveMonsters g l := by
  unfold integrateLive
  rw [integrateLive_aux l g []]
  cases moveMonsters g l with
  | error e => rfl
  | ok r => simp

/-- Whenever the tick as coded completes, the tick in the order of the
specification completes too, with the same world. -/
theorem tick_order_refines (inp : TickInput) (w w' : World)
    (h : UpdateState inp w = .ok w') : UpdateStateSpecOrder inp w = .ok w' := by
  unfold UpdateState at h
  obtain ⟨w1, h1, h⟩ := bind_ok _ _ _ h
  obtain ⟨p2, h2, h⟩ := bind_ok _ _ _ h
  obtain ⟨p3, h3, h⟩ := bind_ok _ _ _ h
  obtain ⟨w4, h4, h⟩ := bind_ok _ _ _ h
  obtain ⟨w5, h5, h⟩ := bind_ok _ _ _ h
  obtain ⟨w6, h6, h⟩ := bind_ok _ _ _ h
  obtain ⟨r7, h7, h⟩ := bind_ok _ _ _ h
  obtain ⟨r8, h8, h⟩ := bind_ok _ _ _ h
  simp only [pure, Except.pure, Except.ok.injEq] at h
  unfold UpdateMonsters at h6
  obtain ⟨ms, hms, h6⟩ := bind_ok _ _ _ h6
  obtain ⟨ms1, hc, h6⟩ := bind_ok _ _ _ h6
  simp only [pure, Except.pure, Except.ok.injEq] at h6
  subst h6
  have h7' : MoveObject w5.grid ObjRef.player w5.player w5.player.speed = .ok r7 := h7
  have h8' : moveMonsters r7.1 ms1 = .ok r8 := h8
  rw [collect_eq] at hc
  cases hadj : adjacentRemovable ms with
  | true => rw [hadj] at hc; simp at hc
  | false =>
    rw [hadj] at hc
    simp only [Bool.false_eq_true, if_false, Except.ok.injEq] at hc
    subst hc
    rw [moveMonsters_filter_kept] at h8'
    cases hm : moveMonsters r7.1 ms with
    | error e => rw [hm] at h8'; simp at h8'
    | ok r =>
      rw [hm] at h8'
      simp only [Except.ok.injEq] at h8'
      unfold UpdateStateSpecOrder
      simp only [bind, Except.bind, pure, Except.pure, h1, h2, h3, h4, h5, hms, h7',
        integrateLive_eq_moveMonsters, hm, garbageCollect_eq_filter]
      rw [← h, ← h8']

/-- Where the tick in the order of the specification completes, the tick as
coded gives the same world, unless its removal loop comes upon two adjacent
removable hostiles and corrupts the list. -/
theorem tick_order_converse (inp : TickInput) (w w' : World)
    (h : UpdateStateSpecOrder inp w = .ok w') :
    UpdateState inp w = .ok w' ∨ UpdateState inp w = .error Fault.useAfterFree := by
  unfold UpdateStateSpecOrder at h
  obtain ⟨w1, h1, h⟩ := bind_ok _ _ _ h
  obtain ⟨p2, h2, h⟩ := bind_ok _ _ _ h
  obtain ⟨p3, h3, h⟩ := bind_ok _ _ _ h
  obtain ⟨w4, h4, h⟩ := bind_ok _ _ _ h
  obtain ⟨w5, h5, h⟩ := bind_ok _ _ _ h
  obtain ⟨ms, hms, h⟩ := bind_ok _ _ _ h
  obtain ⟨r7, h7, h⟩ := bind_ok _ _ _ h
  obtain ⟨r8, h8, h⟩ := bind_ok _ _ _ h
  simp only [pure, Except.pure, Except.ok.injEq] at h
  rw [integrateLive_eq_moveMonsters] at h8
  cases hadj : adjacentRemovable ms with
  | true =>
    right
    have hc : collect ms = .error Fault.useAfterFree := by
      rw [collect_eq, hadj]; rfl
    have hum : UpdateMonsters w5 = .error Fault.useAfterFree := by
      unfold UpdateMonsters
      simp only [bind, Except.bind, hms, hc]
    unfold UpdateState
    simp only [bind, Except.bind, h1, h2, h3, h4, h5, hum]
  | false =>
    left
    have hc : collect ms = .ok (ms.filter kept) := by
      rw [collect_eq, hadj]; rfl
    have hum : UpdateMonsters w5 = .ok { w5 with g_monsters := ms.filter kept } := by
      unfold UpdateMonsters
      simp only [bind, Except.bind, pure, Except.pure, hms, hc]
    have hm : moveMonsters r7.1 (ms.filter kept) = .ok (r8.1, r8.2.filter kept) := by
      rw [moveMonsters_filter_kept, h8]
    unfold UpdateState
    simp only [bind, Except.bind, pure, Except.pure, h1, h2, h3, h4, h5, hum, h7, hm]
    rw [← h, garbageCollect_eq_filter]

theorem point_eq (p q : point) (hx : p.x = q.x) (hy : p.y = q.y) : p = q := by
  cases p; cases q; simp only [point.mk.injEq]; exact ⟨hx, hy⟩

theorem untouched_tail (m m' : object_list) (rest rest' : List object_list) (t : point)
    (h : untouched (m :: rest) (m' :: rest') t) : untouched rest rest' t := by
  intro p hp hpa
  exact h p (by rw [List.zip_cons_cons]; exact List.mem_cons_of_mem _ hp) hpa

theorem untouched_head (m m' : object_list) (rest rest' : List object_list) (t : point)
    (h : untouched (m :: rest) (m' :: rest') t) (ha : m.object.alive = true) :
    m.object.location ≠ t ∧ m'.object.location ≠ t :=
  h (m, m') (by rw [List.zip_cons_cons]; exact List.mem_cons_self _ _) ha

/-- The slot of a tile that no move touched is as before the moves. -/
theorem moveMonsters_untouched (l : List object_list) :
    ∀ (g : Grid) (r : Grid × List object_list), moveMonsters g l = .ok r →
      ∀ t : point, untouched l r.2 t → r.1 t.x t.y = g t.x t.y := by
  induction l with
  | nil =>
    intro g r h t _
    simp only [moveMonsters, Except.ok.injEq] at h
    subst h; rfl
  | cons m rest ih =>
    intro g r h t hu
    cases ha : m.object.alive with
    | true =>
      rw [moveMonsters_cons_alive g m rest ha] at h
      cases hmo : MoveObject g (ObjRef.node m.addr) m.object m.object.speed with
      | error e => rw [hmo] at h; simp at h
      | ok r0 =>
        rw [hmo] at h
        simp only at h
        cases hr : moveMonsters r0.1 rest with
        | error e => rw [hr] at h; simp at h
        | ok r1 =>
          rw [hr] at h
          simp only [Except.ok.injEq] at h
          subst h
          have hm := MoveObject_ok g _ _ _ r0.1 r0.2 hmo
          obtain ⟨hold, hnew⟩ := untouched_head _ _ _ _ _ hu ha
          have htail := untouched_tail _ _ _ _ _ hu
          show r1.1 t.x t.y = g t.x t.y
          rw [ih r0.1 r1 hr t htail, hm.2.2.2.2.2.2.2.2.2]
          have h1 : ¬ (t.x = r0.2.location.x ∧ t.y = r0.2.location.y) :=
            fun e => hnew (point_eq _ _ e.1.symm e.2.symm)
          have h2 : ¬ (t.x = m.object.location.x ∧ t.y = m.object.location.y) :=
            fun e => hold (point_eq _ _ e.1.symm e.2.symm)
          simp only [h1, h2, if_false]
    | false =>
      rw [moveMonsters_cons_dead g m rest ha] at h
      cases hr : moveMonsters g rest with
      | error e => rw [hr] at h; simp at h
      | ok r1 =>
        rw [hr] at h
        simp only [Except.ok.injEq] at h
        subst h
        exact ih g r1 hr t (untouched_tail _ _ _ _ _ hu)

/-- A live hostile is the occupant of its slot after the moves when no hostile
later in the list was moved onto or off its tile. -/
theorem moveMonsters_occupant (l : List object_list) :
    ∀ (g : Grid) (r : Grid × List object_list), moveMonsters g l = .ok r →
      ∀ (k : Nat) (m' : object_list), r.2[k]? = some m' → m'.object.alive = true →
        untouched (l.drop (k + 1)) (r.2.drop (k + 1)) m'.object.location →
        r.1 m'.object.location.x m'.object.location.y = some (ObjRef.node m'.addr) := by
  induction l with
  | nil =>
    intro g r h k m' hk
    simp only [moveMonsters, Except.ok.injEq] at h
    subst h
    simp at hk
  | cons m rest ih =>
    intro g r h k m' hk hal hu
    cases ha : m.object.alive with
    | true =>
      rw [moveMonsters_cons_alive g m rest ha] at h
      cases hmo : MoveObject g (ObjRef.node m.addr) m.object m.object.speed with
      | error e => rw [hmo] at h; simp at h
      | ok r0 =>
        rw [hmo] at h
        simp only at h
        cases hr : moveMonsters r0.1 rest with
        | error e => rw [hr] at h; simp at h
        | ok r1 =>
          rw [hr] at h
          simp only [Except.ok.injEq] at h
          subst h
          cases k with
          | zero =>
            simp only [List.getElem?_cons_zero, Option.some.injEq] at hk
            subst hk
            have hm := MoveObject_ok g _ _ _ r0.1 r0.2 hmo
            have hu' : untouched rest r1.2 r0.2.location := hu
            show r1.1 r0.2.location.x r0.2.location.y = some (ObjRef.node m.addr)
            rw [moveMonsters_untouched rest r0.1 r1 hr _ hu', hm.2.2.2.2.2.2.2.2.2]
            simp
          | succ k =>
            simp only [List.getElem?_cons_succ] at hk
            exact ih r0.1 r1 hr k m' hk hal hu
    | false =>
      rw [moveMonsters_cons_dead g m rest ha] at h
      cases hr : moveMonsters g rest with
      | error e => rw [hr] at h; simp at h
      | ok r1 =>
        rw [hr] at h
        simp only [Except.ok.injEq] at h
        subst h
        cases k with
        | zero =>
          simp only [List.getElem?_cons_zero, Option.some.injEq] at hk
          subst hk
          rw [ha] at hal
          exact absurd hal (by simp)
        | succ k =>
          simp only [List.getElem?_cons_succ] at hk
          exact ih g r1 hr k m' hk hal hu

theorem StopObject_frame (obj : object) (d : Int) :
    (StopObject obj d).location = obj.location ∧ (StopObject obj d).type = obj.type ∧
    (StopObject obj d).alive = obj.alive := by
  unfold StopObject
  split_ifs <;> exact ⟨rfl, rfl, rfl⟩

/-- The horizontal response changes the player's offset and velocity and the two
wall flags, nothing else. -/
theorem horizontalResponse_frame (w w' : World) (h : horizontalResponse w = .ok w') :
    w'.grid = w.grid ∧ w'.g_blocks = w.g_blocks ∧ w'.g_monsters = w.g_monsters ∧
    w'.last_time = w.last_time ∧ w'.heap_next = w.heap_next ∧
    w'.player.location = w.player.location ∧ w'.player.type = w.player.type ∧
    w'.player.alive = w.player.alive := by
  unfold horizontalResponse at h
  obtain ⟨hit, _, h⟩ := bind_ok _ _ _ h
  simp only [pure, Except.pure] at h
  split_ifs at h <;> simp only [Except.ok.injEq] at h <;> subst h <;>
    exact ⟨rfl, rfl, rfl, rfl, rfl, rfl, rfl, rfl⟩

theorem verticalResponse_frame (grid : Grid) (obj obj' : object)
    (h : verticalResponse grid obj = .ok obj') :
    obj'.location = obj.location ∧ obj'.type = obj.type ∧ obj'.alive = obj.alive := by
  unfold verticalResponse at h
  obtain ⟨c, _, h⟩ := bind_ok _ _ _ h
  obtain ⟨f, _, h⟩ := bind_ok _ _ _ h
  simp only [pure, Except.pure] at h
  split_ifs at h <;> simp only [Except.ok.injEq] at h <;> subst h <;>
    simp only [StopObject_frame, and_self]

theorem cornerLock_frame (grid : Grid) (obj obj' : object)
    (h : cornerLock grid obj = .ok obj') :
    obj'.location = obj.location ∧ obj'.type = obj.type ∧ obj'.alive = obj.alive := by
  unfold cornerLock at h
  obtain ⟨c, _, h⟩ := bind_ok _ _ _ h
  split_ifs at h
  · obtain ⟨ax, _, h⟩ := bind_ok _ _ _ h
    obtain ⟨ay, _, h⟩ := bind_ok _ _ _ h
    simp only [pure, Except.pure] at h
    split_ifs at h <;> simp only [Except.ok.injEq] at h <;> subst h <;>
      simp only [StopObject_frame, and_self]
  · simp only [pure, Except.pure, Except.ok.injEq] at h
    subst h; exact ⟨rfl, rfl, rfl⟩

theorem steer_frame (grid : Grid) (obj obj' : object) (h : steer grid obj = .ok obj') :
    obj'.location = obj.location ∧ obj'.type = obj.type ∧ obj'.alive = obj.alive := by
  unfold steer at h
  obtain ⟨r, _, h⟩ := bind_ok _ _ _ h
  split_ifs at h
  · simp only [pure, Except.pure, Except.ok.injEq] at h
    subst h; exact ⟨rfl, rfl, rfl⟩
  · obtain ⟨l, _, h⟩ := bind_ok _ _ _ h
    simp only [pure, Except.pure] at h
    split_ifs at h <;> simp only [Except.ok.injEq] at h <;> subst h <;> exact ⟨rfl, rfl, rfl⟩

theorem monsterBehaviour_frame (grid : Grid) (obj obj' : object)
    (h : monsterBehaviour grid obj = .ok obj') :
    obj'.location = obj.location ∧ obj'.type = obj.type ∧ obj'.alive = obj.alive := by
  unfold monsterBehaviour at h
  obtain ⟨m1, h1, h⟩ := bind_ok _ _ _ h
  obtain ⟨m2, h2, h⟩ := bind_ok _ _ _ h
  have f1 := steer_frame _ _ _ h1
  have f2 := verticalResponse_frame _ _ _ h2
  have f3 := cornerLock_frame _ _ _ h
  exact ⟨by rw [f3.1, f2.1, f1.1], by rw [f3.2.1, f2.2.1, f1.2.1],
    by rw [f3.2.2, f2.2.2, f1.2.2]⟩

/-- What a slot references when the test of `monsterAt` succeeds, in a
well-formed world: a node of the hostile list. -/
theorem monsterAt_true (w : World) (x y : Int) (hw : WellFormed w)
    (h : monsterAt w x y = .ok true) :
    inBoard x y ∧ ∃ m ∈ w.g_monsters, w.grid x y = some (ObjRef.node m.addr) := by
  unfold monsterAt at h
  by_cases hin : inBoard x y
  · refine ⟨hin, ?_⟩
    rw [gridRead_inBoard _ _ _ hin] at h
    cases hs : w.grid x y with
    | none => rw [hs] at h; simp at h
    | some r =>
      rw [hs] at h
      cases r with
      | player =>
        simp only [deref, Except.ok.injEq, decide_eq_true_eq] at h
        rw [hw.1] at h
        exact absurd h (by decide)
      | node a =>
        simp only [deref] at h
        cases hf : (w.g_blocks ++ w.g_monsters).find? (fun n => decide (n.addr = a)) with
        | none => rw [hf] at h; simp at h
        | some n =>
          rw [hf] at h
          simp only [Except.ok.injEq, decide_eq_true_eq] at h
          have hmem := List.mem_of_find?_eq_some hf
          have haddr : n.addr = a := by
            have := List.find?_some hf
            simpa using this
          rcases List.mem_append.mp hmem with hb | hm
          · rw [hw.2.1 n hb] at h
            exact absurd h (by decide)
          · exact ⟨n, hm, by rw [haddr]⟩
  · simp [gridRead, hin] at h

/-- Effect of the stomp and hit resolution in a well-formed world: either lists
and grid are as before, or the slot below the player referenced a hostile, whose
alive flag is cleared and whose slot is emptied, the player being as before. -/
theorem stompResolution_effect (w w' : World) (hw : WellFormed w)
    (h : stompResolution w = .ok w') :
    w'.g_blocks = w.g_blocks ∧ w'.last_time = w.last_time ∧ w'.heap_next = w.heap_next ∧
    w'.player.location = w.player.location ∧ w'.player.type = w.player.type ∧
    ((w'.g_monsters = w.g_monsters ∧ w'.grid = w.grid) ∨
     (∃ m ∈ w.g_monsters,
        w.grid w.player.location.x (w.player.location.y - 1) = some (ObjRef.node m.addr) ∧
        w'.g_monsters = w.g_monsters.map (killNode m.addr) ∧
        w'.player = w.player ∧
        w'.grid = fun i j =>
          if i = w.player.location.x ∧ j = w.player.location.y - 1 then none
          else w.grid i j)) := by
  cases hb : monsterAt w w.player.location.x (w.player.location.y - 1) with
  | error e =>
    unfold stompResolution at h
    simp only [bind, Except.bind, hb] at h
    exact absurd h (by simp)
  | ok b =>
    cases b with
    | true =>
      obtain ⟨hin, m, hm, hs⟩ := monsterAt_true w _ _ hw hb
      rw [stompResolution_stomp w m hw hm hin hs] at h
      simp only [Except.ok.injEq] at h
      subst h
      exact ⟨rfl, rfl, rfl, rfl, rfl, Or.inr ⟨m, hm, hs, rfl, rfl, rfl⟩⟩
    | false =>
      unfold stompResolution at h
      simp only [bind, Except.bind, hb, pure, Except.pure, Bool.false_eq_true, if_false] at h
      split at h
      · exact absurd h (by simp)
      · split_ifs at h <;> simp only [Except.ok.injEq] at h <;> subst h <;>
          exact ⟨rfl, rfl, rfl, rfl, rfl, Or.inl ⟨rfl, rfl⟩⟩

/-- Effect of the timed spawn: nothing, or one hostile created on the spawn
tile. -/
theorem spawnStep_effect (inp : TickInput) (w w' : World) (h : spawnStep inp w = .ok w') :
    w'.player = w.player ∧ w'.g_blocks = w.g_blocks ∧
    ((¬ inp.now - w.last_time > 1 ∧ w' = w) ∨
     (inp.now - w.last_time > 1 ∧
      inBoard (spawnLocation inp.rand).x (spawnLocation inp.rand).y ∧
      w'.g_monsters = w.g_monsters ++ [spawnedMonster w.heap_next (spawnLocation inp.rand)] ∧
      w'.heap_next = w.heap_next + 1 ∧
      w'.grid = fun i j =>
        if i = (spawnLocation inp.rand).x ∧ j = (spawnLocation inp.rand).y
        then some (ObjRef.node w.heap_next) else w.grid i j)) := by
  unfold spawnStep at h
  by_cases c : inp.now - w.last_time > 1
  · simp only [c, if_true] at h
    cases hc : createMonster w
        { x := if inp.rand % 10 ≥ 5 then RIGHT else LEFT, y := TOP } with
    | error e => rw [hc] at h; exact absurd h (by simp)
    | ok w1 =>
      rw [hc] at h
      simp only [Except.ok.injEq] at h
      subst h
      obtain ⟨hin, hw1⟩ := createMonster_ok _ _ _ hc
      subst hw1
      exact ⟨rfl, rfl, Or.inr ⟨c, hin, rfl, rfl, rfl⟩⟩
  · simp only [c, if_false, Except.ok.injEq] at h
    subst h
    exact ⟨rfl, rfl, Or.inl ⟨c, rfl⟩⟩

theorem scanOrder_nodup : scanOrder.Nodup := by decide!

theorem scanOrder_above_bottom : ∀ p ∈ scanOrder, 1 ≤ p.y := by decide!

/-- A tick is the part before the moves followed by the moves. -/
theorem UpdateState_split (inp : TickInput) (w : World) :
    UpdateState inp w = (beforeMoves inp w >>= applyMoves) := by
  unfold UpdateState beforeMoves applyMoves
  simp only [bind_assoc]

theorem applyMoves_of_tick (inp : TickInput) (w w6 w' : World)
    (h6 : beforeMoves inp w = .ok w6) (h : UpdateState inp w = .ok w') :
    applyMoves w6 = .ok w' := by
  rw [UpdateState_split, h6] at h
  exact h

theorem beforeMoves_of_tick (inp : TickInput) (w w' : World)
    (h : UpdateState inp w = .ok w') : ∃ w6, beforeMoves inp w = .ok w6 := by
  rw [UpdateState_split] at h
  obtain ⟨w6, h6, _⟩ := bind_ok _ _ _ h
  exact ⟨w6, h6⟩

/-- The loop over the live monsters keeps the list node by node: same address,
same alive flag, and a node that is not alive is not changed at all. -/
theorem moveMonsters_aligned (l : List object_list) :
    ∀ (g : Grid) (r : Grid × List object_list), moveMonsters g l = .ok r →
      List.Forall₂ (fun (n n' : object_list) => n'.addr = n.addr ∧
        n'.object.alive = n.object.alive ∧ (n.object.alive = false → n' = n)) l r.2 := by
  induction l with
  | nil =>
    intro g r h
    simp only [moveMonsters, Except.ok.injEq] at h
    subst h
    exact List.Forall₂.nil
  | cons m rest ih =>
    intro g r h
    cases ha : m.object.alive with
    | true =>
      rw [moveMonsters_cons_alive g m rest ha] at h
      cases hmo : MoveObject g (ObjRef.node m.addr) m.object m.object.speed with
      | error e => rw [hmo] at h; simp at h
      | ok r0 =>
        rw [hmo] at h
        simp only at h
        cases hr : moveMonsters r0.1 rest with
        | error e => rw [hr] at h; simp at h
        | ok r1 =>
          rw [hr] at h
          simp only [Except.ok.injEq] at h
          subst h
          have hm := MoveObject_ok g _ _ _ r0.1 r0.2 hmo
          refine List.Forall₂.cons ⟨rfl, ?_, ?_⟩ (ih r0.1 r1 hr)
          · show r0.2.alive = m.object.alive
            exact hm.2.2.2.2.2.2.2.1
          · intro hd
            rw [ha] at hd
            exact absurd hd (by simp)
    | false =>
      rw [moveMonsters_cons_dead g m rest ha] at h
      cases hr : moveMonsters g rest with
      | error e => rw [hr] at h; simp at h
      | ok r1 =>
        rw [hr] at h
        simp only [Except.ok.injEq] at h
        subst h
        exact List.Forall₂.cons ⟨rfl, rfl, fun _ => rfl⟩ (ih g r1 hr)

theorem applyMoves_aligned (w w' : World) (h : applyMoves w = .ok w') :
    List.Forall₂ (fun (n n' : object_list) => n'.addr = n.addr ∧
      n'.object.alive = n.object.alive ∧ (n.object.alive = false → n' = n))
      w.g_monsters w'.g_monsters := by
  unfold applyMoves at h
  obtain ⟨r7, h7, h⟩ := bind_ok _ _ _ h
  obtain ⟨r8, h8, h⟩ := bind_ok _ _ _ h
  simp only [pure, Except.pure, Except.ok.injEq] at h
  subst h
  exact moveMonsters_aligned _ _ _ h8

theorem untouched_cons (m m' : object_list) (rest rest' : List object_list) (t : point)
    (hhead : m.object.alive = true → m.object.location ≠ t ∧ m'.object.location ≠ t)
    (htail : untouched rest rest' t) : untouched (m :: rest) (m' :: rest') t := by
  intro p hp hpa
  rw [List.zip_cons_cons] at hp
  rcases List.mem_cons.mp hp with e | e
  · subst e
    exact hhead hpa
  · exact htail p e hpa

/-- A slot that holds, after the moves, a reference none of the moved hostiles
writes was not touched by the moves and held that reference before. -/
theorem moveMonsters_written (l : List object_list) :
    ∀ (g : Grid) (r : Grid × List object_list), moveMonsters g l = .ok r →
      ∀ (t : point) (ref : ObjRef), (∀ n ∈ l, ref ≠ ObjRef.node n.addr) →
        r.1 t.x t.y = some ref → untouched l r.2 t ∧ g t.x t.y = some ref := by
  induction l with
  | nil =>
    intro g r h t ref _ hr
    simp only [moveMonsters, Except.ok.injEq] at h
    subst h
    exact ⟨fun p hp => absurd hp (by simp), hr⟩
  | cons m rest ih =>
    intro g r h t ref hne hfin
    cases ha : m.object.alive with
    | true =>
      rw [moveMonsters_cons_alive g m rest ha] at h
      cases hmo : MoveObject g (ObjRef.node m.addr) m.object m.object.speed with
      | error e => rw [hmo] at h; simp at h
      | ok r0 =>
        rw [hmo] at h
        simp only at h
        cases hr : moveMonsters r0.1 rest with
        | error e => rw [hr] at h; simp at h
        | ok r1 =>
          rw [hr] at h
          simp only [Except.ok.injEq] at h
          subst h
          have hm := MoveObject_ok g _ _ _ r0.1 r0.2 hmo
          obtain ⟨hu, h0⟩ := ih r0.1 r1 hr t ref
            (fun n hn => hne n (List.mem_cons_of_mem _ hn)) hfin
          rw [hm.2.2.2.2.2.2.2.2.2] at h0
          simp only at h0
          split_ifs at h0 with c1 c2
          · simp only [Option.some.injEq] at h0
            exact absurd h0.symm (hne m (List.mem_cons_self _ _))
          · refine ⟨untouched_cons _ _ _ _ _ (fun _ => ⟨?_, ?_⟩) hu, h0⟩
            · intro e
              exact c2 ⟨by rw [← e], by rw [← e]⟩
            · intro e
              have e' : r0.2.location = t := e
              exact c1 ⟨by rw [← e'], by rw [← e']⟩
    | false =>
      rw [moveMonsters_cons_dead g m rest ha] at h
      cases hr : moveMonsters g rest with
      | error e => rw [hr] at h; simp at h
      | ok r1 =>
        rw [hr] at h
        simp only [Except.ok.injEq] at h
        subst h
        obtain ⟨hu, h0⟩ := ih g r1 hr t ref
          (fun n hn => hne n (List.mem_cons_of_mem _ hn)) hfin
        exact ⟨untouched_cons _ _ _ _ _
          (fun hal => absurd hal (by rw [ha]; simp)) hu, h0⟩

/-- With distinct addresses, a live hostile that is the occupant of its slot
after the moves had no hostile later in the list moved onto or off its tile. -/
theorem moveMonsters_occupant_conv (l : List object_list) :
    ∀ (g : Grid) (r : Grid × List object_list), moveMonsters g l = .ok r →
      (l.map (fun n => n.addr)).Nodup →
      ∀ (k : Nat) (m' : object_list), r.2[k]? = some m' → m'.object.alive = true →
        r.1 m'.object.location.x m'.object.location.y = some (ObjRef.node m'.addr) →
        untouched (l.drop (k + 1)) (r.2.drop (k + 1)) m'.object.location := by
  induction l with
  | nil =>
    intro g r h _ k m' hk
    simp only [moveMonsters, Except.ok.injEq] at h
    subst h
    simp at hk
  | cons m rest ih =>
    intro g r h hnd k m' hk hal hocc
    simp only [List.map_cons, List.nodup_cons] at hnd
    cases ha : m.object.alive with
    | true =>
      rw [moveMonsters_cons_alive g m rest ha] at h
      cases hmo : MoveObject g (ObjRef.node m.addr) m.object m.object.speed with
      | error e => rw [hmo] at h; simp at h
      | ok r0 =>
        rw [hmo] at h
        simp only at h
        cases hr : moveMonsters r0.1 rest with
        | error e => rw [hr] at h; simp at h
        | ok r1 =>
          rw [hr] at h
          simp only [Except.ok.injEq] at h
          subst h
          cases k with
          | zero =>
            simp only [List.getElem?_cons_zero, Option.some.injEq] at hk
            subst hk
            have hne : ∀ n ∈ rest, ObjRef.node m.addr ≠ ObjRef.node n.addr := by
              intro n hn e
              simp only [ObjRef.node.injEq] at e
              exact hnd.1 (by rw [e]; exact List.mem_map_of_mem (fun n => n.addr) hn)
            exact (moveMonsters_written rest r0.1 r1 hr _ _ hne hocc).1
          | succ k =>
            simp only [List.getElem?_cons_succ] at hk
            exact ih r0.1 r1 hr hnd.2 k m' hk hal hocc
    | false =>
      rw [moveMonsters_cons_dead g m rest ha] at h
      cases hr : moveMonsters g rest with
      | error e => rw [hr] at h; simp at h
      | ok r1 =>
        rw [hr] at h
        simp only [Except.ok.injEq] at h
        subst h
        cases k with
        | zero =>
          simp only [List.getElem?_cons_zero, Option.some.injEq] at hk
          subst hk
          rw [ha] at hal
          exact absurd hal (by simp)
        | succ k =>
          simp only [List.getElem?_cons_succ] at hk
          exact ih g r1 hr hnd.2 k m' hk hal hocc

/-- The grid after the moves of one tick.  The player is the occupant of its
slot unless a hostile was moved onto or off its tile; a live hostile is the
occupant of its slot unless a hostile later in the list was moved onto or off
its tile; the slot of a tile that neither the player nor a hostile entered or
left is as before the moves. -/
theorem applyMoves_occupants (w w' : World) (h : applyMoves w = .ok w') :
    w'.g_blocks = w.g_blocks ∧
    (untouched w.g_monsters w'.g_monsters w'.player.location →
      w'.grid w'.player.location.x w'.player.location.y = some ObjRef.player) ∧
    (∀ (k : Nat) (m' : object_list), w'.g_monsters[k]? = some m' → m'.object.alive = true →
      untouched (w.g_monsters.drop (k + 1)) (w'.g_monsters.drop (k + 1)) m'.object.location →
      w'.grid m'.object.location.x m'.object.location.y = some (ObjRef.node m'.addr)) ∧
    (∀ t : point, w.player.location ≠ t → w'.player.location ≠ t →
      untouched w.g_monsters w'.g_monsters t → w'.grid t.x t.y = w.grid t.x t.y) := by
  unfold applyMoves at h
  obtain ⟨r7, h7, h⟩ := bind_ok _ _ _ h
  obtain ⟨r8, h8, h⟩ := bind_ok _ _ _ h
  simp only [pure, Except.pure, Except.ok.injEq] at h
  subst h
  have hm := MoveObject_ok _ _ _ _ r7.1 r7.2 h7
  refine ⟨rfl, ?_, ?_, ?_⟩
  · intro hu
    show r8.1 r7.2.location.x r7.2.location.y = some ObjRef.player
    rw [moveMonsters_untouched _ _ _ h8 _ hu, hm.2.2.2.2.2.2.2.2.2]
    simp
  · intro k m' hk hal hu
    exact moveMonsters_occupant _ _ _ h8 k m' hk hal hu
  · intro t hold hnew hu
    show r8.1 t.x t.y = w.grid t.x t.y
    rw [moveMonsters_untouched _ _ _ h8 _ hu, hm.2.2.2.2.2.2.2.2.2]
    have h1 : ¬ (t.x = r7.2.location.x ∧ t.y = r7.2.location.y) :=
      fun e => hnew (point_eq _ _ e.1.symm e.2.symm)
    have h2 : ¬ (t.x = w.player.location.x ∧ t.y = w.player.location.y) :=
      fun e => hold (point_eq _ _ e.1.symm e.2.symm)
    simp only [h1, h2, if_false]

/-- The exceptions of `applyMoves_occupants` are exact.  A slot that references
the player after the moves was not touched by a move of a hostile; with distinct
addresses, a live hostile that is the occupant of its slot had no later hostile
moved onto or off its tile; and a slot that references a node that is not a
hostile was not touched by any move and referenced that node before. -/
theorem applyMoves_exact (w w' : World) (h : applyMoves w = .ok w') :
    (w'.grid w'.player.location.x w'.player.location.y = some ObjRef.player →
      untouched w.g_monsters w'.g_monsters w'.player.location) ∧
    ((w.g_monsters.map (fun n => n.addr)).Nodup →
      ∀ (k : Nat) (m' : object_list), w'.g_monsters[k]? = some m' → m'.object.alive = true →
        w'.grid m'.object.location.x m'.object.location.y = some (ObjRef.node m'.addr) →
        untouched (w.g_monsters.drop (k + 1)) (w'.g_monsters.drop (k + 1))
          m'.object.location) ∧
    (∀ (t : point) (a : Nat), (∀ n ∈ w.g_monsters, n.addr ≠ a) →
      w'.grid t.x t.y = some (ObjRef.node a) →
      w.grid t.x t.y = some (ObjRef.node a) ∧ w.player.location ≠ t ∧
        w'.player.location ≠ t ∧ untouched w.g_monsters w'.g_monsters t) := by
  unfold applyMoves at h
  obtain ⟨r7, h7, h⟩ := bind_ok _ _ _ h
  obtain ⟨r8, h8, h⟩ := bind_ok _ _ _ h
  simp only [pure, Except.pure, Except.ok.injEq] at h
  subst h
  have hm := MoveObject_ok _ _ _ _ r7.1 r7.2 h7
  refine ⟨?_, ?_, ?_⟩
  · intro hocc
    exact (moveMonsters_written _ _ _ h8 r7.2.location ObjRef.player
      (fun n _ e => ObjRef.noConfusion e) hocc).1
  · intro hnd k m' hk hal hocc
    exact moveMonsters_occupant_conv _ _ _ h8 hnd k m' hk hal hocc
  · intro t a hne hocc
    obtain ⟨hu, h0⟩ := moveMonsters_written _ _ _ h8 t (ObjRef.node a)
      (fun n hn e => hne n hn (by simp only [ObjRef.node.injEq] at e; exact e.symm)) hocc
    rw [hm.2.2.2.2.2.2.2.2.2] at h0
    simp only at h0
    split_ifs at h0 with c1 c2
    · simp at h0
    · refine ⟨h0, ?_, ?_, hu⟩
      · intro e
        exact c2 ⟨by rw [← e], by rw [← e]⟩
      · intro e
        have e' : r7.2.location = t := e
        exact c1 ⟨by rw [← e'], by rw [← e']⟩

/-- The part of the tick before the moves, in a well-formed world: obstacles
and the tile of the player are as before, and an obstacle that is the occupant
of its slot still is unless the timed spawn created a hostile on its tile. -/
theorem beforeMoves_obstacles (inp : TickInput) (w w6 : World) (hw : WellFormed w)
    (h : beforeMoves inp w = .ok w6) :
    w6.g_blocks = w.g_blocks ∧ w6.player.location = w.player.location ∧
    (∀ b ∈ w.g_blocks,
      w.grid b.object.location.x b.object.location.y = some (ObjRef.node b.addr) →
      ¬ (inp.now - w.last_time > 1 ∧ b.object.location = spawnLocation inp.rand) →
      w6.grid b.object.location.x b.object.location.y = some (ObjRef.node b.addr)) := by
  unfold beforeMoves at h
  obtain ⟨w1, h1, h⟩ := bind_ok _ _ _ h
  obtain ⟨p2, h2, h⟩ := bind_ok _ _ _ h
  obtain ⟨p3, h3, h⟩ := bind_ok _ _ _ h
  obtain ⟨w4, h4, h⟩ := bind_ok _ _ _ h
  obtain ⟨w5, h5, h⟩ := bind_ok _ _ _ h
  obtain ⟨f1g, f1b, f1m, f1t, f1h, f1l, f1ty, _⟩ := horizontalResponse_frame _ _ h1
  have f2 := verticalResponse_frame _ _ _ h2
  have f3 := cornerLock_frame _ _ _ h3
  have hw3 : WellFormed { w1 with player := p3 } := by
    refine ⟨?_, ?_, ?_, ?_⟩
    · show p3.type = ObjectType.PLAYER
      rw [f3.2.1, f2.2.1, f1ty]; exact hw.1
    · show ∀ n ∈ w1.g_blocks, _
      rw [f1b]; exact hw.2.1
    · show ∀ n ∈ w1.g_monsters, _
      rw [f1m]; exact hw.2.2.1
    · show ((w1.g_blocks ++ w1.g_monsters).map (fun n => n.addr)).Nodup
      rw [f1b, f1m]; exact hw.2.2.2
  obtain ⟨f4b, f4t, _, f4l, _, f4⟩ := stompResolution_effect _ _ hw3 h4
  obtain ⟨f5p, f5b, f5⟩ := spawnStep_effect _ _ _ h5
  obtain ⟨f6p, f6g, f6b⟩ := UpdateMonsters_frame _ _ h
  have hloc3 : p3.location = w.player.location := by rw [f3.1, f2.1, f1l]
  refine ⟨?_, ?_, ?_⟩
  · rw [f6b, f5b, f4b]; exact f1b
  · rw [f6p, f5p, f4l]; exact hloc3
  · intro b hb hocc hsp
    rw [f6g]
    have h4g : w4.grid b.object.location.x b.object.location.y = some (ObjRef.node b.addr) := by
      rcases f4 with ⟨_, hg⟩ | ⟨m, hm, hs, _, _, hg⟩
      · rw [hg]; show w1.grid _ _ = _; rw [f1g]; exact hocc
      · rw [hg]
        by_cases e : b.object.location.x = p3.location.x ∧
            b.object.location.y = p3.location.y - 1
        · exfalso
          have hs' : w1.grid p3.location.x (p3.location.y - 1) = some (ObjRef.node m.addr) := hs
          rw [f1g, ← e.1, ← e.2, hocc] at hs'
          simp only [Option.some.injEq, ObjRef.node.injEq] at hs'
          have hnd := hw.2.2.2
          rw [List.map_append] at hnd
          have hdis := List.disjoint_of_nodup_append hnd
          rw [f1m] at hm
          exact hdis (List.mem_map_of_mem (fun n => n.addr) hb)
            (hs' ▸ List.mem_map_of_mem (fun n => n.addr) hm)
        · simp only []
          show (if b.object.location.x = p3.location.x ∧
              b.object.location.y = p3.location.y - 1 then none
            else w1.grid b.object.location.x b.object.location.y) = _
          rw [if_neg e, f1g]; exact hocc
    rcases f5 with ⟨_, he⟩ | ⟨hf, _, _, _, hg⟩
    · rw [he]; exact h4g
    · rw [hg]
      have hf' : inp.now - w.last_time > 1 := by rw [← f1t, ← f4t]; exact hf
      have hne : ¬ (b.object.location.x = (spawnLocation inp.rand).x ∧
          b.object.location.y = (spawnLocation inp.rand).y) :=
        fun e => hsp ⟨hf', point_eq _ _ e.1 e.2⟩
      simp only [hne, if_false]
      exact h4g

theorem CreateObject_ok (grid : Grid) (objects : List object_list) (addr : Nat)
    (location center : point) (speed : vector) (ty : ObjectType)
    (r : Grid × List object_list)
    (h : CreateObject grid objects addr location center speed ty = .ok r) :
    inBoard location.x location.y ∧
    r.1 = (fun i j => if i = location.x ∧ j = location.y then some (ObjRef.node addr)
                      else grid i j) ∧
    r.2 = objects ++ [{ addr := addr,
                        object := { location := location, center := center, speed := speed,
                                    alive := true, type := ty } }] := by
  unfold CreateObject at h
  simp only [bind, Except.bind, pure, Except.pure] at h
  split at h
  · exact absurd h (by simp)
  rename_i g1 hg1
  obtain ⟨hb, hg⟩ := gridWrite_ok _ _ _ _ _ hg1
  simp only [Except.ok.injEq] at h
  subst h hg
  exact ⟨hb, rfl, rfl⟩

/-- Placing the platforms on distinct tiles: every platform of the list is the
occupant of its slot afterwards, and the slot of a tile that is not scanned is
as before. -/
theorem placeBlocks_occupants (l : List (point × Char)) :
    ∀ (w w' : World), placeBlocks l w = .ok w' →
      (l.map Prod.fst).Nodup →
      (∀ b ∈ w.g_blocks, ∀ pc ∈ l, b.object.location ≠ pc.1) →
      (∀ b ∈ w.g_blocks,
        w.grid b.object.location.x b.object.location.y = some (ObjRef.node b.addr)) →
      (∀ b ∈ w'.g_blocks,
        w'.grid b.object.location.x b.object.location.y = some (ObjRef.node b.addr)) ∧
      w'.g_monsters = w.g_monsters ∧
      (∀ t : point, (∀ pc ∈ l, pc.1 ≠ t) → w'.grid t.x t.y = w.grid t.x t.y) := by
  induction l with
  | nil =>
    intro w w' h _ _ hocc
    simp only [placeBlocks, Except.ok.injEq] at h
    subst h
    exact ⟨hocc, rfl, fun _ _ => rfl⟩
  | cons pc rest ih =>
    intro w w' h hnd hfree hocc
    obtain ⟨p, ch⟩ := pc
    simp only [List.map_cons, List.nodup_cons] at hnd
    unfold placeBlocks at h
    by_cases c : ch = '*'
    · simp only [c, if_true] at h
      split at h
      · exact absurd h (by simp)
      rename_i r hr
      obtain ⟨_, hg, hl⟩ := CreateObject_ok _ _ _ _ _ _ _ _ hr
      have hstep := ih _ _ h hnd.2
        (by
          intro b hb pc hpc
          show b.object.location ≠ pc.1
          have hb' : b ∈ r.2 := hb
          rw [hl] at hb'
          rcases List.mem_append.mp hb' with hb1 | hb1
          · exact hfree b hb1 pc (List.mem_cons_of_mem _ hpc)
          · simp only [List.mem_singleton] at hb1
            subst hb1
            intro e
            have e' : p = pc.1 := e
            rw [e'] at hnd
            exact hnd.1 (List.mem_map_of_mem Prod.fst hpc))
        (by
          intro b hb
          show r.1 b.object.location.x b.object.location.y = some (ObjRef.node b.addr)
          have hb' : b ∈ r.2 := hb
          rw [hl] at hb'
          rw [hg]
          rcases List.mem_append.mp hb' with hb1 | hb1
          · have hne := hfree b hb1 (p, ch) (List.mem_cons_self _ _)
            have hne' : ¬ (b.object.location.x = p.x ∧ b.object.location.y = p.y) :=
              fun e => hne (point_eq _ _ e.1 e.2)
            simp only [hne', if_false]
            exact hocc b hb1
          · simp only [List.mem_singleton] at hb1
            subst hb1
            simp)
      refine ⟨hstep.1, hstep.2.1, ?_⟩
      intro t ht
      rw [hstep.2.2 t (fun pc hpc => ht pc (List.mem_cons_of_mem _ hpc))]
      show r.1 t.x t.y = w.grid t.x t.y
      rw [hg]
      have hne := ht (p, ch) (List.mem_cons_self _ _)
      have hne' : ¬ (t.x = p.x ∧ t.y = p.y) := fun e => hne (point_eq _ _ e.1.symm e.2.symm)
      simp only [hne', if_false]
    · simp only [c, if_false] at h
      have hstep := ih _ _ h hnd.2
        (fun b hb pc hpc => hfree b hb pc (List.mem_cons_of_mem _ hpc)) hocc
      exact ⟨hstep.1, hstep.2.1,
        fun t ht => hstep.2.2 t (fun pc hpc => ht pc (List.mem_cons_of_mem _ hpc))⟩

theorem zip_fst_sublist {α β : Type} (l1 : List α) :
    ∀ l2 : List β, ((l1.zip l2).map Prod.fst).Sublist l1 := by
  induction l1 with
  | nil => intro l2; simp
  | cons a rest ih =>
    intro l2
    cases l2 with
    | nil => simp
    | cons b r2 =>
      simp only [List.zip_cons_cons, List.map_cons]
      exact (ih r2).cons₂ a

/-- When the spawn timer fires, the slot of the spawn tile references the new
hostile, whose address is the next free one, before the moves. -/
theorem beforeMoves_spawn_slot (inp : TickInput) (w w6 : World) (hw : WellFormed w)
    (h : beforeMoves inp w = .ok w6) (hf : inp.now - w.last_time > 1) :
    w6.grid (spawnLocation inp.rand).x (spawnLocation inp.rand).y =
      some (ObjRef.node w.heap_next) := by
  unfold beforeMoves at h
  obtain ⟨w1, h1, h⟩ := bind_ok _ _ _ h
  obtain ⟨p2, h2, h⟩ := bind_ok _ _ _ h
  obtain ⟨p3, h3, h⟩ := bind_ok _ _ _ h
  obtain ⟨w4, h4, h⟩ := bind_ok _ _ _ h
  obtain ⟨w5, h5, h⟩ := bind_ok _ _ _ h
  obtain ⟨_, f1b, f1m, f1t, f1h, _, f1ty, _⟩ := horizontalResponse_frame _ _ h1
  have f2 := verticalResponse_frame _ _ _ h2
  have f3 := cornerLock_frame _ _ _ h3
  have hw3 : WellFormed { w1 with player := p3 } := by
    refine ⟨?_, ?_, ?_, ?_⟩
    · show p3.type = ObjectType.PLAYER
      rw [f3.2.1, f2.2.1, f1ty]; exact hw.1
    · show ∀ n ∈ w1.g_blocks, _
      rw [f1b]; exact hw.2.1
    · show ∀ n ∈ w1.g_monsters, _
      rw [f1m]; exact hw.2.2.1
    · show ((w1.g_blocks ++ w1.g_monsters).map (fun n => n.addr)).Nodup
      rw [f1b, f1m]; exact hw.2.2.2
  obtain ⟨_, f4t, f4h, _, _, _⟩ := stompResolution_effect _ _ hw3 h4
  obtain ⟨_, _, f5⟩ := spawnStep_effect _ _ _ h5
  obtain ⟨_, f6g, _⟩ := UpdateMonsters_frame _ _ h
  have e4t : w4.last_time = w.last_time := by rw [f4t]; exact f1t
  have e4h : w4.heap_next = w.heap_next := by rw [f4h]; exact f1h
  rw [f6g]
  rcases f5 with ⟨hn, _⟩ | ⟨_, _, _, _, hg⟩
  · rw [e4t] at hn
    exact absurd hf hn
  · rw [hg, e4h]
    simp

/-- The initial world: the player and both initial hostiles are the occupants
of their slots, and so is every platform that is not on one of the two top
corner tiles, where the initial hostiles are created after the platforms. -/
theorem initializeWorld_occupants (map_txt : List Char) (w : World)
    (h : initializeWorld map_txt = .ok w) :
    w.grid w.player.location.x w.player.location.y = some ObjRef.player ∧
    (∀ m ∈ w.g_monsters,
      w.grid m.object.location.x m.object.location.y = some (ObjRef.node m.addr)) ∧
    (∀ b ∈ w.g_blocks, b.object.location ≠ { x := LEFT, y := TOP } →
      b.object.location ≠ { x := RIGHT, y := TOP } →
      w.grid b.object.location.x b.object.location.y = some (ObjRef.node b.addr)) := by
  have hp := initializeWorld_player map_txt w h
  unfold initializeWorld at h
  obtain ⟨w1, h1, h⟩ := bind_ok _ _ _ h
  obtain ⟨w2, h2, h⟩ := bind_ok _ _ _ h
  have hsub := zip_fst_sublist scanOrder map_txt
  obtain ⟨hb1, hm1, hg1⟩ := placeBlocks_occupants _ _ _ h1 (scanOrder_nodup.sublist hsub)
    (fun b hb => absurd hb (by simp [staticWorld])) (fun b hb => absurd hb (by simp [staticWorld]))
  obtain ⟨_, e2⟩ := createMonster_ok _ _ _ h2
  obtain ⟨_, e3⟩ := createMonster_ok _ _ _ h
  subst e3 e2
  refine ⟨?_, ?_, ?_⟩
  · rw [hp]
    have hg := hg1 { x := 10, y := 0 } (by
      intro pc hpc e
      have hmem : pc.1 ∈ scanOrder := hsub.subset (List.mem_map_of_mem Prod.fst hpc)
      have := scanOrder_above_bottom _ hmem
      rw [e] at this
      exact absurd this (by decide))
    simp only [staticWorld, LEFT, RIGHT, TOP] at hg ⊢
    simp only [hg]
    simp
  · intro m hm
    simp only [hm1, staticWorld, List.nil_append, List.cons_append, List.mem_cons,
      List.mem_singleton, List.not_mem_nil, or_false] at hm
    rcases hm with e | e <;> subst e <;> simp [LEFT, RIGHT, TOP]
  · intro b hb hl hr
    have hl' : ¬ (b.object.location.x = LEFT ∧ b.object.location.y = TOP) :=
      fun e => hl (point_eq _ _ e.1 e.2)
    have hr' : ¬ (b.object.location.x = RIGHT ∧ b.object.location.y = TOP) :=
      fun e => hr (point_eq _ _ e.1 e.2)
    simp only [hl', hr', if_false]
    exact hb1 b hb

theorem RunInvariant_congr (w w' : World) (h1 : w'.player.type = w.player.type)
    (h2 : w'.g_blocks = w.g_blocks) (h3 : w'.g_monsters = w.g_monsters)
    (h4 : w'.grid = w.grid) (h5 : w'.heap_next = w.heap_next) (h : RunInvariant w) :
    RunInvariant w' := by
  unfold RunInvariant WellFormed HostileRefsSound at *
  rw [h1, h2, h3, h4, h5]
  exact h

/-- Creating a hostile on a tile keeps the invariant: its address is fresh. -/
theorem createMonster_invariant (w w' : World) (location : point)
    (h : createMonster w location = .ok w') (hi : RunInvariant w) : RunInvariant w' := by
  obtain ⟨_, e⟩ := createMonster_ok _ _ _ h
  subst e
  obtain ⟨hw, hf, hg, hs⟩ := hi
  refine ⟨⟨hw.1, hw.2.1, ?_, ?_⟩, ?_, ?_, ?_⟩
  · intro n hn
    rcases List.mem_append.mp hn with h1 | h1
    · exact hw.2.2.1 n h1
    · simp only [List.mem_singleton] at h1
      subst h1; rfl
  · show ((w.g_blocks ++ (w.g_monsters ++ [_])).map (fun n : object_list => n.addr)).Nodup
    rw [← List.append_assoc, List.map_append]
    refine List.Nodup.append hw.2.2.2 (by simp) ?_
    intro a ha hb
    simp only [List.map_cons, List.map_nil, List.mem_singleton] at hb
    obtain ⟨n, hn, e⟩ := List.mem_map.mp ha
    have := hf n hn
    omega
  · intro n hn
    show n.addr < w.heap_next + 1
    have hn' : n ∈ w.g_blocks ++ (w.g_monsters ++ [_]) := hn
    rw [← List.append_assoc] at hn'
    rcases List.mem_append.mp hn' with h1 | h1
    · exact Nat.lt_succ_of_lt (hf n h1)
    · simp only [List.mem_singleton] at h1
      subst h1
      exact Nat.lt_succ_self _
  · intro i j a ha
    show a < w.heap_next + 1
    simp only at ha
    split_ifs at ha
    · simp only [Option.some.injEq, ObjRef.node.injEq] at ha
      omega
    · exact Nat.lt_succ_of_lt (hg i j a ha)
  · intro i j n hn hgr
    have hn' : n ∈ w.g_monsters ++ [_] := hn
    simp only at hgr
    rcases List.mem_append.mp hn' with h1 | h1
    · have hlt := hf n (List.mem_append_right _ h1)
      split_ifs at hgr with c
      · simp only [Option.some.injEq, ObjRef.node.injEq] at hgr
        omega
      · exact hs i j n h1 hgr
    · simp only [List.mem_singleton] at h1
      subst h1
      split_ifs at hgr with c
      · exact ⟨rfl, point_eq _ _ c.1.symm c.2.symm⟩
      · have := hg i j _ hgr
        simp only at this
        omega

theorem spawnStep_invariant (inp : TickInput) (w w' : World)
    (h : spawnStep inp w = .ok w') (hi : RunInvariant w) : RunInvariant w' := by
  unfold spawnStep at h
  by_cases c : inp.now - w.last_time > 1
  · simp only [c, if_true] at h
    cases hc : createMonster w
        { x := if inp.rand % 10 ≥ 5 then RIGHT else LEFT, y := TOP } with
    | error e => rw [hc] at h; exact absurd h (by simp)
    | ok w1 =>
      rw [hc] at h
      simp only [Except.ok.injEq] at h
      subst h
      exact RunInvariant_congr w1 _ rfl rfl rfl rfl rfl (createMonster_invariant _ _ _ hc hi)
  · simp only [c, if_false, Except.ok.injEq] at h
    subst h
    exact hi

theorem map_killNode_addr (l : List object_list) (a : Nat) :
    (l.map (killNode a)).map (fun n => n.addr) = l.map (fun n => n.addr) := by
  rw [List.map_map]
  apply List.map_congr_left
  intro n _
  simp only [Function.comp, killNode]
  split_ifs <;> rfl

/-- The stomp and hit resolution keeps the invariant: the stomp clears the slot
of the hostile whose alive flag it clears. -/
theorem stompResolution_invariant (w w' : World) (h : stompResolution w = .ok w')
    (hi : RunInvariant w) : RunInvariant w' := by
  obtain ⟨hw, hf, hg, hs⟩ := hi
  obtain ⟨eb, _, eh, _, ety, hcase⟩ := stompResolution_effect w w' hw h
  rcases hcase with ⟨em, eg⟩ | ⟨m, hm, hbelow, em, _, eg⟩
  · exact RunInvariant_congr w w' ety eb em eg eh ⟨hw, hf, hg, hs⟩
  · have hnd : (w.g_monsters.map (fun n => n.addr)).Nodup := by
      have := hw.2.2.2
      rw [List.map_append] at this
      exact (List.nodup_append.mp this).2.1
    refine ⟨⟨?_, ?_, ?_, ?_⟩, ?_, ?_, ?_⟩
    · rw [ety]; exact hw.1
    · rw [eb]; exact hw.2.1
    · rw [em]
      intro n hn
      obtain ⟨n0, hn0, e⟩ := List.mem_map.mp hn
      subst e
      unfold killNode
      split_ifs
      · exact hw.2.2.1 n0 hn0
      · exact hw.2.2.1 n0 hn0
    · rw [eb, em, List.map_append, map_killNode_addr, ← List.map_append]
      exact hw.2.2.2
    · rw [eb, em, eh]
      intro n hn
      rcases List.mem_append.mp hn with h1 | h1
      · exact hf n (List.mem_append_left _ h1)
      · obtain ⟨n0, hn0, e⟩ := List.mem_map.mp h1
        subst e
        have := hf n0 (List.mem_append_right _ hn0)
        unfold killNode
        split_ifs <;> exact this
    · rw [eg, eh]
      intro i j a ha
      simp only at ha
      split_ifs at ha
      exact hg i j a ha
    · intro i j n hn hgr
      rw [em] at hn
      rw [eg] at hgr
      simp only at hgr
      obtain ⟨n0, hn0, e⟩ := List.mem_map.mp hn
      split_ifs at hgr with c
      have haddr : n.addr = n0.addr := by
        rw [← e]; unfold killNode; split_ifs <;> rfl
      rw [haddr] at hgr
      obtain ⟨hal, hloc⟩ := hs i j n0 hn0 hgr
      by_cases ea : n0.addr = m.addr
      · exfalso
        have hinj := List.inj_on_of_nodup_map hnd
        have e0 : n0 = m := hinj hn0 hm ea
        subst e0
        obtain ⟨_, hloc'⟩ := hs _ _ n0 hn0 hbelow
        rw [hloc] at hloc'
        simp only [point.mk.injEq] at hloc'
        exact c hloc'
      · have : killNode m.addr n0 = n0 := by
          unfold killNode; rw [if_neg ea]
        rw [this] at e
        subst e
        exact ⟨hal, hloc⟩

theorem behaved_refl (n : object_list) : behaved n n := ⟨rfl, rfl, Or.inl ⟨rfl, rfl⟩⟩

theorem behaved_stopped (m : object_list) (hm : stopsLoop m) : behaved m (stoppedNode m) := by
  unfold stoppedNode
  cases hd : m.object.alive with
  | false =>
    simp only [if_true]
    split_ifs
    · exact ⟨rfl, rfl, Or.inr (Or.inl hd)⟩
    · exact ⟨rfl, rfl, Or.inr (Or.inl hd)⟩
  | true =>
    have hc := hm.resolve_left (by rw [hd]; simp)
    simp only [Bool.true_eq_false, if_false]
    refine ⟨rfl, rfl, Or.inr (Or.inr ?_)⟩
    simp only [removable, decide_eq_true_eq]
    exact ⟨trivial, le_of_eq hc.1⟩

theorem behaviourLoop_behaved (grid : Grid) (l : List object_list) :
    ∀ l', behaviourLoop grid l = .ok l' → List.Forall₂ behaved l l' := by
  induction l with
  | nil =>
    intro l' h
    simp only [behaviourLoop, Except.ok.injEq] at h
    subst h
    exact List.Forall₂.nil
  | cons m rest ih =>
    intro l' h
    by_cases hm : stopsLoop m
    · rw [behaviourLoop_cons_stop grid m rest hm] at h
      simp only [Except.ok.injEq] at h
      subst h
      exact List.Forall₂.cons (behaved_stopped m hm)
        (List.forall₂_same.mpr (fun n _ => behaved_refl n))
    · rw [behaviourLoop_cons_go grid m rest hm] at h
      cases hb : monsterBehaviour grid m.object with
      | error e => rw [hb] at h; simp at h
      | ok o =>
        rw [hb] at h
        simp only at h
        cases hr : behaviourLoop grid rest with
        | error e => rw [hr] at h; simp at h
        | ok rest1 =>
          rw [hr] at h
          simp only [Except.ok.injEq] at h
          subst h
          obtain ⟨f1, f2, f3⟩ := monsterBehaviour_frame _ _ _ hb
          exact List.Forall₂.cons ⟨rfl, f2, Or.inl ⟨f3, f1⟩⟩ (ih rest1 hr)

theorem forall₂_behaved_addr (l l' : List object_list) (h : List.Forall₂ behaved l l') :
    l'.map (fun n => n.addr) = l.map (fun n => n.addr) := by
  induction h with
  | nil => rfl
  | cons hab _ ih => simp only [List.map_cons, ih, hab.1]

theorem forall₂_behaved_mem (l l' : List object_list) (h : List.Forall₂ behaved l l')
    (n' : object_list) (hn : n' ∈ l') : ∃ n ∈ l, behaved n n' := by
  induction h with
  | nil => simp at hn
  | cons hab _ ih =>
    rcases List.mem_cons.mp hn with e | e
    · subst e
      exact ⟨_, List.mem_cons_self _ _, hab⟩
    · obtain ⟨n, hn1, hb⟩ := ih e
      exact ⟨n, List.mem_cons_of_mem _ hn1, hb⟩

/-- `UpdateMonsters` keeps the invariant: a hostile it marks dead on a bottom
corner is removed from the list in the same call. -/
theorem UpdateMonsters_invariant (w w' : World) (h : UpdateMonsters w = .ok w')
    (hi : RunInvariant w) : RunInvariant w' := by
  obtain ⟨hw, hf, hg, hs⟩ := hi
  unfold UpdateMonsters at h
  obtain ⟨ms, hms, h⟩ := bind_ok _ _ _ h
  obtain ⟨ms1, hc, h⟩ := bind_ok _ _ _ h
  simp only [pure, Except.pure, Except.ok.injEq] at h
  subst h
  have hrel := behaviourLoop_behaved _ _ _ hms
  have hms1 : ms1 = ms.filter kept := by
    rw [collect_eq] at hc
    cases hadj : adjacentRemovable ms with
    | true => rw [hadj] at hc; simp at hc
    | false =>
      rw [hadj] at hc
      simp only [Bool.false_eq_true, if_false, Except.ok.injEq] at hc
      exact hc.symm
  subst hms1
  have hsub : ((ms.filter kept).map (fun n => n.addr)).Sublist
      (w.g_monsters.map (fun n => n.addr)) := by
    rw [← forall₂_behaved_addr _ _ hrel]
    exact List.Sublist.map _ (List.filter_sublist _)
  have hfrom : ∀ n' ∈ ms.filter kept, ∃ n ∈ w.g_monsters, behaved n n' ∧ kept n' = true := by
    intro n' hn'
    obtain ⟨hn1, hk⟩ := List.mem_filter.mp hn'
    obtain ⟨n, hn, hb⟩ := forall₂_behaved_mem _ _ hrel n' hn1
    exact ⟨n, hn, hb, hk⟩
  refine ⟨⟨hw.1, hw.2.1, ?_, ?_⟩, ?_, hg, ?_⟩
  · intro n' hn'
    obtain ⟨n, hn, hb, _⟩ := hfrom n' hn'
    rw [hb.2.1]
    exact hw.2.2.1 n hn
  · show ((w.g_blocks ++ ms.filter kept).map (fun n : object_list => n.addr)).Nodup
    rw [List.map_append]
    have hnd := hw.2.2.2
    rw [List.map_append] at hnd
    exact hnd.sublist (List.Sublist.append (List.Sublist.refl _) hsub)
  · intro n' hn'
    show n'.addr < w.heap_next
    have hn2 : n' ∈ w.g_blocks ++ ms.filter kept := hn'
    rcases List.mem_append.mp hn2 with h1 | h1
    · exact hf n' (List.mem_append_left _ h1)
    · obtain ⟨n, hn, hb, _⟩ := hfrom n' h1
      rw [hb.1]
      exact hf n (List.mem_append_right _ hn)
  · intro i j n' hn' hgr
    have hgr' : w.grid i j = some (ObjRef.node n'.addr) := hgr
    obtain ⟨n, hn, hb, hk⟩ := hfrom n' hn'
    rw [hb.1] at hgr'
    obtain ⟨hal, hloc⟩ := hs i j n hn hgr'
    rcases hb.2.2 with ⟨e1, e2⟩ | e | e
    · exact ⟨by rw [e1]; exact hal, by rw [e2]; exact hloc⟩
    · rw [hal] at e
      exact absurd e (by simp)
    · simp only [kept, e, Bool.not_true] at hk
      exact absurd hk (by simp)

/-- What the loop over the live monsters keeps: addresses and kinds, node by
node, and the bound on the addresses stored in the grid. -/
theorem moveMonsters_keeps (l : List object_list) :
    ∀ (g : Grid) (r : Grid × List object_list) (bound : Nat), moveMonsters g l = .ok r →
      (∀ n ∈ l, n.addr < bound) →
      (∀ (i j : Int) (a : Nat), g i j = some (ObjRef.node a) → a < bound) →
      r.2.map (fun n => n.addr) = l.map (fun n => n.addr) ∧
      (∀ ty, (∀ n ∈ l, n.object.type = ty) → ∀ n ∈ r.2, n.object.type = ty) ∧
      (∀ (i j : Int) (a : Nat), r.1 i j = some (ObjRef.node a) → a < bound) := by
  induction l with
  | nil =>
    intro g r bound h _ hg
    simp only [moveMonsters, Except.ok.injEq] at h
    subst h
    exact ⟨rfl, fun _ _ n hn => absurd hn (by simp), hg⟩
  | cons m rest ih =>
    intro g r bound h hb hg
    cases ha : m.object.alive with
    | true =>
      rw [moveMonsters_cons_alive g m rest ha] at h
      cases hmo : MoveObject g (ObjRef.node m.addr) m.object m.object.speed with
      | error e => rw [hmo] at h; simp at h
      | ok r0 =>
        rw [hmo] at h
        simp only at h
        cases hr : moveMonsters r0.1 rest with
        | error e => rw [hr] at h; simp at h
        | ok r1 =>
          rw [hr] at h
          simp only [Except.ok.injEq] at h
          subst h
          have hm := MoveObject_ok g _ _ _ r0.1 r0.2 hmo
          have hg0 : ∀ (i j : Int) (a : Nat), r0.1 i j = some (ObjRef.node a) → a < bound := by
            intro i j a hga
            rw [hm.2.2.2.2.2.2.2.2.2] at hga
            simp only at hga
            split_ifs at hga
            · simp only [Option.some.injEq, ObjRef.node.injEq] at hga
              rw [← hga]
              exact hb m (List.mem_cons_self _ _)
            · exact hg i j a hga
          obtain ⟨i1, i2, i3⟩ := ih r0.1 r1 bound hr
            (fun n hn => hb n (List.mem_cons_of_mem _ hn)) hg0
          refine ⟨?_, ?_, i3⟩
          · simp only [List.map_cons, i1]
          · intro ty hty n hn
            rcases List.mem_cons.mp hn with e | e
            · subst e
              show r0.2.type = ty
              rw [hm.2.2.2.2.2.2.2.2.1]
              exact hty m (List.mem_cons_self _ _)
            · exact i2 ty (fun n hn => hty n (List.mem_cons_of_mem _ hn)) n e
    | false =>
      rw [moveMonsters_cons_dead g m rest ha] at h
      cases hr : moveMonsters g rest with
      | error e => rw [hr] at h; simp at h
      | ok r1 =>
        rw [hr] at h
        simp only [Except.ok.injEq] at h
        subst h
        obtain ⟨i1, i2, i3⟩ := ih g r1 bound hr
          (fun n hn => hb n (List.mem_cons_of_mem _ hn)) hg
        refine ⟨?_, ?_, i3⟩
        · simp only [List.map_cons, i1]
        · intro ty hty n hn
          rcases List.mem_cons.mp hn with e | e
          · subst e
            exact hty _ (List.mem_cons_self _ _)
          · exact i2 ty (fun n hn => hty n (List.mem_cons_of_mem _ hn)) n e

/-- The loop over the live monsters keeps the references to hostiles sound:
`MoveObject` clears the slot a hostile leaves and writes the slot it enters.
`pre` are the hostiles before the loop pointer. -/
theorem moveMonsters_sound (l : List object_list) :
    ∀ (pre : List object_list) (g : Grid) (r : Grid × List object_list),
      moveMonsters g l = .ok r →
      ((pre ++ l).map (fun n => n.addr)).Nodup →
      (∀ (i j : Int), ∀ n ∈ pre ++ l, g i j = some (ObjRef.node n.addr) →
        n.object.alive = true ∧ n.object.location = { x := i, y := j }) →
      (∀ (i j : Int), ∀ n ∈ pre ++ r.2, r.1 i j = some (ObjRef.node n.addr) →
        n.object.alive = true ∧ n.object.location = { x := i, y := j }) := by
  induction l with
  | nil =>
    intro pre g r h _ hs
    simp only [moveMonsters, Except.ok.injEq] at h
    subst h
    exact hs
  | cons m rest ih =>
    intro pre g r h hnd hs
    have hnd' := hnd
    rw [List.map_append, List.map_cons] at hnd'
    have hpre : ∀ n ∈ pre, n.addr ≠ m.addr := by
      intro n hn e
      have hdis := List.disjoint_of_nodup_append hnd'
      exact hdis (List.mem_map_of_mem (fun n => n.addr) hn) (by rw [e]; exact List.mem_cons_self _ _)
    have hrest : ∀ n ∈ rest, n.addr ≠ m.addr := by
      intro n hn e
      have h2 := (List.nodup_append.mp hnd').2.1
      rw [List.nodup_cons] at h2
      exact h2.1 (by rw [← e]; exact List.mem_map_of_mem (fun n => n.addr) hn)
    cases ha : m.object.alive with
    | true =>
      rw [moveMonsters_cons_alive g m rest ha] at h
      cases hmo : MoveObject g (ObjRef.node m.addr) m.object m.object.speed with
      | error e => rw [hmo] at h; simp at h
      | ok r0 =>
        rw [hmo] at h
        simp only at h
        cases hr : moveMonsters r0.1 rest with
        | error e => rw [hr] at h; simp at h
        | ok r1 =>
          rw [hr] at h
          simp only [Except.ok.injEq] at h
          subst h
          have hm := MoveObject_ok g _ _ _ r0.1 r0.2 hmo
          have hstep := ih (pre ++ [{ m with object := r0.2 }]) r0.1 r1 hr
            (by
              rw [List.append_assoc, List.singleton_append]
              rw [List.map_append, List.map_cons]
              exact hnd')
            (by
              intro i j n hn hgr
              rw [List.append_assoc, List.singleton_append] at hn
              rw [hm.2.2.2.2.2.2.2.2.2] at hgr
              simp only at hgr
              rcases List.mem_append.mp hn with h1 | h1
              · have hne := hpre n h1
                split_ifs at hgr with c1 c2
                · simp only [Option.some.injEq, ObjRef.node.injEq] at hgr
                  exact absurd hgr.symm hne
                · exact hs i j n (List.mem_append_left _ h1) hgr
              · rcases List.mem_cons.mp h1 with e | h2
                · subst e
                  split_ifs at hgr with c1 c2
                  · exact ⟨by show r0.2.alive = true; rw [hm.2.2.2.2.2.2.2.1]; exact ha,
                      point_eq _ _ c1.1.symm c1.2.symm⟩
                  · exfalso
                    have hgr' : g i j = some (ObjRef.node m.addr) := hgr
                    obtain ⟨_, hloc⟩ := hs i j m
                      (List.mem_append_right _ (List.mem_cons_self _ _)) hgr'
                    rw [hloc] at c2
                    exact c2 ⟨rfl, rfl⟩
                · have hne := hrest n h2
                  split_ifs at hgr with c1 c2
                  · simp only [Option.some.injEq, ObjRef.node.injEq] at hgr
                    exact absurd hgr.symm hne
                  · exact hs i j n
                      (List.mem_append_right _ (List.mem_cons_of_mem _ h2)) hgr)
          intro i j n hn hgr
          exact hstep i j n (by
            rw [List.append_assoc, List.singleton_append]; exact hn) hgr
    | false =>
      rw [moveMonsters_cons_dead g m rest ha] at h
      cases hr : moveMonsters g rest with
      | error e => rw [hr] at h; simp at h
      | ok r1 =>
        rw [hr] at h
        simp only [Except.ok.injEq] at h
        subst h
        have hstep := ih (pre ++ [m]) g r1 hr
          (by rw [List.append_assoc, List.singleton_append]; exact hnd)
          (by
            intro i j n hn hgr
            rw [List.append_assoc, List.singleton_append] at hn
            exact hs i j n hn hgr)
        intro i j n hn hgr
        exact hstep i j n (by
          rw [List.append_assoc, List.singleton_append]; exact hn) hgr

/-- The moves of one tick keep the invariant. -/
theorem applyMoves_invariant (w w' : World) (h : applyMoves w = .ok w')
    (hi : RunInvariant w) : RunInvariant w' := by
  obtain ⟨hw, hf, hg, hs⟩ := hi
  unfold applyMoves at h
  obtain ⟨r7, h7, h⟩ := bind_ok _ _ _ h
  obtain ⟨r8, h8, h⟩ := bind_ok _ _ _ h
  simp only [pure, Except.pure, Except.ok.injEq] at h
  subst h
  have hm := MoveObject_ok _ _ _ _ r7.1 r7.2 h7
  have hg7 : ∀ (i j : Int) (a : Nat), r7.1 i j = some (ObjRef.node a) → a < w.heap_next := by
    intro i j a hga
    rw [hm.2.2.2.2.2.2.2.2.2] at hga
    simp only at hga
    split_ifs at hga
    · simp at hga
    · exact hg i j a hga
  have hs7 : ∀ (i j : Int), ∀ n ∈ ([] : List object_list) ++ w.g_monsters, r7.1 i j = some (ObjRef.node n.addr) →
      n.object.alive = true ∧ n.object.location = { x := i, y := j } := by
    intro i j n hn hgr
    rw [hm.2.2.2.2.2.2.2.2.2] at hgr
    simp only at hgr
    split_ifs at hgr
    · simp at hgr
    · exact hs i j n (by simpa using hn) hgr
  have hndm : ((([] : List object_list) ++ w.g_monsters).map
      (fun n : object_list => n.addr)).Nodup := by
    have := hw.2.2.2
    rw [List.map_append] at this
    simpa using (List.nodup_append.mp this).2.1
  obtain ⟨k1, k2, k3⟩ := moveMonsters_keeps _ _ _ w.heap_next h8
    (fun n hn => hf n (List.mem_append_right _ hn)) hg7
  have k4 := moveMonsters_sound _ [] _ _ h8 hndm hs7
  refine ⟨⟨?_, hw.2.1, ?_, ?_⟩, ?_, k3, ?_⟩
  · show r7.2.type = ObjectType.PLAYER
    rw [hm.2.2.2.2.2.2.2.2.1]; exact hw.1
  · exact k2 ObjectType.MONSTER hw.2.2.1
  · show ((w.g_blocks ++ r8.2).map (fun n : object_list => n.addr)).Nodup
    rw [List.map_append, k1, ← List.map_append]
    exact hw.2.2.2
  · intro n hn
    show n.addr < w.heap_next
    have hn' : n ∈ w.g_blocks ++ r8.2 := hn
    rcases List.mem_append.mp hn' with h1 | h1
    · exact hf n (List.mem_append_left _ h1)
    · have hmem : n.addr ∈ r8.2.map (fun n : object_list => n.addr) :=
        List.mem_map_of_mem (fun n : object_list => n.addr) h1
      rw [k1] at hmem
      obtain ⟨n0, hn0, e⟩ := List.mem_map.mp hmem
      rw [← e]
      exact hf n0 (List.mem_append_right _ hn0)
  · intro i j n hn hgr
    exact k4 i j n (by simpa using hn) hgr

/-- The part of a tick before the moves keeps the invariant. -/
theorem beforeMoves_invariant (inp : TickInput) (w w' : World)
    (h : beforeMoves inp w = .ok w') (hi : RunInvariant w) : RunInvariant w' := by
  unfold beforeMoves at h
  obtain ⟨w1, h1, h⟩ := bind_ok _ _ _ h
  obtain ⟨p2, h2, h⟩ := bind_ok _ _ _ h
  obtain ⟨p3, h3, h⟩ := bind_ok _ _ _ h
  obtain ⟨w4, h4, h⟩ := bind_ok _ _ _ h
  obtain ⟨w5, h5, h⟩ := bind_ok _ _ _ h
  obtain ⟨f1g, f1b, f1m, _, f1h, _, f1ty, _⟩ := horizontalResponse_frame _ _ h1
  have f2 := verticalResponse_frame _ _ _ h2
  have f3 := cornerLock_frame _ _ _ h3
  have i3 : RunInvariant { w1 with player := p3 } :=
    RunInvariant_congr w _ (by show p3.type = _; rw [f3.2.1, f2.2.1, f1ty]) f1b f1m f1g f1h hi
  exact UpdateMonsters_invariant _ _ h
    (spawnStep_invariant _ _ _ h5 (stompResolution_invariant _ _ h4 i3))

/-- Every completed tick keeps the invariant. -/
theorem UpdateState_invariant (inp : TickInput) (w w' : World)
    (h : UpdateState inp w = .ok w') (hi : RunInvariant w) : RunInvariant w' := by
  obtain ⟨w6, h6⟩ := beforeMoves_of_tick inp w w' h
  exact applyMoves_invariant w6 w' (applyMoves_of_tick inp w w6 w' h6 h)
    (beforeMoves_invariant inp w w6 h6 hi)

theorem runTicks_invariant (inps : List TickInput) :
    ∀ (w w' : World), runTicks inps w = .ok w' → RunInvariant w → RunInvariant w' := by
  induction inps with
  | nil =>
    intro w w' h hi
    simp only [runTicks, Except.ok.injEq] at h
    subst h; exact hi
  | cons inp rest ih =>
    intro w w' h hi
    unfold runTicks at h
    cases h1 : UpdateState inp w with
    | error e => rw [h1] at h; simp at h
    | ok w1 =>
      rw [h1] at h
      exact ih w1 w' h (UpdateState_invariant inp w w1 h1 hi)

theorem staticWorld_invariant : RunInvariant staticWorld := by
  refine ⟨⟨rfl, ?_, ?_, ?_⟩, ?_, ?_, ?_⟩
  · intro n hn; exact absurd hn (by simp [staticWorld])
  · intro n hn; exact absurd hn (by simp [staticWorld])
  · simp [staticWorld]
  · intro n hn; exact absurd hn (by simp [staticWorld])
  · intro i j a h
    simp only [staticWorld] at h
    split_ifs at h
    simp at h
  · intro i j n hn; exact absurd hn (by simp [staticWorld])

/-- Placing the platforms keeps the invariant as long as there is no hostile
yet: every platform gets a fresh address. -/
theorem placeBlocks_invariant (l : List (point × Char)) :
    ∀ (w w' : World), placeBlocks l w = .ok w' → RunInvariant w → w.g_monsters = [] →
      RunInvariant w' ∧ w'.g_monsters = [] := by
  induction l with
  | nil =>
    intro w w' h hi hm
    simp only [placeBlocks, Except.ok.injEq] at h
    subst h
    exact ⟨hi, hm⟩
  | cons pc rest ih =>
    intro w w' h hi hm
    obtain ⟨p, ch⟩ := pc
    unfold placeBlocks at h
    by_cases c : ch = '*'
    · simp only [c, if_true] at h
      split at h
      · exact absurd h (by simp)
      rename_i r hr
      obtain ⟨_, hg, hl⟩ := CreateObject_ok _ _ _ _ _ _ _ _ hr
      refine ih _ _ h ?_ hm
      obtain ⟨hw, hf, hgb, _⟩ := hi
      refine ⟨⟨hw.1, ?_, ?_, ?_⟩, ?_, ?_, ?_⟩
      · intro n hn
        have hn' : n ∈ r.2 := hn
        rw [hl] at hn'
        rcases List.mem_append.mp hn' with h1 | h1
        · exact hw.2.1 n h1
        · simp only [List.mem_singleton] at h1
          subst h1; rfl
      · intro n hn
        have hn' : n ∈ w.g_monsters := hn
        rw [hm] at hn'
        exact absurd hn' (by simp)
      · show ((r.2 ++ w.g_monsters).map (fun n : object_list => n.addr)).Nodup
        rw [hl, hm, List.append_nil, List.map_append]
        have hnd := hw.2.2.2
        rw [hm, List.append_nil] at hnd
        refine List.Nodup.append hnd (by simp) ?_
        intro a ha hb
        simp only [List.map_cons, List.map_nil, List.mem_singleton] at hb
        obtain ⟨n, hn, e⟩ := List.mem_map.mp ha
        have := hf n (List.mem_append_left _ hn)
        omega
      · intro n hn
        show n.addr < w.heap_next + 1
        have hn' : n ∈ r.2 ++ w.g_monsters := hn
        rw [hl, hm, List.append_nil] at hn'
        rcases List.mem_append.mp hn' with h1 | h1
        · exact Nat.lt_succ_of_lt (hf n (List.mem_append_left _ h1))
        · simp only [List.mem_singleton] at h1
          subst h1
          exact Nat.lt_succ_self _
      · intro i j a ha
        show a < w.heap_next + 1
        have ha' : r.1 i j = some (ObjRef.node a) := ha
        rw [hg] at ha'
        simp only at ha'
        split_ifs at ha'
        · simp only [Option.some.injEq, ObjRef.node.injEq] at ha'
          omega
        · exact Nat.lt_succ_of_lt (hgb i j a ha')
      · intro i j n hn
        have hn' : n ∈ w.g_monsters := hn
        rw [hm] at hn'
        exact absurd hn' (by simp)
    · simp only [c, if_false] at h
      exact ih _ _ h hi hm

/-- The initial world satisfies the invariant. -/
theorem initializeWorld_invariant (map_txt : List Char) (w : World)
    (h : initializeWorld map_txt = .ok w) : RunInvariant w := by
  unfold initializeWorld at h
  obtain ⟨w1, h1, h⟩ := bind_ok _ _ _ h
  obtain ⟨w2, h2, h⟩ := bind_ok _ _ _ h
  obtain ⟨i1, _⟩ := placeBlocks_invariant _ _ _ h1 staticWorld_invariant rfl
  exact createMonster_invariant _ _ _ h (createMonster_invariant _ _ _ h2 i1)

/-- The references to hostiles are sound in the initial world and after any
number of completed ticks from it. -/
theorem reachable_refs_sound (map_txt : List Char) (inps : List TickInput) (w0 w : World)
    (h0 : initializeWorld map_txt = .ok w0) (h : runTicks inps w0 = .ok w) :
    WellFormed w ∧ HostileRefsSound w := by
  have hi := runTicks_invariant inps w0 w h (initializeWorld_invariant map_txt w0 h0)
  exact ⟨hi.1, hi.2.2.2⟩

theorem doubleRemovalWorld_invariant : RunInvariant doubleRemovalWorld := by
  refine ⟨by unfold WellFormed; decide!, by decide!, ?_, ?_⟩
  · intro i j a h
    have h' : (if i = 5 ∧ j = 1 then some ObjRef.player
      else if i = 5 ∧ j = 0 then some (ObjRef.node 2)
      else if i = 0 ∧ j = 0 then some (ObjRef.node 1) else none) = some (ObjRef.node a) := h
    show a < 3
    split_ifs at h'
    · simp at h'
    · simp only [Option.some.injEq, ObjRef.node.injEq] at h'
      omega
    · simp only [Option.some.injEq, ObjRef.node.injEq] at h'
      omega
  · intro i j n hn h
    have h' : (if i = 5 ∧ j = 1 then some ObjRef.player
      else if i = 5 ∧ j = 0 then some (ObjRef.node 2)
      else if i = 0 ∧ j = 0 then some (ObjRef.node 1) else none) =
        some (ObjRef.node n.addr) := h
    have hn' : n = cornerWalker ∨ n = bottomWalker := by
      have : n ∈ [cornerWalker, bottomWalker] := hn
      simpa using this
    rcases hn' with e | e <;> subst e <;> split_ifs at h' with c1 c2 c3 <;>
      first
        | (simp [cornerWalker, bottomWalker] at h'; done)
        | (obtain ⟨e1, e2⟩ := c3; subst e1 e2; exact ⟨rfl, rfl⟩)
        | (obtain ⟨e1, e2⟩ := c2; subst e1 e2; exact ⟨rfl, rfl⟩)

/-- C21 (evaluation at the failing input): in `doubleRemovalWorld`, a world that
satisfies the invariant of the states a run produces and in which every entity
is the occupant of its slot, the player stomps the hostile below it and the
hostile before that one in the list has reached the bottom-left corner, so
after the behaviour loop two adjacent hostiles are dead on the bottom row.  The
tick as coded runs the removal loop of `UpdateMonsters` on them and ends in a
use of freed memory, with the list corrupt; the tick in the order of the
specification completes, with both hostiles removed and the player moved.
For comparison, in `mixedWorld`, where one dead hostile is removed and one live
hostile is moved, both orders complete with the same world. -/
theorem tick_orders_differ_on_adjacent_removals :
    RunInvariant doubleRemovalWorld ∧ GridConsistent doubleRemovalWorld ∧
    UpdateState tickAt0 doubleRemovalWorld = .error Fault.useAfterFree ∧
    (∃ w', UpdateStateSpecOrder tickAt0 doubleRemovalWorld = .ok w' ∧
      w'.g_monsters = [] ∧
      w'.player = { location := { x := 5, y := 1 }, center := { x := 23, y := 23 },
                    speed := { x := 1 / 4, y := 1 / 4 }, alive := true,
                    type := ObjectType.PLAYER } ∧
      w'.grid 5 1 = some ObjRef.player ∧ w'.grid 5 0 = none) ∧
    (∃ w', UpdateState tickAt0 mixedWorld = .ok w' ∧
      UpdateStateSpecOrder tickAt0 mixedWorld = .ok w' ∧
      w'.g_monsters =
        [{ addr := 4,
           object := { location := { x := 5, y := 9 }, center := { x := 20, y := 10 },
                       speed := { x := 3 / 20, y := -3 / 20 }, alive := true,
                       type := ObjectType.MONSTER } }] ∧
      w'.player = { location := { x := 10, y := 5 }, center := { x := 23, y := 23 },
                    speed := { x := 1 / 4, y := 1 / 4 }, alive := true,
                    type := ObjectType.PLAYER } ∧
      w'.grid 10 5 = some ObjRef.player ∧ w'.grid 5 9 = some (ObjRef.node 4)) := by
  have hrun := eq_ok_of_isOk (UpdateState tickAt0 mixedWorld) mixedWorld (by decide!)
  refine ⟨doubleRemovalWorld_invariant, by decide!, ?_, ?_, ?_⟩
  · exact eq_error_of_faultOf _ _ (by decide!)
  · exact ⟨_, eq_ok_of_isOk (UpdateStateSpecOrder tickAt0 doubleRemovalWorld)
      doubleRemovalWorld (by decide!), by decide!, by decide!, by decide!, by decide!⟩
  · exact ⟨_, hrun, tick_order_refines _ _ _ hrun, by decide!, by decide!, by decide!,
      by decide!⟩

/-- C1 (amended): every entity of the store is the occupant of the grid slot at
its own location unless that slot was written or cleared after the entity was
last written to it.
 * In the initial world the player and the two initial hostiles are the
   occupants of their slots, and so is every obstacle that is not on one of the
   two top corner tiles, where the initial hostiles are created after it.
 * After every completed tick, from any world state, with `w6` the state before
   the calls of `MoveObject` of that tick (which keep the hostile list node by
   node and move the hostiles that are alive): the player is the occupant of its
   slot unless a live hostile was moved onto or off the player's tile; a live
   hostile of the list is the occupant of its slot unless a hostile later in
   the list was moved onto or off its tile; and, the state before the tick
   being well-formed, an obstacle that was the occupant of its slot before the
   tick still is unless a hostile was spawned on its tile or the player or a
   live hostile was moved onto or off it.
 * The exceptions are exact: the player that is the occupant of its slot after
   the tick had no live hostile moved onto or off its tile, and from a state
   that satisfies the invariant of runs the same holds for a live hostile and
   the hostiles after it in the list, and for an obstacle, the spawn and the
   moves of the tick. -/
theorem occupant_unless_overwritten :
    (∀ (map_txt : List Char) (w : World), initializeWorld map_txt = .ok w →
      w.grid w.player.location.x w.player.location.y = some ObjRef.player ∧
      (∀ m ∈ w.g_monsters,
        w.grid m.object.location.x m.object.location.y = some (ObjRef.node m.addr)) ∧
      (∀ b ∈ w.g_blocks, b.object.location ≠ { x := LEFT, y := TOP } →
        b.object.location ≠ { x := RIGHT, y := TOP } →
        w.grid b.object.location.x b.object.location.y = some (ObjRef.node b.addr))) ∧
    (∀ (inp : TickInput) (w w' : World), UpdateState inp w = .ok w' →
      ∃ w6, beforeMoves inp w = .ok w6 ∧
        List.Forall₂ (fun (n n' : object_list) => n'.addr = n.addr ∧
          n'.object.alive = n.object.alive ∧ (n.object.alive = false → n' = n))
          w6.g_monsters w'.g_monsters ∧
        (untouched w6.g_monsters w'.g_monsters w'.player.location →
          w'.grid w'.player.location.x w'.player.location.y = some ObjRef.player) ∧
        (∀ (k : Nat) (m' : object_list), w'.g_monsters[k]? = some m' →
          m'.object.alive = true →
          untouched (w6.g_monsters.drop (k + 1)) (w'.g_monsters.drop (k + 1))
            m'.object.location →
          w'.grid m'.object.location.x m'.object.location.y = some (ObjRef.node m'.addr)) ∧
        (WellFormed w → ∀ b ∈ w'.g_blocks,
          w.grid b.object.location.x b.object.location.y = some (ObjRef.node b.addr) →
          ¬ (inp.now - w.last_time > 1 ∧ b.object.location = spawnLocation inp.rand) →
          w.player.location ≠ b.object.location →
          w'.player.location ≠ b.object.location →
          untouched w6.g_monsters w'.g_monsters b.object.location →
          w'.grid b.object.location.x b.object.location.y = some (ObjRef.node b.addr)) ∧
        (w'.grid w'.player.location.x w'.player.location.y = some ObjRef.player →
          untouched w6.g_monsters w'.g_monsters w'.player.location) ∧
        (RunInvariant w → ∀ (k : Nat) (m' : object_list), w'.g_monsters[k]? = some m' →
          m'.object.alive = true →
          w'.grid m'.object.location.x m'.object.location.y = some (ObjRef.node m'.addr) →
          untouched (w6.g_monsters.drop (k + 1)) (w'.g_monsters.drop (k + 1))
            m'.object.location) ∧
        (RunInvariant w → ∀ b ∈ w'.g_blocks,
          w'.grid b.object.location.x b.object.location.y = some (ObjRef.node b.addr) →
          ¬ (inp.now - w.last_time > 1 ∧ b.object.location = spawnLocation inp.rand) ∧
          w.player.location ≠ b.object.location ∧
          w'.player.location ≠ b.object.location ∧
          untouched w6.g_monsters w'.g_monsters b.object.location)) := by
  refine ⟨initializeWorld_occupants, ?_⟩
  intro inp w w' h
  obtain ⟨w6, h6⟩ := beforeMoves_of_tick inp w w' h
  have hmv := applyMoves_of_tick inp w w6 w' h6 h
  obtain ⟨hb, hp, hm, hg⟩ := applyMoves_occupants w6 w' hmv
  obtain ⟨xp, xm, xo⟩ := applyMoves_exact w6 w' hmv
  refine ⟨w6, h6, applyMoves_aligned w6 w' hmv, hp, hm, ?_, xp, ?_, ?_⟩
  · intro hw b hbm hocc hsp hold hnew hu
    obtain ⟨f6b, f6l, f6g⟩ := beforeMoves_obstacles inp w w6 hw h6
    rw [hb, f6b] at hbm
    rw [hg b.object.location (by rw [f6l]; exact hold) hnew hu]
    exact f6g b hbm hocc hsp
  · intro hi
    have hi6 := beforeMoves_invariant inp w w6 h6 hi
    have hnd : (w6.g_monsters.map (fun n => n.addr)).Nodup := by
      have := hi6.1.2.2.2
      rw [List.map_append] at this
      exact (List.nodup_append.mp this).2.1
    exact xm hnd
  · intro hi b hbm hocc
    have hi6 := beforeMoves_invariant inp w w6 h6 hi
    obtain ⟨f6b, f6l, _⟩ := beforeMoves_obstacles inp w w6 hi.1 h6
    have hb6 : b ∈ w6.g_blocks := by rw [← hb]; exact hbm
    have hne : ∀ n ∈ w6.g_monsters, n.addr ≠ b.addr := by
      intro n hn e
      have hnd := hi6.1.2.2.2
      rw [List.map_append] at hnd
      exact List.disjoint_of_nodup_append hnd (List.mem_map_of_mem (fun n => n.addr) hb6)
        (by rw [← e]; exact List.mem_map_of_mem (fun n => n.addr) hn)
    obtain ⟨h6g, hold, hnew, hu⟩ := xo b.object.location b.addr hne hocc
    refine ⟨?_, by rw [← f6l]; exact hold, hnew, hu⟩
    rintro ⟨hf, hloc⟩
    have hs := beforeMoves_spawn_slot inp w w6 hi.1 h6 hf
    rw [← hloc, h6g] at hs
    simp only [Option.some.injEq, ObjRef.node.injEq] at hs
    have hlt := hi.2.1 b (List.mem_append_left _ (by rw [← f6b]; exact hb6))
    omega

/-- One tick of `ledgeWorld`, in which the player and a live hostile move within
their tiles and a dead hostile is removed: afterwards the player, the hostile
and the platform are the occupants of their slots. -/
theorem occupant_unless_overwritten_witness :
    ∃ w', UpdateState tickAt0 ledgeWorld = .ok w' ∧
      w'.player.location = { x := 10, y := 5 } ∧
      w'.grid 10 5 = some ObjRef.player ∧
      w'.g_monsters.map (fun n => (n.addr, n.object.location, n.object.alive))
        = [(4, { x := 5, y := 9 }, true)] ∧
      w'.grid 5 9 = some (ObjRef.node 4) ∧
      w'.g_blocks = [ledgeBlock] ∧
      w'.grid 3 3 = some (ObjRef.node 0) := by
  have hrun := eq_ok_of_isOk (UpdateState tickAt0 ledgeWorld) ledgeWorld (by decide!)
  have h6c := eq_ok_of_isOk (beforeMoves tickAt0 ledgeWorld) ledgeWorld (by decide!)
  obtain ⟨w6, h6, _, hp, hm, hb, _⟩ :=
    occupant_unless_overwritten.2 tickAt0 ledgeWorld _ hrun
  rw [h6c] at h6
  simp only [Except.ok.injEq] at h6
  subst h6
  have hl : (getOk (UpdateState tickAt0 ledgeWorld) ledgeWorld).player.location =
      { x := 10, y := 5 } := by decide!
  have hpl := hp (by decide!)
  rw [hl] at hpl
  refine ⟨_, hrun, hl, hpl, by decide!, ?_, by decide!, ?_⟩
  · exact hm 0
      { addr := 4,
        object := { location := { x := 5, y := 9 }, center := { x := 20, y := 10 },
                    speed := { x := 3 / 20, y := -3 / 20 }, alive := true,
                    type := ObjectType.MONSTER } }
      (by decide!) rfl (by decide!)
  · exact hb (by unfold WellFormed; decide!) ledgeBlock (by decide!) (by decide!) (by decide!)
      (by decide!) (by decide!) (by decide!)

end Gingerwar
